import Mathlib

/-! golid: authentication and session lifecycle

A shallow embedding of `backend/internal/service/auth.go`, `auth_password.go`,
`auth_verify.go`, `retry.go`, `backend/internal/middleware/auth.go` (token helpers
and the bearer middleware), `backend/internal/middleware/stack.go` (the error
handler), `backend/internal/validate/validate.go` (LIKE patterns),
`backend/internal/handler/auth.go` (the forgot-password and resend-verification
handlers) and `backend/internal/apperror/errors.go`.

* The relational store is a pair of row lists; each SQL statement of the source is
  a function on that state.  A transaction is a snapshot plus a working copy.
* Time instants and durations are integers counting nanoseconds (`time.Time`,
  `time.Duration`); the times inside a token are cut down to whole seconds.
* What the source takes from libraries outside the repository (SHA-256, bcrypt, the
  JWT codec, Unicode case mapping) is a parameter, `Deps`.
* What the environment decides during one call (the clock, random bytes, which
  statement fails) is a parameter, `Env`.
-/

set_option autoImplicit false

namespace Golid

deriving instance DecidableEq for Except

/-! ## apperror -/

namespace apperror

/-- Error codes of `apperror/errors.go`. -/
inductive Code where
  | CodeInternal
  | CodeValidation
  | CodeNotFound
  | CodeUnauthorized
  | CodeForbidden
  | CodeConflict
  | CodeRateLimited
  | CodeBadRequest
  | CodeTimeout
  | CodeServiceUnavail
  deriving DecidableEq, Repr

/-- The wire string of a code. -/
def Code.toString : Code → String
  | .CodeInternal => "INTERNAL_ERROR"
  | .CodeValidation => "VALIDATION_ERROR"
  | .CodeNotFound => "NOT_FOUND"
  | .CodeUnauthorized => "UNAUTHORIZED"
  | .CodeForbidden => "FORBIDDEN"
  | .CodeConflict => "CONFLICT"
  | .CodeRateLimited => "RATE_LIMITED"
  | .CodeBadRequest => "BAD_REQUEST"
  | .CodeTimeout => "REQUEST_TIMEOUT"
  | .CodeServiceUnavail => "SERVICE_UNAVAILABLE"

/-- Structured application error.  `Details` is the field-keyed map as an
association list; `Err` is the wrapped cause, kept as the text given to
`fmt.Errorf`. -/
structure AppError where
  Code : Code
  Message : String
  Details : List (String × String)
  HTTPStatus : Nat
  Err : Option String
  deriving DecidableEq, Repr

def Internal (err : String) : AppError :=
  { Code := .CodeInternal, Message := "An internal error occurred", Details := [],
    HTTPStatus := 500, Err := some err }

def NotFound (resource : String) : AppError :=
  { Code := .CodeNotFound, Message := resource ++ " not found", Details := [],
    HTTPStatus := 404, Err := none }

def Validation (message : String) (details : List (String × String)) : AppError :=
  { Code := .CodeValidation, Message := message, Details := details,
    HTTPStatus := 400, Err := none }

def Unauthorized (message : String) : AppError :=
  { Code := .CodeUnauthorized,
    Message := if message = "" then "Authentication required" else message,
    Details := [], HTTPStatus := 401, Err := none }

def Conflict (message : String) : AppError :=
  { Code := .CodeConflict, Message := message, Details := [],
    HTTPStatus := 409, Err := none }

def BadRequest (message : String) : AppError :=
  { Code := .CodeBadRequest, Message := message, Details := [],
    HTTPStatus := 400, Err := none }

end apperror

open apperror

/-! ## Data model -/

/-- A row of `users`.  The columns `avatar_url` and `updated_at` are left out: no
statement of the auth service reads or writes them. -/
structure UserRow where
  id : String
  email : String
  passwordHash : String
  type : String
  emailVerified : Bool
  firstName : Option String
  lastName : Option String
  verificationSelector : Option String
  verificationVerifierHash : Option String
  passwordResetSelector : Option String
  passwordResetVerifierHash : Option String
  passwordResetExpires : Option Int
  createdAt : Int
  deriving DecidableEq, Repr

/-- A row of `refresh_tokens`.  The surrogate key `id` is left out: no statement of
the auth service reads it. -/
structure RefreshTokenRow where
  userId : String
  tokenHash : String
  expiresAt : Int
  revoked : Bool
  createdAt : Int
  deriving DecidableEq, Repr

/-- The relational store: the two tables the auth service works on. -/
structure Store where
  users : List UserRow
  refreshTokens : List RefreshTokenRow
  deriving DecidableEq, Repr

/-- The registered claims of a token (`jwt.RegisteredClaims`). -/
structure RegisteredClaims where
  ID : String
  Subject : String
  ExpiresAt : Int
  IssuedAt : Int
  Issuer : String
  deriving DecidableEq, Repr

/-- Access-token claims (`middleware.Claims`). -/
structure Claims where
  UserID : String
  UserType : String
  ExpiresAt : Int
  IssuedAt : Int
  Issuer : String
  deriving DecidableEq, Repr

/-- Library functions the source calls and the repository does not define. -/
structure Deps where
  /-- The lowercase hexadecimal SHA-256 digest: `hex.EncodeToString(sha256.Sum256(..))`. -/
  sha256Hex : String → String
  /-- The result of `bcrypt.GenerateFromPassword(password, DefaultCost)` for a salt. -/
  bcryptGenerate : String → String → String
  /-- Whether `bcrypt.CompareHashAndPassword(hash, password)` returns no error. -/
  bcryptCompare : String → String → Bool
  /-- HS256 signature of access claims: `NewWithClaims(..).SignedString(secret)`. -/
  jwtSignAccess : String → Claims → String
  /-- HS256 signature of registered claims. -/
  jwtSignRefresh : String → RegisteredClaims → String
  /-- The result of `jwt.ParseWithClaims` at a time: secret, clock, token string; the
  claims when the method is HMAC, the signature is valid and the token is not
  expired. -/
  jwtParse : String → Int → String → Option RegisteredClaims
  /-- The result of `jwt.ParseWithClaims` into `middleware.Claims` at a time, under
  the same checks: the key `sub` is read into `UserID`, the key `type` into
  `UserType`, and a key absent from the token leaves the zero value. -/
  jwtParseClaims : String → Int → String → Option Claims
  /-- The Go function `strings.ToLower`. -/
  toLower : String → String

/-- The points at which a call can fail for reasons outside the program: a
statement sent to the store, the random source, a library call that returns an
error. -/
inductive Step where
  | begin
  | commit
  | createUser
  | getUser
  | claimToken
  | storeToken
  | revokeTokens
  | updatePassword
  | storeResetToken
  | updateVerification
  | signAccess
  | signRefresh
  | hashPassword
  | random
  | cleanupTokens
  deriving DecidableEq, Repr

/-- What the environment supplies during one call. -/
structure Env where
  /-- The clock: `time.Now()` in the program and `NOW()` in the store. -/
  now : Int
  /-- The steps that fail during this call. -/
  fails : Step → Bool
  /-- The identifier drawn by `uuid.New()`. -/
  uuid : String
  /-- The salt drawn by bcrypt. -/
  salt : String
  /-- The 16 bytes read for a selector. -/
  selectorBytes : List Nat
  /-- The 32 bytes read for a verifier. -/
  verifierBytes : List Nat
  /-- The identifier the store generates for a new `users` row. -/
  newUserID : String

/-- The auth service: its configuration (the pool is the `Store` argument). -/
structure AuthService where
  jwtSecret : String
  jwtIssuer : String
  accessDuration : Int
  refreshDuration : Int
  passwordResetTTL : Int
  deriving DecidableEq, Repr

/-! ## Go library functions with a direct definition -/

/-- The fraction `num / den` divided by `2 ^ e`, as numerator and denominator. -/
def scaleDown (num den : Nat) (e : Int) : Nat × Nat :=
  if 0 ≤ e then (num, den * 2 ^ e.toNat) else (num * 2 ^ (-e).toNat, den)

/-- The number of halvings that bring a number below 2, counted with a bound. -/
def bitsBelow : Nat → Nat → Nat
  | 0, _ => 0
  | fuel + 1, n => if n < 2 then 0 else bitsBelow fuel (n / 2) + 1

/-- The position of the highest bit of a number. -/
def log2 (n : Nat) : Nat := bitsBelow n n

/-- The exponent of the power of two at or below the positive fraction `num / den`. -/
def floorLog2 (num den : Nat) : Int :=
  let l : Int := (log2 num : Int) - (log2 den : Int)
  let p := scaleDown num den l
  if p.2 ≤ p.1 then l else l - 1

/-- The `float64` nearest to the fraction `num / den`, ties to the even significand,
as numerator and denominator: the fraction is scaled to a significand of 53 bits,
rounded, and scaled back.  Values in the normal range of `float64`. -/
def roundFloat64 (num den : Nat) : Nat × Nat :=
  if num = 0 ∨ den = 0 then (0, 1)
  else
    let e : Int := floorLog2 num den - 52
    let p := scaleDown num den e
    let q := p.1 / p.2
    let r := p.1 % p.2
    let m := if p.2 < 2 * r ∨ (2 * r = p.2 ∧ q % 2 = 1) then q + 1 else q
    if 0 ≤ e then (m * 2 ^ e.toNat, 1) else (m, 2 ^ (-e).toNat)

/-- The Go expression `int(d.Seconds())` for a `time.Duration` of `d` nanoseconds:
`Seconds` is `float64(d / Second) + float64(d % Second) / 1e9`, each operation
rounded to `float64`, and the conversion to `int` drops the fraction.  Go divides
toward zero, so a negative duration gives the opposite of its absolute value. -/
def secondsInt (d : Int) : Int :=
  let a := d.natAbs
  let sec := roundFloat64 (a / 1000000000) 1
  let frac := roundFloat64 (a % 1000000000) 1000000000
  let sum := roundFloat64 (sec.1 * frac.2 + frac.1 * sec.2) (sec.2 * frac.2)
  let v : Int := ((sum.1 / sum.2 : Nat) : Int)
  if d < 0 then -v else v

/-- The white space of `unicode.IsSpace`, which `strings.TrimSpace` removes. -/
def isSpace (c : Char) : Bool :=
  let n := c.toNat
  (9 ≤ n && n ≤ 13) || n == 32 || n == 133 || n == 160 || n == 5760 ||
    (8192 ≤ n && n ≤ 8202) || n == 8232 || n == 8233 || n == 8239 || n == 8287 ||
    n == 12288

/-- The Go function `strings.TrimSpace`: leading and trailing white space removed. -/
def TrimSpace (s : String) : String :=
  String.mk ((s.toList.dropWhile isSpace).reverse.dropWhile isSpace).reverse

/-- The text before and after the first occurrence of a separator character. -/
def cutFirst (sep : Char) : List Char → Option (List Char × List Char)
  | [] => none
  | c :: cs =>
    if c = sep then some ([], cs)
    else match cutFirst sep cs with
      | none => none
      | some (a, b) => some (c :: a, b)

/-- The Go call `strings.SplitN(s, sep, 2)` for a one-character separator: one part
when the separator does not occur, else the text before and after its first
occurrence. -/
def SplitN2 (s : String) (sep : Char) : List String :=
  match cutFirst sep s.toList with
  | none => [s]
  | some (a, b) => [String.mk a, String.mk b]

/-- The alphabet of `base64.URLEncoding`. -/
def urlAlphabet : List Char :=
  "ABCDEFGHIJKLMNOPQRSTUVWXYZabcdefghijklmnopqrstuvwxyz0123456789-_".toList

/-- The character of a 6-bit value. -/
def urlChar (n : Nat) : Char := urlAlphabet.getD (n % 64) 'A'

/-- The encoding of a byte list, three bytes to four characters, padded with `=`. -/
def encodeBytes : List Nat → List Char
  | [] => []
  | [a] => [urlChar (a / 4), urlChar (a % 4 * 16), '=', '=']
  | [a, b] => [urlChar (a / 4), urlChar (a % 4 * 16 + b / 16), urlChar (b % 16 * 4), '=']
  | a :: b :: c :: rest =>
    urlChar (a / 4) :: urlChar (a % 4 * 16 + b / 16) :: urlChar (b % 16 * 4 + c / 64) ::
      urlChar (c % 64) :: encodeBytes rest

/-- The Go call `base64.URLEncoding.EncodeToString`. -/
def EncodeToString (bytes : List Nat) : String := String.mk (encodeBytes bytes)

/-- A buffer of `n` bytes filled from the random source: `make([]byte, n)` followed
by `rand.Read`. -/
def readBytes (n : Nat) (source : List Nat) : List Nat :=
  (List.range n).map (fun i => source.getD i 0 % 256)

/-! ## Token helpers (`auth_password.go`, `auth_verify.go`, `middleware/auth.go`) -/

/-- Source: `hashVerifier`, the hex SHA-256 digest of a string. -/
def hashVerifier (d : Deps) (verifier : String) : String := d.sha256Hex verifier

/-- Source: `verifyHash`.  `subtle.ConstantTimeCompare` returns 1 exactly when the
two byte strings are equal. -/
def verifyHash (d : Deps) (verifier storedHash : String) : Bool :=
  decide (hashVerifier d verifier = storedHash)

/-- Source: `parseResetToken`; `none` stands for the format error. -/
def parseResetToken (token : String) : Option (String × String) :=
  let parts := SplitN2 token '.'
  if parts.length ≠ 2 then none
  else some (parts.getD 0 "", parts.getD 1 "")

/-- Source: `parseVerificationToken`; `none` stands for the format error. -/
def parseVerificationToken (token : String) : Option (String × String) :=
  let parts := SplitN2 token '.'
  if parts.length ≠ 2 then none
  else some (parts.getD 0 "", parts.getD 1 "")

/-- Source: `generateResetToken`: selector, verifier and token, or `none` when the
random source fails. -/
def generateResetToken (env : Env) : Option (String × String × String) :=
  if env.fails .random then none
  else
    let selector := EncodeToString (readBytes 16 env.selectorBytes)
    let verifier := EncodeToString (readBytes 32 env.verifierBytes)
    some (selector, verifier, selector ++ "." ++ verifier)

/-- Source: `generateVerificationToken`. -/
def generateVerificationToken (env : Env) : Option (String × String × String) :=
  if env.fails .random then none
  else
    let selector := EncodeToString (readBytes 16 env.selectorBytes)
    let verifier := EncodeToString (readBytes 32 env.verifierBytes)
    some (selector, verifier, selector ++ "." ++ verifier)

/-- The library function `jwt.NewNumericDate`: the instant cut down to a whole second
(`t.Truncate(jwt.TimePrecision)`, with the precision of one second the library
starts with), instants being counted in nanoseconds. -/
def NewNumericDate (t : Int) : Int := t - t % 1000000000

/-- Source: `middleware.GenerateToken`; `none` when signing returns an error. -/
def GenerateToken (d : Deps) (env : Env) (secret userID userType issuer : String)
    (accessDuration : Int) : Option String :=
  if env.fails .signAccess then none
  else some (d.jwtSignAccess secret
    { UserID := userID, UserType := userType,
      ExpiresAt := NewNumericDate (env.now + accessDuration),
      IssuedAt := NewNumericDate env.now, Issuer := issuer })

/-- Source: `middleware.GenerateRefreshToken`; `none` when signing returns an error. -/
def GenerateRefreshToken (d : Deps) (env : Env) (secret userID issuer : String)
    (refreshDuration : Int) : Option String :=
  if env.fails .signRefresh then none
  else some (d.jwtSignRefresh secret
    { ID := env.uuid, Subject := userID,
      ExpiresAt := NewNumericDate (env.now + refreshDuration),
      IssuedAt := NewNumericDate env.now, Issuer := issuer })

/-- Source: `middleware.ParseToken`; `none` stands for every error it returns. -/
def ParseToken (d : Deps) (now : Int) (secret tokenString : String) :
    Option RegisteredClaims :=
  d.jwtParse secret now tokenString

/-- Source: `middleware.JWTAuth`, applied to the next handler and to the value of
the `Authorization` header (the empty string when the header is absent).  The next
handler receives the values set under `user_id` and `user_type`.  After a parse
without error the token is valid and its claims are the `Claims` passed in, so the
branch "Invalid token claims" is never taken. -/
def JWTAuth {α : Type} (d : Deps) (now : Int) (secret : String)
    (next : String → String → Except AppError α) (authHeader : String) :
    Except AppError α :=
  if authHeader = "" then .error (Unauthorized "Missing authorization header")
  else
    match SplitN2 authHeader ' ' with
    | [scheme, tokenString] =>
      if d.toLower scheme ≠ "bearer" then
        .error (Unauthorized "Invalid authorization header format")
      else
        match d.jwtParseClaims secret now tokenString with
        | none => .error (Unauthorized "Invalid token")
        | some claims => next claims.UserID claims.UserType
    | _ => .error (Unauthorized "Invalid authorization header format")

/-- The email normalisation every flow starts with:
`strings.ToLower(strings.TrimSpace(email))`. -/
def normalizeEmail (d : Deps) (email : String) : String := d.toLower (TrimSpace email)

/-! ## The statements sent to the store -/

/-- Statement: `SELECT .. FROM users WHERE email = $1`, first row. -/
def Store.userByEmail (st : Store) (email : String) : Option UserRow :=
  st.users.find? (fun u => decide (u.email = email))

/-- Statement: `SELECT .. FROM users WHERE id = $1`, first row. -/
def Store.userById (st : Store) (id : String) : Option UserRow :=
  st.users.find? (fun u => decide (u.id = id))

/-- The condition `token_hash = $1 AND revoked = FALSE AND expires_at > NOW()`. -/
def claimable (tokenHash : String) (now : Int) (r : RefreshTokenRow) : Bool :=
  decide (r.tokenHash = tokenHash) && !r.revoked && decide (r.expiresAt > now)

/-- The effect of the claiming update on one row. -/
def markClaimed (tokenHash : String) (now : Int) (x : RefreshTokenRow) : RefreshTokenRow :=
  if claimable tokenHash now x then { x with revoked := true } else x

/-- Statement: `UPDATE refresh_tokens SET revoked = TRUE WHERE token_hash = $1 AND
revoked = FALSE AND expires_at > NOW() RETURNING user_id`.  Every matching row is
updated; the caller scans the first returned row; `none` is `pgx.ErrNoRows`. -/
def Store.claimRefreshToken (st : Store) (tokenHash : String) (now : Int) :
    Option (String × Store) :=
  match st.refreshTokens.find? (claimable tokenHash now) with
  | none => none
  | some r =>
    some (r.userId, { st with refreshTokens := st.refreshTokens.map (markClaimed tokenHash now) })

/-- Modelled from the spec: the schema of `refresh_tokens` is not under `src/`; the
spec gives `user_id` as a foreign key into `users`, `revoked` defaulting to false
and `created_at` to the time of insertion.
Statement: `INSERT INTO refresh_tokens (user_id, token_hash, expires_at)`; `none`
when the foreign key has no target. -/
def Store.insertRefreshToken (st : Store) (userID tokenHash : String)
    (expiresAt now : Int) : Option Store :=
  let row : RefreshTokenRow :=
    { userId := userID, tokenHash := tokenHash, expiresAt := expiresAt,
      revoked := false, createdAt := now }
  if st.users.any (fun u => decide (u.id = userID)) then
    some { st with refreshTokens := st.refreshTokens ++ [row] }
  else none

/-- The effect of the sign-out update on one row. -/
def markRevoked (userID : String) (x : RefreshTokenRow) : RefreshTokenRow :=
  if decide (x.userId = userID) && !x.revoked then { x with revoked := true } else x

/-- Statement: `UPDATE refresh_tokens SET revoked = TRUE WHERE user_id = $1 AND
revoked = FALSE`. -/
def Store.revokeUserTokens (st : Store) (userID : String) : Store :=
  { st with refreshTokens := st.refreshTokens.map (markRevoked userID) }

/-- The condition `password_reset_selector = $1 AND password_reset_expires > NOW()`;
a NULL column satisfies neither comparison. -/
def resetSelectable (selector : String) (now : Int) (u : UserRow) : Bool :=
  decide (u.passwordResetSelector = some selector) &&
    (match u.passwordResetExpires with
     | some e => decide (e > now)
     | none => false)

/-- Statement: `SELECT .. FROM users WHERE password_reset_selector = $1 AND
password_reset_expires > NOW()` (with or without `FOR UPDATE`), first row. -/
def Store.userByResetSelector (st : Store) (selector : String) (now : Int) :
    Option UserRow :=
  st.users.find? (resetSelectable selector now)

/-- The condition `verification_selector = $1 AND email_verified = FALSE`. -/
def verificationSelectable (selector : String) (u : UserRow) : Bool :=
  decide (u.verificationSelector = some selector) && !u.emailVerified

/-- Statement: `SELECT id, verification_verifier_hash FROM users WHERE
verification_selector = $1 AND email_verified = FALSE FOR UPDATE`, first row. -/
def Store.userByVerificationSelector (st : Store) (selector : String) : Option UserRow :=
  st.users.find? (verificationSelectable selector)

/-- An `UPDATE users SET .. WHERE id = $1`: the change applied to every row with
that id. -/
def Store.updateUser (st : Store) (id : String) (f : UserRow → UserRow) : Store :=
  { st with users := st.users.map (fun u => if decide (u.id = id) then f u else u) }

/-- Statement: `UPDATE users SET password_hash = $2 WHERE id = $1`. -/
def Store.setPasswordHash (st : Store) (id hash : String) : Store :=
  st.updateUser id (fun u => { u with passwordHash := hash })

/-- Statement: `UPDATE users SET password_reset_selector = $2,
password_reset_verifier_hash = $3, password_reset_expires = $4 WHERE id = $1`. -/
def Store.setResetToken (st : Store) (id selector verifierHash : String) (expires : Int) :
    Store :=
  st.updateUser id (fun u =>
    { u with passwordResetSelector := some selector,
             passwordResetVerifierHash := some verifierHash,
             passwordResetExpires := some expires })

/-- Statement: `UPDATE users SET password_hash = $2, password_reset_selector = NULL,
password_reset_verifier_hash = NULL, password_reset_expires = NULL WHERE id = $1`. -/
def Store.resetPasswordHash (st : Store) (id hash : String) : Store :=
  st.updateUser id (fun u =>
    { u with passwordHash := hash, passwordResetSelector := none,
             passwordResetVerifierHash := none, passwordResetExpires := none })

/-- Statement: `UPDATE users SET email_verified = TRUE, verification_selector = NULL,
verification_verifier_hash = NULL WHERE id = $1`. -/
def Store.markEmailVerified (st : Store) (id : String) : Store :=
  st.updateUser id (fun u =>
    { u with emailVerified := true, verificationSelector := none,
             verificationVerifierHash := none })

/-- Statement: `UPDATE users SET verification_selector = $2,
verification_verifier_hash = $3 WHERE id = $1`. -/
def Store.setVerificationToken (st : Store) (id selector verifierHash : String) : Store :=
  st.updateUser id (fun u =>
    { u with verificationSelector := some selector,
             verificationVerifierHash := some verifierHash })

/-- A transaction: the committed state it started from and its working copy. -/
structure Tx where
  snapshot : Store
  work : Store
  deriving DecidableEq, Repr

/-- The call `pool.Begin`. -/
def Tx.start (st : Store) : Tx := { snapshot := st, work := st }

/-- The call `tx.Rollback`: the committed state is the one before the transaction. -/
def Tx.Rollback (tx : Tx) : Store := tx.snapshot

/-- The call `tx.Commit`: the working copy becomes the committed state. -/
def Tx.Commit (tx : Tx) : Store := tx.work

/-! ## The service (`auth.go`) -/

/-- The user of an auth response. -/
structure User where
  ID : String
  Email : String
  Type_ : String
  CreatedAt : Int
  deriving DecidableEq, Repr

/-- The result of a successful authentication. -/
structure AuthResult where
  AccessToken : String
  RefreshToken : String
  ExpiresIn : Int
  User : User
  VerificationToken : String
  deriving DecidableEq, Repr

structure LoginInput where
  Email : String
  Password : String
  deriving DecidableEq, Repr

structure RefreshInput where
  RefreshToken : String
  deriving DecidableEq, Repr

/-- Source: `AuthService.generateAuthResult`, run against the store handle it is
given (the pool or an open transaction).  Durations are counted in nanoseconds. -/
def AuthService.generateAuthResult (s : AuthService) (d : Deps) (env : Env) (db : Store)
    (userID email userType : String) (createdAt : Int) :
    Except AppError AuthResult × Store :=
  match GenerateToken d env s.jwtSecret userID userType s.jwtIssuer s.accessDuration with
  | none => (.error (Internal "generate access token"), db)
  | some accessToken =>
    match GenerateRefreshToken d env s.jwtSecret userID s.jwtIssuer s.refreshDuration with
    | none => (.error (Internal "generate refresh token"), db)
    | some refreshToken =>
      let tokenHash := hashVerifier d refreshToken
      let expiresAt := env.now + s.refreshDuration
      if env.fails .storeToken then (.error (Internal "store refresh token"), db)
      else
        match db.insertRefreshToken userID tokenHash expiresAt env.now with
        | none => (.error (Internal "store refresh token"), db)
        | some db1 =>
          (.ok { AccessToken := accessToken, RefreshToken := refreshToken,
                 ExpiresIn := secondsInt s.accessDuration,
                 User := { ID := userID, Email := email, Type_ := userType,
                           CreatedAt := createdAt },
                 VerificationToken := "" }, db1)

/-- Source: `AuthService.Login`.  Both statements go to the pool directly. -/
def AuthService.Login (s : AuthService) (d : Deps) (env : Env) (st : Store)
    (input : LoginInput) : Except AppError AuthResult × Store :=
  let email := normalizeEmail d input.Email
  if env.fails .getUser then (.error (Internal "get user"), st)
  else
    match st.userByEmail email with
    | none => (.error (Unauthorized "Invalid email or password"), st)
    | some u =>
      if !d.bcryptCompare u.passwordHash input.Password then
        (.error (Unauthorized "Invalid email or password"), st)
      else s.generateAuthResult d env st u.id email u.type u.createdAt

/-- Source: `AuthService.Logout`. -/
def AuthService.Logout (_s : AuthService) (env : Env) (st : Store) (userID : String) :
    Except AppError Unit × Store :=
  if env.fails .revokeTokens then (.error (Internal "revoke tokens"), st)
  else (.ok (), st.revokeUserTokens userID)

/-- Source: `AuthService.Refresh`.  Every return before the commit runs the deferred
`tx.Rollback`. -/
def AuthService.Refresh (s : AuthService) (d : Deps) (env : Env) (st : Store)
    (input : RefreshInput) : Except AppError AuthResult × Store :=
  match ParseToken d env.now s.jwtSecret input.RefreshToken with
  | none => (.error (Unauthorized "Invalid refresh token"), st)
  | some claims =>
    let tokenHash := hashVerifier d input.RefreshToken
    if env.fails .begin then (.error (Internal "begin tx"), st)
    else
      let tx := Tx.start st
      if env.fails .claimToken then (.error (Internal "revoke refresh token"), tx.Rollback)
      else
        match tx.work.claimRefreshToken tokenHash env.now with
        | none => (.error (Unauthorized "Refresh token revoked or expired"), tx.Rollback)
        | some (_storedUserID, w1) =>
          let tx1 : Tx := { tx with work := w1 }
          if env.fails .getUser then (.error (Internal "get user"), tx1.Rollback)
          else
            match tx1.work.userById claims.Subject with
            | none => (.error (Unauthorized "User not found"), tx1.Rollback)
            | some u =>
              match s.generateAuthResult d env tx1.work claims.Subject u.email u.type
                  u.createdAt with
              | (.error e, _) => (.error e, tx1.Rollback)
              | (.ok result, w2) =>
                let tx2 : Tx := { tx1 with work := w2 }
                if env.fails .commit then
                  (.error (Internal "commit refresh"), tx2.Rollback)
                else (.ok result, tx2.Commit)

/-! ## Password change and reset (`auth_password.go`) -/

structure ChangePasswordInput where
  UserID : String
  CurrentPassword : String
  NewPassword : String
  deriving DecidableEq, Repr

structure ForgotPasswordInput where
  Email : String
  deriving DecidableEq, Repr

structure VerifyResetTokenInput where
  Token : String
  deriving DecidableEq, Repr

structure VerifyResetTokenResult where
  Valid : Bool
  Email : String
  deriving DecidableEq, Repr

structure ResetPasswordInput where
  Token : String
  NewPassword : String
  deriving DecidableEq, Repr

/-- The Go expression `len(s)` of a string: its length in bytes. -/
def len (s : String) : Nat := s.utf8ByteSize

/-- Source: `AuthService.ChangePassword`.  `apperror.NotFound` appends " not found"
to its argument. -/
def AuthService.ChangePassword (_s : AuthService) (d : Deps) (env : Env) (st : Store)
    (input : ChangePasswordInput) : Except AppError Unit × Store :=
  if len input.NewPassword < 8 then
    (.error (Validation "Validation failed"
      [("new_password", "Password must be at least 8 characters")]), st)
  else if len input.NewPassword > 72 then
    (.error (Validation "Validation failed"
      [("new_password", "Password must not exceed 72 characters")]), st)
  else if env.fails .getUser then (.error (Internal "get user"), st)
  else
    match st.userById input.UserID with
    | none => (.error (NotFound "User not found"), st)
    | some u =>
      if !d.bcryptCompare u.passwordHash input.CurrentPassword then
        (.error (BadRequest "Current password is incorrect"), st)
      else if env.fails .hashPassword then (.error (Internal "hash password"), st)
      else
        let newHash := d.bcryptGenerate input.NewPassword env.salt
        if env.fails .begin then (.error (Internal "begin tx"), st)
        else
          let tx := Tx.start st
          if env.fails .updatePassword then
            (.error (Internal "update password"), tx.Rollback)
          else
            let tx1 : Tx := { tx with work := tx.work.setPasswordHash input.UserID newHash }
            if env.fails .revokeTokens then
              (.error (Internal "revoke tokens"), tx1.Rollback)
            else
              let tx2 : Tx := { tx1 with work := tx1.work.revokeUserTokens input.UserID }
              if env.fails .commit then (.error (Internal "commit tx"), tx2.Rollback)
              else (.ok (), tx2.Commit)

/-- Source: `AuthService.ForgotPassword`. -/
def AuthService.ForgotPassword (s : AuthService) (d : Deps) (env : Env) (st : Store)
    (input : ForgotPasswordInput) : Except AppError String × Store :=
  let email := normalizeEmail d input.Email
  if email = "" then (.error (BadRequest "Email is required"), st)
  else if env.fails .getUser then (.error (Internal "get user"), st)
  else
    match st.userByEmail email with
    | none => (.ok "", st)
    | some u =>
      match generateResetToken env with
      | none => (.error (Internal "generate token"), st)
      | some (selector, verifier, token) =>
        let verifierHash := hashVerifier d verifier
        let expires := env.now + s.passwordResetTTL
        if env.fails .storeResetToken then (.error (Internal "store reset token"), st)
        else (.ok token, st.setResetToken u.id selector verifierHash expires)

/-- Source: `AuthService.VerifyResetToken`.  `Scan` into a `string` fails on a NULL
column, which is an error other than `pgx.ErrNoRows`. -/
def AuthService.VerifyResetToken (_s : AuthService) (d : Deps) (env : Env) (st : Store)
    (input : VerifyResetTokenInput) : Except AppError VerifyResetTokenResult × Store :=
  if input.Token = "" then (.error (BadRequest "Token is required"), st)
  else
    match parseResetToken input.Token with
    | none => (.ok { Valid := false, Email := "" }, st)
    | some (selector, verifier) =>
      if env.fails .getUser then (.error (Internal "get user"), st)
      else
        match st.userByResetSelector selector env.now with
        | none => (.ok { Valid := false, Email := "" }, st)
        | some u =>
          match u.passwordResetVerifierHash with
          | none => (.error (Internal "get user"), st)
          | some storedHash =>
            if !verifyHash d verifier storedHash then
              (.ok { Valid := false, Email := "" }, st)
            else (.ok { Valid := true, Email := u.email }, st)

/-- Source: `AuthService.ResetPassword`. -/
def AuthService.ResetPassword (_s : AuthService) (d : Deps) (env : Env) (st : Store)
    (input : ResetPasswordInput) : Except AppError Unit × Store :=
  if input.Token = "" then (.error (BadRequest "Token is required"), st)
  else if len input.NewPassword < 8 then
    (.error (Validation "Validation failed"
      [("password", "Password must be at least 8 characters")]), st)
  else if len input.NewPassword > 72 then
    (.error (Validation "Validation failed"
      [("password", "Password must not exceed 72 characters")]), st)
  else
    match parseResetToken input.Token with
    | none => (.error (BadRequest "Invalid reset token"), st)
    | some (selector, verifier) =>
      if env.fails .begin then (.error (Internal "begin tx"), st)
      else
        let tx := Tx.start st
        if env.fails .getUser then (.error (Internal "get user"), tx.Rollback)
        else
          match tx.work.userByResetSelector selector env.now with
          | none => (.error (BadRequest "Invalid or expired reset token"), tx.Rollback)
          | some u =>
            match u.passwordResetVerifierHash with
            | none => (.error (Internal "get user"), tx.Rollback)
            | some storedHash =>
              if !verifyHash d verifier storedHash then
                (.error (BadRequest "Invalid reset token"), tx.Rollback)
              else if env.fails .hashPassword then
                (.error (Internal "hash password"), tx.Rollback)
              else
                let hash := d.bcryptGenerate input.NewPassword env.salt
                if env.fails .updatePassword then
                  (.error (Internal "update password"), tx.Rollback)
                else
                  let tx1 : Tx := { tx with work := tx.work.resetPasswordHash u.id hash }
                  if env.fails .revokeTokens then
                    (.error (Internal "revoke tokens"), tx1.Rollback)
                  else
                    let tx2 : Tx := { tx1 with work := tx1.work.revokeUserTokens u.id }
                    if env.fails .commit then
                      (.error (Internal "commit tx"), tx2.Rollback)
                    else (.ok (), tx2.Commit)

/-! ## Email verification (`auth_verify.go`) -/

structure VerifyEmailInput where
  Token : String
  deriving DecidableEq, Repr

structure ResendVerificationInput where
  Email : String
  deriving DecidableEq, Repr

/-- Source: `AuthService.VerifyEmail`. -/
def AuthService.VerifyEmail (_s : AuthService) (d : Deps) (env : Env) (st : Store)
    (input : VerifyEmailInput) : Except AppError Unit × Store :=
  if input.Token = "" then (.error (BadRequest "Token is required"), st)
  else
    match parseVerificationToken input.Token with
    | none => (.error (BadRequest "Invalid verification token"), st)
    | some (selector, verifier) =>
      if env.fails .begin then (.error (Internal "begin tx"), st)
      else
        let tx := Tx.start st
        if env.fails .getUser then (.error (Internal "verify email"), tx.Rollback)
        else
          match tx.work.userByVerificationSelector selector with
          | none =>
            (.error (BadRequest "Invalid or already-used verification token"), tx.Rollback)
          | some u =>
            match u.verificationVerifierHash with
            | none => (.error (Internal "verify email"), tx.Rollback)
            | some storedHash =>
              if !verifyHash d verifier storedHash then
                (.error (BadRequest "Invalid verification token"), tx.Rollback)
              else if env.fails .updateVerification then
                (.error (Internal "update verification"), tx.Rollback)
              else
                let tx1 : Tx := { tx with work := tx.work.markEmailVerified u.id }
                if env.fails .commit then (.error (Internal "commit tx"), tx1.Rollback)
                else (.ok (), tx1.Commit)

/-- Source: `AuthService.ResendVerification`. -/
def AuthService.ResendVerification (_s : AuthService) (d : Deps) (env : Env) (st : Store)
    (input : ResendVerificationInput) : Except AppError String × Store :=
  let email := normalizeEmail d input.Email
  if email = "" then (.error (BadRequest "Email is required"), st)
  else if env.fails .getUser then (.error (Internal "get user"), st)
  else
    match st.userByEmail email with
    | none => (.ok "", st)
    | some u =>
      if u.emailVerified then (.ok "", st)
      else
        match generateVerificationToken env with
        | none => (.error (Internal "generate token"), st)
        | some (selector, verifier, token) =>
          let verifierHash := hashVerifier d verifier
          if env.fails .updateVerification then (.error (Internal "update token"), st)
          else (.ok token, st.setVerificationToken u.id selector verifierHash)

/-! ## Registration (`auth.go`) -/

structure RegisterInput where
  Email : String
  Password : String
  FirstName : String
  LastName : String
  deriving DecidableEq, Repr

/-- The Go call `strings.Contains(s, sep)` for a one-character separator. -/
def Contains (s : String) (sep : Char) : Bool := s.toList.contains sep

/-- The suffix of a text that starts at the last occurrence of a character; `none`
when the character does not occur. -/
def fromLast (sep : Char) : List Char → Option (List Char)
  | [] => none
  | c :: cs =>
    match fromLast sep cs with
    | some r => some r
    | none => if c = sep then some (c :: cs) else none

/-- The Go expression `s[strings.LastIndex(s, sep):]` for a one-character separator.
The source evaluates it only when the separator occurs. -/
def sliceFromLast (s : String) (sep : Char) : String :=
  match fromLast sep s.toList with
  | some r => String.mk r
  | none => ""

/-- The entry of `details` for the email check of `validateRegisterInput`. -/
def emailDetail (email : String) : List (String × String) :=
  if email = "" then [("email", "Email is required")]
  else if !Contains email '@' || !Contains (sliceFromLast email '@') '.' then
    [("email", "Invalid email format")]
  else []

/-- The entry of `details` for the password check of `validateRegisterInput`. -/
def passwordDetail (password : String) : List (String × String) :=
  if len password < 8 then [("password", "Password must be at least 8 characters")]
  else if len password > 72 then [("password", "Password must not exceed 72 characters")]
  else []

/-- The entry of `details` for the first-name check of `validateRegisterInput`. -/
def firstNameDetail (firstName : String) : List (String × String) :=
  if firstName = "" then [("first_name", "First name is required")] else []

/-- The entry of `details` for the last-name check of `validateRegisterInput`. -/
def lastNameDetail (lastName : String) : List (String × String) :=
  if lastName = "" then [("last_name", "Last name is required")] else []

/-- Source: `validateRegisterInput`; `none` is the nil error.  The details map is an
association list in the order of the checks. -/
def validateRegisterInput (input : RegisterInput) : Option AppError :=
  let details := emailDetail input.Email ++ passwordDetail input.Password ++
    firstNameDetail input.FirstName ++ lastNameDetail input.LastName
  if details.length > 0 then some (Validation "Validation failed" details) else none

/-- Modelled from the spec: the schema of `users` is not under `src/`; the spec gives
`id` as the unique key, `email UNIQUE`, and new accounts as unverified with no
pending reset.
Statement: `INSERT INTO users (email, password_hash, type, first_name, last_name,
verification_selector, verification_verifier_hash) VALUES ($1, $2, 'user', ..)
RETURNING id, created_at`; `none` is the unique violation (SQLSTATE 23505). -/
def Store.insertUser (st : Store) (id email passwordHash firstName lastName selector
    verifierHash : String) (now : Int) : Option Store :=
  let row : UserRow :=
    { id := id, email := email, passwordHash := passwordHash, type := "user",
      emailVerified := false, firstName := some firstName, lastName := some lastName,
      verificationSelector := some selector, verificationVerifierHash := some verifierHash,
      passwordResetSelector := none, passwordResetVerifierHash := none,
      passwordResetExpires := none, createdAt := now }
  if st.users.any (fun u => decide (u.email = email) || decide (u.id = id)) then none
  else some { st with users := st.users ++ [row] }

/-- Source: `AuthService.Register`. -/
def AuthService.Register (s : AuthService) (d : Deps) (env : Env) (st : Store)
    (input : RegisterInput) : Except AppError AuthResult × Store :=
  let input : RegisterInput := { input with Email := normalizeEmail d input.Email }
  match validateRegisterInput input with
  | some err => (.error err, st)
  | none =>
    if env.fails .hashPassword then (.error (Internal "hash password"), st)
    else
      let hash := d.bcryptGenerate input.Password env.salt
      match generateVerificationToken env with
      | none => (.error (Internal "generate verification token"), st)
      | some (selector, verifier, verificationToken) =>
        if env.fails .begin then (.error (Internal "begin transaction"), st)
        else
          let tx := Tx.start st
          let verifierHash := hashVerifier d verifier
          if env.fails .createUser then (.error (Internal "create user"), tx.Rollback)
          else
            match tx.work.insertUser env.newUserID input.Email hash input.FirstName
                input.LastName selector verifierHash env.now with
            | none => (.error (Conflict "Email already registered"), tx.Rollback)
            | some w1 =>
              let tx1 : Tx := { tx with work := w1 }
              match s.generateAuthResult d env tx1.work env.newUserID input.Email "user"
                  env.now with
              | (.error e, _) => (.error e, tx1.Rollback)
              | (.ok result, w2) =>
                let tx2 : Tx := { tx1 with work := w2 }
                if env.fails .commit then
                  (.error (Internal "commit transaction"), tx2.Rollback)
                else
                  (.ok { result with VerificationToken := verificationToken }, tx2.Commit)

/-! ## The handlers of the enumeration-sensitive endpoints (`handler/auth.go`) -/

/-- A JSON response written with `c.JSON(status, map)`. -/
structure Response where
  status : Nat
  body : List (String × String)
  deriving DecidableEq, Repr

/-- What a handler does besides answering. -/
inductive Effect where
  | logError (message : String)
  | enqueue (taskType toEmail token : String)
  | sendInBackground (kind toEmail token : String)
  deriving DecidableEq, Repr

/-- The collaborators of the auth handler, as far as these two endpoints consult
them: whether the email service and the queue are configured, and whether building
or enqueueing the task returns an error. -/
structure HandlerEnv where
  emailConfigured : Bool
  queueConfigured : Bool
  newTaskFails : Bool
  enqueueFails : Bool
  deriving DecidableEq, Repr

structure ForgotPasswordRequest where
  Email : String
  deriving DecidableEq, Repr

structure ResendVerificationRequest where
  Email : String
  deriving DecidableEq, Repr

/-- The delivery block shared by both handlers: what happens with a token once the
service has returned. -/
def deliver (h : HandlerEnv) (taskType createFailure enqueueFailure : String)
    (email token : String) : List Effect :=
  if token ≠ "" ∧ h.emailConfigured = true then
    if h.queueConfigured then
      if h.newTaskFails then [.logError createFailure]
      else if h.enqueueFails then [.logError enqueueFailure]
      else [.enqueue taskType email token]
    else [.sendInBackground taskType email token]
  else []

/-- Source: `AuthHandler.ForgotPassword`.  `bind` is the outcome of `c.Bind`, `none`
when it returns an error; `service` is the `authServicer` method, returning the token
and the error; the result is what the handler returns to the framework together
with what it did on the way.  Writing the JSON response is taken to succeed. -/
def AuthHandler.ForgotPassword (h : HandlerEnv) (bind : Option ForgotPasswordRequest)
    (service : ForgotPasswordInput → String × Option AppError) :
    Except AppError Response × List Effect :=
  match bind with
  | none => (.error (BadRequest "Invalid request body"), [])
  | some req =>
    if req.Email = "" then
      (.error (Validation "Validation failed" [("email", "Email is required")]), [])
    else
      let (token, err) := service { Email := req.Email }
      let logged : List Effect :=
        match err with
        | some _ => [.logError "forgot password lookup failed"]
        | none => []
      (.ok { status := 200,
             body := [("message",
               "If an account exists with that email, a password reset link has been sent.")] },
        logged ++ deliver h "email:password_reset" "failed to create password reset task"
          "failed to enqueue password reset email" req.Email token)

/-- Source: `AuthHandler.ResendVerification`. -/
def AuthHandler.ResendVerification (h : HandlerEnv)
    (bind : Option ResendVerificationRequest)
    (service : ResendVerificationInput → String × Option AppError) :
    Except AppError Response × List Effect :=
  match bind with
  | none => (.error (BadRequest "Invalid request body"), [])
  | some req =>
    if req.Email = "" then
      (.error (Validation "Validation failed" [("email", "Email is required")]), [])
    else
      let (token, err) := service { Email := req.Email }
      let logged : List Effect :=
        match err with
        | some _ => [.logError "resend verification lookup failed"]
        | none => []
      (.ok { status := 200,
             body := [("message",
               "If an account exists with that email, a verification link has been sent.")] },
        logged ++ deliver h "email:verification" "failed to create verification email task"
          "failed to enqueue verification email" req.Email token)

/-! ## Ledger sweep (`auth.go`) -/

/-- The condition `expires_at < NOW() OR revoked = TRUE`. -/
def sweepable (now : Int) (r : RefreshTokenRow) : Bool :=
  decide (r.expiresAt < now) || r.revoked

/-- Source: `AuthService.CleanupExpiredTokens`.  The error of `Exec` is returned as it
is (`none` is nil); the statement deletes the rows that satisfy its condition. -/
def AuthService.CleanupExpiredTokens (_s : AuthService) (env : Env) (st : Store) :
    Option String × Store :=
  if env.fails .cleanupTokens then (some "exec", st)
  else (none, { st with refreshTokens := st.refreshTokens.filter (fun r => !sweepable env.now r) })

/-! ## Retry (`service/retry.go`) -/

/-- The value of an integer as a Go `int64`: overflow wraps around. -/
def wrap64 (x : Int) : Int :=
  (x + 9223372036854775808) % 18446744073709551616 - 9223372036854775808

/-- What one run of `Retry` did: the error it returned (`none` is nil), how often it
called `fn`, and the durations it slept. -/
structure RetryRun where
  result : Option String
  calls : Nat
  sleeps : List Int
  deriving DecidableEq, Repr

/-- The loop of `Retry` with `remaining` iterations left before iteration `i`.  `fn k`
is the error the call number `k` (from 0) of the closure returns, `none` for nil. -/
def retryLoop (fn : Nat → Option String) :
    Nat → Nat → Int → Option String → List Int → RetryRun
  | 0, i, _, lastErr, sleeps => { result := lastErr, calls := i, sleeps := sleeps }
  | remaining + 1, i, delay, _, sleeps =>
    match fn i with
    | some err =>
      if remaining ≠ 0 then
        retryLoop fn remaining (i + 1) (wrap64 (delay * 2)) (some err) (sleeps ++ [delay])
      else retryLoop fn remaining (i + 1) delay (some err) sleeps
    | none => { result := none, calls := i + 1, sleeps := sleeps }

/-- Source: `Retry`. -/
def Retry (attempts : Int) (delay : Int) (fn : Nat → Option String) : RetryRun :=
  retryLoop fn attempts.toNat 0 delay none []

/-! ## LIKE patterns (`validate/validate.go`) -/

/-- The Go call `strings.ReplaceAll(s, old, new)` for a one-character `old`. -/
def ReplaceAll (old : Char) (new : List Char) : List Char → List Char
  | [] => []
  | c :: cs => (if c = old then new else [c]) ++ ReplaceAll old new cs

/-- Source: `EscapeLike`: the three replacements in the order of the source. -/
def EscapeLike (s : String) : String :=
  String.mk (ReplaceAll '_' ['\\', '_'] (ReplaceAll '%' ['\\', '%']
    (ReplaceAll '\\' ['\\', '\\'] s.toList)))

/-- Source: `WrapLike`. -/
def WrapLike (s : String) : String := "%" ++ EscapeLike s ++ "%"

/-! ## The error handler (`middleware/stack.go`) -/

/-- What `errors.As` finds in the error passed to the handler: an application error,
an `echo.HTTPError` (its message when it is a string), or neither. -/
inductive HandledError where
  | app (e : AppError)
  | http (code : Nat) (message : Option String)
  | other (text : String)
  deriving DecidableEq, Repr

/-- The JSON object of an error response; `details` is left out of the object when
it is empty. -/
structure ErrorBody where
  code : String
  message : String
  details : List (String × String)
  deriving DecidableEq, Repr

/-- The response handed to `c.JSON`. -/
structure ErrorResponse where
  status : Nat
  body : ErrorBody
  deriving DecidableEq, Repr

/-- Source: `AppError.Error`. -/
def apperror.AppError.Error (e : AppError) : String :=
  match e.Err with
  | some cause => e.Code.toString ++ ": " ++ e.Message ++ ": " ++ cause
  | none => e.Code.toString ++ ": " ++ e.Message

/-- The log line written when `c.JSON` returns an error. -/
def writeFailure (writeFails : Bool) : List String :=
  if writeFails then ["failed to write error response"] else []

/-- Source: `ErrorHandler`.  `committed` is `c.Response().Committed`; the result is the
response handed to `c.JSON`, if any, and the lines logged. -/
def ErrorHandler (committed writeFails : Bool) (err : HandledError) :
    Option ErrorResponse × List String :=
  if committed then (none, [])
  else
    match err with
    | .app appErr =>
      if appErr.Code = .CodeInternal then
        (some { status := appErr.HTTPStatus,
                body := { code := appErr.Code.toString,
                          message := "An internal error occurred", details := [] } },
          ("internal error: " ++ appErr.Error) :: writeFailure writeFails)
      else
        (some { status := appErr.HTTPStatus,
                body := { code := appErr.Code.toString, message := appErr.Message,
                          details := appErr.Details } },
          writeFailure writeFails)
    | .http code message =>
      (some { status := code,
              body := { code := "HTTP_ERROR", message := message.getD "An error occurred",
                        details := [] } },
        writeFailure writeFails)
    | .other text =>
      (some { status := 500,
              body := { code := Code.CodeInternal.toString,
                        message := "An internal error occurred", details := [] } },
        ("unhandled error: " ++ text) :: writeFailure writeFails)

/-! ## Hexadecimal encoding (`encoding/hex`) -/

/-- The lowercase hexadecimal digit of a 4-bit value. -/
def hexDigit (n : Nat) : Char := "0123456789abcdef".toList.getD (n % 16) '0'

/-- Two digits per byte. -/
def hexEncode : List Nat → List Char
  | [] => []
  | b :: bs => hexDigit (b / 16) :: hexDigit (b % 16) :: hexEncode bs

/-- The Go call `hex.EncodeToString`. -/
def hexEncodeToString (bytes : List Nat) : String := String.mk (hexEncode bytes)

/-! ## An executable instance of the library interface

Used to run the definitions above on concrete inputs.  Digests and password hashes
are tagged copies of their input; a token is the text of its claims followed by the
signing secret. -/

/-- The fields of a text separated by a character. -/
def splitAll (sep : Char) : List Char → List (List Char)
  | [] => [[]]
  | c :: cs =>
    if c = sep then [] :: splitAll sep cs
    else match splitAll sep cs with
      | [] => [[c]]
      | h :: t => (c :: h) :: t

/-- The value of a string of decimal digits read after an accumulator. -/
def readDigits : List Char → Nat → Option Nat
  | [], acc => some acc
  | c :: cs, acc =>
    if c.isDigit then readDigits cs (acc * 10 + (c.toNat - 48)) else none

/-- The integer written in decimal, with an optional leading minus sign. -/
def readInt (cs : List Char) : Option Int :=
  match cs with
  | [] => none
  | '-' :: ds => if ds.isEmpty then none else (readDigits ds 0).map (fun n => -(n : Int))
  | ds => (readDigits ds 0).map (fun n => (n : Int))

/-- The reference token text of registered claims. -/
def refSign (secret : String) (c : RegisteredClaims) : String :=
  "rt|" ++ toString c.ExpiresAt ++ "|" ++ toString c.IssuedAt ++ "|" ++ c.Subject ++ "|" ++
    c.ID ++ "|" ++ c.Issuer ++ "|" ++ secret

/-- The reference token text of access claims. -/
def refSignAccess (secret : String) (c : Claims) : String :=
  "at|" ++ toString c.ExpiresAt ++ "|" ++ toString c.IssuedAt ++ "|" ++ c.UserID ++ "|" ++
    c.UserType ++ "|" ++ c.Issuer ++ "|" ++ secret

/-- The reference parser: the claims of a token text that carries the secret and
whose expiry is after the clock. -/
def refParse (secret : String) (now : Int) (token : String) : Option RegisteredClaims :=
  match splitAll '|' token.toList with
  | [tag, exp, iat, sub, id, iss, sec] =>
    if String.mk tag = "rt" ∧ String.mk sec = secret then
      match readInt exp, readInt iat with
      | some e, some i =>
        if now < e then
          some { ID := String.mk id, Subject := String.mk sub, ExpiresAt := e,
                 IssuedAt := i, Issuer := String.mk iss }
        else none
      | _, _ => none
    else none
  | _ => none

/-- The reference parser into access claims: a token text of either kind that
carries the secret and whose expiry is after the clock; the text of registered
claims has no account type. -/
def refParseClaims (secret : String) (now : Int) (token : String) : Option Claims :=
  match splitAll '|' token.toList with
  | [tag, exp, iat, sub, fourth, iss, sec] =>
    if (String.mk tag = "rt" ∨ String.mk tag = "at") ∧ String.mk sec = secret then
      match readInt exp, readInt iat with
      | some e, some i =>
        if now < e then
          some { UserID := String.mk sub,
                 UserType := if String.mk tag = "at" then String.mk fourth else "",
                 ExpiresAt := e, IssuedAt := i, Issuer := String.mk iss }
        else none
      | _, _ => none
    else none
  | _ => none

/-- The reference library instance. -/
def refDeps : Deps where
  sha256Hex := fun s => "sha256:" ++ s
  bcryptGenerate := fun password salt => salt ++ "$" ++ password
  bcryptCompare := fun hash password =>
    match cutFirst '$' hash.toList with
    | some (_, p) => decide (String.mk p = password)
    | none => false
  jwtSignAccess := refSignAccess
  jwtSignRefresh := refSign
  jwtParse := refParse
  jwtParseClaims := refParseClaims
  toLower := fun s => String.mk (s.toList.map Char.toLower)

/-- An environment in which nothing fails. -/
def quietEnv (now : Int) : Env :=
  { now := now, fails := fun _ => false, uuid := "jti-2", salt := "salt",
    selectorBytes := [], verifierBytes := [], newUserID := "u9" }

/-- An environment in which exactly one step fails. -/
def failingEnv (now : Int) (step : Step) : Env :=
  { now := now, fails := fun x => decide (x = step), uuid := "jti-2", salt := "salt",
    selectorBytes := [], verifierBytes := [], newUserID := "u9" }

/-- A service configuration: 15 minutes, 7 days and 1 hour, in nanoseconds. -/
def demoService : AuthService :=
  { jwtSecret := "k", jwtIssuer := "golid", accessDuration := 900000000000,
    refreshDuration := 604800000000000, passwordResetTTL := 3600000000000 }

/-- A refresh token issued to user `u1` at time 0. -/
def demoToken : String :=
  refSign "k" { ID := "jti-1", Subject := "u1", ExpiresAt := 604800000000000,
                IssuedAt := 0, Issuer := "golid" }

/-- A registered user without pending single-use tokens. -/
def demoUser : UserRow :=
  { id := "u1", email := "a@x.com", passwordHash := "salt$password123", type := "user",
    emailVerified := false, firstName := some "A", lastName := some "B",
    verificationSelector := none, verificationVerifierHash := none,
    passwordResetSelector := none, passwordResetVerifierHash := none,
    passwordResetExpires := none, createdAt := 0 }

/-- The ledger row of `demoToken`. -/
def demoRow : RefreshTokenRow :=
  { userId := "u1", tokenHash := "sha256:" ++ demoToken, expiresAt := 604800000000000,
    revoked := false, createdAt := 0 }

/-- The store after `u1` registered at time 0. -/
def demoStore : Store := { users := [demoUser], refreshTokens := [demoRow] }

/-- The result of rotating `demoToken` at time 5. -/
def demoResult : AuthResult :=
  { AccessToken := "at|900000000000|0|u1|user|golid|k",
    RefreshToken := "rt|604800000000000|0|u1|jti-2|golid|k",
    ExpiresIn := 900,
    User := { ID := "u1", Email := "a@x.com", Type_ := "user", CreatedAt := 0 },
    VerificationToken := "" }

/-- The store after rotating `demoToken` at time 5. -/
def demoStore1 : Store :=
  { users := [demoUser],
    refreshTokens :=
      [{ demoRow with revoked := true },
       { userId := "u1", tokenHash := "sha256:rt|604800000000000|0|u1|jti-2|golid|k",
         expiresAt := 604800000000005, revoked := false, createdAt := 5 }] }

/-- The store of a ledger whose user row is gone: `demoRow` without `demoUser`. -/
def orphanStore : Store := { users := [], refreshTokens := [demoRow] }

/-- The user `u1` with a pending verification token `vsel.vver` and a pending
reset token `rsel.rver` that expires one hour after time 0. -/
def pendingUser : UserRow :=
  { demoUser with
    verificationSelector := some "vsel", verificationVerifierHash := some "sha256:vver",
    passwordResetSelector := some "rsel", passwordResetVerifierHash := some "sha256:rver",
    passwordResetExpires := some 3600000000000 }

/-- The store of `pendingUser` with the session `demoRow`. -/
def pendingStore : Store := { users := [pendingUser], refreshTokens := [demoRow] }

/-- The user `u2`, whose email is verified. -/
def verifiedUser : UserRow :=
  { demoUser with id := "u2", email := "b@x.com", emailVerified := true }

/-- The account `new@x.com` registered on `demoStore` at time 5. -/
def demoSignup : AuthResult :=
  { AccessToken := "at|900000000000|0|u9|user|golid|k",
    RefreshToken := "rt|604800000000000|0|u9|jti-2|golid|k",
    ExpiresIn := 900,
    User := { ID := "u9", Email := "new@x.com", Type_ := "user", CreatedAt := 5 },
    VerificationToken :=
      "AAAAAAAAAAAAAAAAAAAAAA==.AAAAAAAAAAAAAAAAAAAAAAAAAAAAAAAAAAAAAAAAAAA=" }

/-- The token a reissue at an all-zero random source returns. -/
def zeroToken : String :=
  "AAAAAAAAAAAAAAAAAAAAAA==.AAAAAAAAAAAAAAAAAAAAAAAAAAAAAAAAAAAAAAAAAAA="

/-- A library instance whose digest is the hexadecimal text of 32 bytes: byte `i` is
the sum of the character codes at the positions `i`, `i + 32`, `i + 64`, .. -/
def foldDigest (s : String) : List Nat :=
  (List.range 32).map (fun i =>
    ((s.toList.enum.filter (fun p => p.1 % 32 == i)).map (fun p => p.2.toNat)).sum)

/-- The library instance `refDeps` with the digest of `foldDigest` written in
hexadecimal. -/
def hexDeps : Deps :=
  { refDeps with sha256Hex := fun s => hexEncodeToString (readBytes 32 (foldDigest s)) }

/-- A natural number in unary, closed by a bar, in front of a text. -/
def putNat (n : Nat) (rest : List Char) : List Char :=
  List.replicate n '1' ++ '|' :: rest

/-- The unary number at the head of a text, and the text after its bar. -/
def getNat : List Char → Option (Nat × List Char)
  | [] => none
  | c :: cs =>
    if c = '|' then some (0, cs)
    else if c = '1' then (getNat cs).map (fun p => (p.1 + 1, p.2))
    else none

/-- An integer in front of a text: a sign and a unary number. -/
def putInt (i : Int) (rest : List Char) : List Char :=
  match i with
  | .ofNat n => '+' :: putNat n rest
  | .negSucc n => '-' :: putNat n rest

/-- The integer at the head of a text, and the text after it. -/
def getInt : List Char → Option (Int × List Char)
  | [] => none
  | c :: cs =>
    if c = '+' then (getNat cs).map (fun p => (Int.ofNat p.1, p.2))
    else if c = '-' then (getNat cs).map (fun p => (Int.negSucc p.1, p.2))
    else none

/-- A string in front of a text: its length in unary, then its characters. -/
def putStr (s : String) (rest : List Char) : List Char :=
  putNat s.data.length (s.data ++ rest)

/-- The string at the head of a text, and the text after it. -/
def getStr (cs : List Char) : Option (String × List Char) :=
  match getNat cs with
  | none => none
  | some (n, r) => if n ≤ r.length then some (String.mk (r.take n), r.drop n) else none

/-- The fields of a token text: expiry and issue time in whole seconds (the form of a
`NumericDate` in a token), subject, a fourth field (token id or account type),
issuer, secret. -/
structure TokenFields where
  exp : Int
  iat : Int
  sub : String
  fourth : String
  iss : String
  sec : String
  deriving DecidableEq, Repr

/-- The text of the fields, each one delimited by its length. -/
def putFields (f : TokenFields) : List Char :=
  putInt f.exp (putInt f.iat (putStr f.sub (putStr f.fourth (putStr f.iss (putStr f.sec [])))))

/-- The fields of a text that consists of exactly six fields. -/
def getFields (cs : List Char) : Option TokenFields :=
  match getInt cs with
  | none => none
  | some (e, r1) =>
    match getInt r1 with
    | none => none
    | some (i, r2) =>
      match getStr r2 with
      | none => none
      | some (a, r3) =>
        match getStr r3 with
        | none => none
        | some (b, r4) =>
          match getStr r4 with
          | none => none
          | some (iss, r5) =>
            match getStr r5 with
            | none => none
            | some (sec, r6) =>
              if r6 = [] then
                some { exp := e, iat := i, sub := a, fourth := b, iss := iss, sec := sec }
              else none

/-- The length-delimited token text of registered claims: the letter `r`, then the
fields. -/
def lawSign (secret : String) (c : RegisteredClaims) : String :=
  String.mk ('r' :: putFields { exp := c.ExpiresAt / 1000000000,
                                iat := c.IssuedAt / 1000000000, sub := c.Subject,
                                fourth := c.ID, iss := c.Issuer, sec := secret })

/-- The length-delimited token text of access claims: the letter `a`, then the
fields. -/
def lawSignAccess (secret : String) (c : Claims) : String :=
  String.mk ('a' :: putFields { exp := c.ExpiresAt / 1000000000,
                                iat := c.IssuedAt / 1000000000, sub := c.UserID,
                                fourth := c.UserType, iss := c.Issuer, sec := secret })

/-- The registered claims of a length-delimited token text of either kind that
carries the secret and whose expiry is after the clock; access claims have no token
id. -/
def lawParse (secret : String) (now : Int) (token : String) : Option RegisteredClaims :=
  match token.data with
  | [] => none
  | tag :: cs =>
    match getFields cs with
    | none => none
    | some f =>
      if f.sec = secret ∧ now < f.exp * 1000000000 then
        if tag = 'r' then
          some { ID := f.fourth, Subject := f.sub, ExpiresAt := f.exp * 1000000000,
                 IssuedAt := f.iat * 1000000000, Issuer := f.iss }
        else if tag = 'a' then
          some { ID := "", Subject := f.sub, ExpiresAt := f.exp * 1000000000,
                 IssuedAt := f.iat * 1000000000, Issuer := f.iss }
        else none
      else none

/-- The access claims of a length-delimited token text of either kind that carries
the secret and whose expiry is after the clock; registered claims have no account
type. -/
def lawParseClaims (secret : String) (now : Int) (token : String) : Option Claims :=
  match token.data with
  | [] => none
  | tag :: cs =>
    match getFields cs with
    | none => none
    | some f =>
      if f.sec = secret ∧ now < f.exp * 1000000000 then
        if tag = 'r' then
          some { UserID := f.sub, UserType := "", ExpiresAt := f.exp * 1000000000,
                 IssuedAt := f.iat * 1000000000, Issuer := f.iss }
        else if tag = 'a' then
          some { UserID := f.sub, UserType := f.fourth, ExpiresAt := f.exp * 1000000000,
                 IssuedAt := f.iat * 1000000000, Issuer := f.iss }
        else none
      else none

/-- The library instance `refDeps` with the length-delimited token texts, which no
choice of claims makes ambiguous; times are written in whole seconds. -/
def lawDeps : Deps :=
  { refDeps with
    jwtSignAccess := lawSignAccess, jwtSignRefresh := lawSign, jwtParse := lawParse,
    jwtParseClaims := lawParseClaims }

/-- A service configuration with short lifetimes: 3, 9 and 5 seconds. -/
def briefService : AuthService :=
  { jwtSecret := "k", jwtIssuer := "g", accessDuration := 3000000000,
    refreshDuration := 9000000000, passwordResetTTL := 5000000000 }

/-- A refresh token of `lawDeps` issued to user `u1` at time 0 by `briefService`. -/
def briefToken : String :=
  lawSign "k" { ID := "jti-1", Subject := "u1", ExpiresAt := 9000000000, IssuedAt := 0,
                Issuer := "g" }

/-- A store of `lawDeps` with the user `u1` and the ledger row of `briefToken`. -/
def briefStore : Store :=
  { users := [demoUser],
    refreshTokens := [{ userId := "u1", tokenHash := "sha256:" ++ briefToken,
                        expiresAt := 9000000000, revoked := false, createdAt := 0 }] }

/-- The result of rotating `briefToken` one and a half seconds later. -/
def briefRotated : AuthResult :=
  { AccessToken := lawSignAccess "k"
      { UserID := "u1", UserType := "user", ExpiresAt := 4000000000,
        IssuedAt := 1000000000, Issuer := "g" },
    RefreshToken := lawSign "k"
      { ID := "jti-2", Subject := "u1", ExpiresAt := 10000000000, IssuedAt := 1000000000,
        Issuer := "g" },
    ExpiresIn := 3,
    User := { ID := "u1", Email := "a@x.com", Type_ := "user", CreatedAt := 0 },
    VerificationToken := "" }

/-- The claims of the refresh token a registration at time 0 issues under
`briefService`. -/
def briefIssuedClaims : RegisteredClaims :=
  { ID := "jti-2", Subject := "u9", ExpiresAt := 9000000000, IssuedAt := 0, Issuer := "g" }

/-- The refresh token of `briefIssuedClaims`. -/
def briefIssued : String := lawSign "k" briefIssuedClaims

/-- A refresh token of `lawDeps` for user `u1` whose expiry is second 0. -/
def shortLivedToken : String :=
  lawSign "k" { ID := "jti-2", Subject := "u1", ExpiresAt := 0, IssuedAt := 0, Issuer := "g" }

/-- A ledger with a usable row, a revoked row, and a row that expired at time 3. -/
def sweepStore : Store :=
  { users := [demoUser],
    refreshTokens :=
      [demoRow, { demoRow with tokenHash := "sha256:old", revoked := true },
       { demoRow with tokenHash := "sha256:stale", expiresAt := 3 }] }

/-! ## Predicates used in the statements -/

/-- An instant on a whole second, the precision of a `NumericDate` in a token. -/
def wholeSecond (t : Int) : Prop := t % 1000000000 = 0

/-- The parser returns the claims of a token signed with the same secret while the
token is unexpired, and nothing once the clock has reached the expiry (the check of
`exp` in `jwt.ParseWithClaims`); stated for claims whose times are on whole seconds,
as those made by `jwt.NewNumericDate` are. -/
def ParsesSigned (d : Deps) : Prop :=
  ∀ (secret : String) (now : Int) (c : RegisteredClaims),
    wholeSecond c.ExpiresAt → wholeSecond c.IssuedAt →
      d.jwtParse secret now (d.jwtSignRefresh secret c) =
        if now < c.ExpiresAt then some c else none

/-- The parser accepts only what the signer produced with the same secret: a text
that parses is a signed refresh token or a signed access token (the signature check
of `jwt.ParseWithClaims`). -/
def ParsesOnlySigned (d : Deps) : Prop :=
  ∀ (secret : String) (now : Int) (token : String) (c : RegisteredClaims),
    d.jwtParse secret now token = some c →
      (∃ c0, token = d.jwtSignRefresh secret c0) ∨ (∃ a, token = d.jwtSignAccess secret a)

/-- The signer never produces the empty string. -/
def SignsNonEmpty (d : Deps) : Prop :=
  (∀ secret c, d.jwtSignRefresh secret c ≠ "") ∧ (∀ secret a, d.jwtSignAccess secret a ≠ "")

/-- Parsing a signed refresh token into `middleware.Claims`: while the token is
unexpired the parse succeeds, the subject is read into `UserID`, and `UserType`
keeps its zero value because registered claims have no key `type`; once the clock
has reached the expiry the parse fails.  Stated for times on whole seconds. -/
def ReadsRefreshAsClaims (d : Deps) : Prop :=
  ∀ (secret : String) (now : Int) (c : RegisteredClaims),
    wholeSecond c.ExpiresAt → wholeSecond c.IssuedAt →
      d.jwtParseClaims secret now (d.jwtSignRefresh secret c) =
        if now < c.ExpiresAt then
          some { UserID := c.Subject, UserType := "", ExpiresAt := c.ExpiresAt,
                 IssuedAt := c.IssuedAt, Issuer := c.Issuer }
        else none

/-- Parsing a signed access token into `middleware.Claims` returns its claims while
the token is unexpired, and fails once the clock has reached the expiry.  Stated for
times on whole seconds. -/
def ReadsAccessClaims (d : Deps) : Prop :=
  ∀ (secret : String) (now : Int) (a : Claims),
    wholeSecond a.ExpiresAt → wholeSecond a.IssuedAt →
      d.jwtParseClaims secret now (d.jwtSignAccess secret a) =
        if now < a.ExpiresAt then some a else none

/-- Every ledger row's hash is the digest of a refresh token signed with the
service's secret whose subject is the row's user and whose times are on whole
seconds. -/
def LedgerSound (s : AuthService) (d : Deps) (st : Store) : Prop :=
  ∀ x ∈ st.refreshTokens, ∃ c : RegisteredClaims,
    x.tokenHash = hashVerifier d (d.jwtSignRefresh s.jwtSecret c) ∧ c.Subject = x.userId ∧
      wholeSecond c.ExpiresAt ∧ wholeSecond c.IssuedAt

/-- The store states reachable from the empty store through the operations of the
service, each with any environment and any input, whatever the outcome. -/
inductive Reachable (s : AuthService) (d : Deps) : Store → Prop where
  | empty : Reachable s d { users := [], refreshTokens := [] }
  | register {st : Store} (env : Env) (input : RegisterInput) :
      Reachable s d st → Reachable s d (s.Register d env st input).2
  | login {st : Store} (env : Env) (input : LoginInput) :
      Reachable s d st → Reachable s d (s.Login d env st input).2
  | refresh {st : Store} (env : Env) (input : RefreshInput) :
      Reachable s d st → Reachable s d (s.Refresh d env st input).2
  | logout {st : Store} (env : Env) (userID : String) :
      Reachable s d st → Reachable s d (s.Logout env st userID).2
  | changePassword {st : Store} (env : Env) (input : ChangePasswordInput) :
      Reachable s d st → Reachable s d (s.ChangePassword d env st input).2
  | forgotPassword {st : Store} (env : Env) (input : ForgotPasswordInput) :
      Reachable s d st → Reachable s d (s.ForgotPassword d env st input).2
  | resetPassword {st : Store} (env : Env) (input : ResetPasswordInput) :
      Reachable s d st → Reachable s d (s.ResetPassword d env st input).2
  | verifyEmail {st : Store} (env : Env) (input : VerifyEmailInput) :
      Reachable s d st → Reachable s d (s.VerifyEmail d env st input).2
  | resendVerification {st : Store} (env : Env) (input : ResendVerificationInput) :
      Reachable s d st → Reachable s d (s.ResendVerification d env st input).2
  | cleanupExpiredTokens {st : Store} (env : Env) :
      Reachable s d st → Reachable s d (s.CleanupExpiredTokens env st).2

/-- The escaping in the words of the claim, in one pass: a backslash before each
backslash, percent sign and underscore, every other character as it is. -/
def escapeOnePass : List Char → List Char
  | [] => []
  | c :: cs =>
    (if c = '\\' ∨ c = '%' ∨ c = '_' then ['\\', c] else [c]) ++ escapeOnePass cs

/-- Removing the backslash in front of each escaped character. -/
def unescape : List Char → List Char
  | [] => []
  | [c] => [c]
  | c :: c2 :: cs => if c = '\\' then c2 :: unescape cs else c :: unescape (c2 :: cs)

/-- Every backslash, percent sign and underscore of a text is escaped: read from
the left, a backslash takes the next character with it, and no other character is a
percent sign or an underscore. -/
def fullyEscaped : List Char → Bool
  | [] => true
  | [c] => c != '\\' && c != '%' && c != '_'
  | c :: c2 :: cs =>
    if c = '\\' then fullyEscaped cs else c != '%' && c != '_' && fullyEscaped (c2 :: cs)


/-- A stored hash verifies exactly one password: the hasher accepts `password` for
`hash` and no other candidate. -/
def verifiesOnly (d : Deps) (hash password : String) : Prop :=
  ∀ candidate, d.bcryptCompare hash candidate = true ↔ candidate = password

/-- Logging in at a store with one password and no other: `Login` with an email that
normalises to `email` succeeds with `password` and fails with Unauthorized, leaving
the store as it is, with every other password. -/
def LoginOnlyWith (s : AuthService) (d : Deps) (st : Store) (email password : String) :
    Prop :=
  ∀ (env : Env) (em : String), (∀ step, env.fails step = false) →
    normalizeEmail d em = email →
    (∃ r st2, s.Login d env st ⟨em, password⟩ = (.ok r, st2)) ∧
    ∀ q, q ≠ password →
      s.Login d env st ⟨em, q⟩ = (.error (Unauthorized "Invalid email or password"), st)

/-- A reset token is unusable at a store: `VerifyResetToken` reports `valid = false`
when its lookup does not fail, and `ResetPassword` never succeeds, leaves the store
as it is and, for a new password of valid length and with the transaction and the
lookup not failing, reports BadRequest. -/
def ResetTokenUnusable (s : AuthService) (d : Deps) (st : Store) (token : String) : Prop :=
  (∀ env : Env, env.fails .getUser = false →
    s.VerifyResetToken d env st ⟨token⟩ = (.ok { Valid := false, Email := "" }, st)) ∧
  ∀ (env : Env) (password : String),
    ∃ e, s.ResetPassword d env st ⟨token, password⟩ = (.error e, st) ∧
      (8 ≤ len password → len password ≤ 72 → env.fails .begin = false →
        env.fails .getUser = false → e.Code = .CodeBadRequest)

/-- A verification token is unusable at a store: `VerifyEmail` never succeeds, leaves
the store as it is and, with the transaction and the lookup not failing, reports
BadRequest. -/
def VerificationTokenUnusable (s : AuthService) (d : Deps) (st : Store) (token : String) :
    Prop :=
  ∀ env : Env,
    ∃ e, s.VerifyEmail d env st ⟨token⟩ = (.error e, st) ∧
      (env.fails .begin = false → env.fails .getUser = false → e.Code = .CodeBadRequest)


/-- The email rule in the words of the spec: non-empty, contains "@", and a "."
somewhere after the last "@". -/
def emailWellFormed (email : String) : Prop :=
  email ≠ "" ∧ '@' ∈ email.toList ∧
    ∃ pre suf, email.toList = pre ++ '@' :: suf ∧ '@' ∉ suf ∧ '.' ∈ suf

/-- The `users` row a registration inserts. -/
def registeredRow (d : Deps) (env : Env) (input : RegisterInput) (selector verifier : String) :
    UserRow :=
  { id := env.newUserID, email := normalizeEmail d input.Email,
    passwordHash := d.bcryptGenerate input.Password env.salt, type := "user",
    emailVerified := false, firstName := some input.FirstName,
    lastName := some input.LastName, verificationSelector := some selector,
    verificationVerifierHash := some (hashVerifier d verifier),
    passwordResetSelector := none, passwordResetVerifierHash := none,
    passwordResetExpires := none, createdAt := env.now }


/-- The ledger row a token issuance inserts. -/
def issuedRow (s : AuthService) (d : Deps) (env : Env) (userID refreshToken : String) :
    RefreshTokenRow :=
  { userId := userID, tokenHash := hashVerifier d refreshToken,
    expiresAt := env.now + s.refreshDuration, revoked := false, createdAt := env.now }

/-- The message of the Unauthorized error a refused rotation carries: it depends on
whether the token still passes `ParseToken`. -/
def refusalMessage (s : AuthService) (d : Deps) (now : Int) (t : String) : String :=
  if (ParseToken d now s.jwtSecret t).isSome then "Refresh token revoked or expired"
  else "Invalid refresh token"

/-- The state of the ledger after a global sign-out of user `u`: every row owned by
`u` is revoked, and `Refresh` of a token whose ledger rows (before the sign-out)
were all owned by `u` never succeeds, leaves the store as it is, and reports
Unauthorized unless opening the transaction or the claiming update fails. -/
def SignedOut (s : AuthService) (d : Deps) (st st1 : Store) (u : String) : Prop :=
  (∀ x ∈ st1.refreshTokens, x.userId = u → x.revoked = true) ∧
  ∀ (t : String) (env : Env),
    (∀ x ∈ st.refreshTokens, x.tokenHash = hashVerifier d t → x.userId = u) →
    ∃ e, s.Refresh d env st1 ⟨t⟩ = (.error e, st1) ∧
      (env.fails .begin = false → env.fails .claimToken = false →
        e.Code = .CodeUnauthorized ∧ e.HTTPStatus = 401)

/-! ## Lemmas on the store statements -/

theorem generateAuthResult_error (s : AuthService) (d : Deps) (env : Env) (db db1 : Store)
    (userID email userType : String) (createdAt : Int) (e : AppError)
    (h : s.generateAuthResult d env db userID email userType createdAt = (.error e, db1)) :
    db1 = db := by
  unfold AuthService.generateAuthResult at h
  split at h
  · simp at h; exact h.2.symm
  · split at h
    · simp at h; exact h.2.symm
    · simp only at h
      split at h
      · simp at h; exact h.2.symm
      · split at h
        · simp at h; exact h.2.symm
        · simp at h

theorem generateAuthResult_ok (s : AuthService) (d : Deps) (env : Env) (db db1 : Store)
    (userID email userType : String) (createdAt : Int) (r : AuthResult)
    (h : s.generateAuthResult d env db userID email userType createdAt = (.ok r, db1)) :
    db1 = { db with refreshTokens :=
              db.refreshTokens ++ [issuedRow s d env userID r.RefreshToken] } := by
  unfold AuthService.generateAuthResult at h
  split at h
  · simp at h
  · split at h
    · simp at h
    · simp only at h
      split at h
      · simp at h
      · split at h
        · simp at h
        · rename_i db2 hins
          simp only [Prod.mk.injEq, Except.ok.injEq] at h
          obtain ⟨hr, hdb⟩ := h
          subst hr hdb
          unfold Store.insertRefreshToken at hins
          simp only at hins
          split at hins
          · simp only [Option.some.injEq] at hins
            rw [← hins]; rfl
          · simp at hins

theorem Refresh_error_store (s : AuthService) (d : Deps) (env : Env) (st st1 : Store)
    (input : RefreshInput) (e : AppError)
    (h : s.Refresh d env st input = (.error e, st1)) : st1 = st := by
  unfold AuthService.Refresh at h
  split at h
  · simp at h; exact h.2.symm
  · simp only at h
    split at h
    · simp at h; exact h.2.symm
    · split at h
      · simp [Tx.Rollback, Tx.start] at h; exact h.2.symm
      · split at h
        · simp [Tx.Rollback, Tx.start] at h; exact h.2.symm
        · split at h
          · simp [Tx.Rollback, Tx.start] at h; exact h.2.symm
          · split at h
            · simp [Tx.Rollback, Tx.start] at h; exact h.2.symm
            · split at h
              · simp [Tx.Rollback, Tx.start] at h; exact h.2.symm
              · split at h
                · simp [Tx.Rollback, Tx.start] at h; exact h.2.symm
                · simp at h

theorem Refresh_ok_store (s : AuthService) (d : Deps) (env : Env) (st st1 : Store)
    (t : String) (r : AuthResult)
    (h : s.Refresh d env st ⟨t⟩ = (.ok r, st1)) :
    ∃ claims, ParseToken d env.now s.jwtSecret t = some claims ∧
      (∃ x ∈ st.refreshTokens, claimable (hashVerifier d t) env.now x = true) ∧
      st1 = { users := st.users,
              refreshTokens := st.refreshTokens.map (markClaimed (hashVerifier d t) env.now) ++
                [issuedRow s d env claims.Subject r.RefreshToken] } := by
  unfold AuthService.Refresh at h
  split at h
  · simp at h
  · rename_i claims hparse
    refine ⟨claims, hparse, ?_⟩
    simp only at h
    split at h
    · simp at h
    · split at h
      · simp at h
      · split at h
        · simp at h
        · rename_i uid w1 hclaim
          split at h
          · simp at h
          · split at h
            · simp at h
            · split at h
              · simp at h
              · rename_i u hu result w2 hgen
                split at h
                · simp at h
                · simp only [Tx.Commit, Prod.mk.injEq, Except.ok.injEq] at h
                  obtain ⟨hr, hst⟩ := h
                  subst hr hst
                  have hw2 := generateAuthResult_ok _ _ _ _ _ _ _ _ _ _ hgen
                  unfold Store.claimRefreshToken at hclaim
                  simp only [Tx.start] at hclaim
                  split at hclaim
                  · simp at hclaim
                  · rename_i row hrow
                    simp only [Option.some.injEq, Prod.mk.injEq] at hclaim
                    obtain ⟨-, hw1⟩ := hclaim
                    refine ⟨⟨row, List.mem_of_find?_eq_some hrow, List.find?_some hrow⟩, ?_⟩
                    rw [hw2, ← hw1]

theorem Refresh_unclaimable (s : AuthService) (d : Deps) (env : Env) (st : Store)
    (t : String)
    (h : ∀ x ∈ st.refreshTokens, claimable (hashVerifier d t) env.now x = false) :
    (∃ e, s.Refresh d env st ⟨t⟩ = (.error e, st)) ∧
    (env.fails .begin = false → env.fails .claimToken = false →
      s.Refresh d env st ⟨t⟩ = (.error (Unauthorized (refusalMessage s d env.now t)), st)) := by
  have hfind : st.refreshTokens.find? (claimable (hashVerifier d t) env.now) = none := by
    rw [List.find?_eq_none]
    intro x hx
    simp [h x hx]
  unfold AuthService.Refresh refusalMessage
  cases hp : ParseToken d env.now s.jwtSecret t with
  | none => simp
  | some claims =>
    simp only [Store.claimRefreshToken, Tx.start, Tx.Rollback, hfind]
    constructor
    · by_cases hb : env.fails .begin = true
      · simp [hb]
      · by_cases hc : env.fails .claimToken = true
        · simp [hb, hc]
        · simp [hb, hc]
    · intro hb hc
      simp [hb, hc]

theorem claimable_after_rotation (h : String) (now1 now2 : Int) (hle : now1 ≤ now2)
    (x : RefreshTokenRow) : claimable h now2 (markClaimed h now1 x) = false := by
  unfold markClaimed
  by_cases hc : claimable h now1 x = true
  · rw [if_pos hc]
    simp [claimable]
  · rw [if_neg hc]
    simp only [claimable, Bool.and_eq_true, decide_eq_true_eq, Bool.not_eq_true',
      not_and, Bool.not_eq_false, not_lt] at hc ⊢
    by_cases h1 : x.tokenHash = h
    · by_cases h2 : x.revoked = false
      · have := hc ⟨h1, h2⟩
        simp [h1, h2]
        omega
      · simp [h2]
    · simp [h1]

theorem claimable_iff (h : String) (now : Int) (x : RefreshTokenRow) :
    claimable h now x = true ↔ x.tokenHash = h ∧ x.revoked = false ∧ x.expiresAt > now := by
  simp [claimable, and_assoc]

theorem Refresh_claimable_ok (s : AuthService) (d : Deps) (env : Env) (st : Store)
    (t : String) (claims : RegisteredClaims)
    (hparse : ParseToken d env.now s.jwtSecret t = some claims)
    (huser : ∃ u ∈ st.users, u.id = claims.Subject)
    (hquiet : ∀ step, env.fails step = false)
    (hrow : ∃ x ∈ st.refreshTokens, claimable (hashVerifier d t) env.now x = true) :
    ∃ r st1, s.Refresh d env st ⟨t⟩ = (.ok r, st1) := by
  have hfind : (st.refreshTokens.find? (claimable (hashVerifier d t) env.now)).isSome := by
    rw [List.find?_isSome]; exact hrow
  obtain ⟨row, hrow1⟩ := Option.isSome_iff_exists.mp hfind
  have hu : (st.users.find? (fun u => decide (u.id = claims.Subject))).isSome := by
    rw [List.find?_isSome]
    obtain ⟨u, hu, hid⟩ := huser
    exact ⟨u, hu, by simp [hid]⟩
  obtain ⟨u1, hu1⟩ := Option.isSome_iff_exists.mp hu
  have hany : st.users.any (fun u => decide (u.id = claims.Subject)) = true := by
    rw [List.any_eq_true]
    obtain ⟨u, hu, hid⟩ := huser
    exact ⟨u, hu, by simp [hid]⟩
  simp [AuthService.Refresh, hparse, hquiet, Store.claimRefreshToken, hrow1, Tx.start,
    Store.userById, hu1, AuthService.generateAuthResult, GenerateToken, GenerateRefreshToken,
    Store.insertRefreshToken, hany, Tx.Commit]

theorem Logout_ok_store (s : AuthService) (env : Env) (st st1 : Store) (userID : String)
    (h : s.Logout env st userID = (.ok (), st1)) : st1 = st.revokeUserTokens userID := by
  unfold AuthService.Logout at h
  split at h
  · simp at h
  · simp at h; exact h.symm

theorem ChangePassword_ok_store (s : AuthService) (d : Deps) (env : Env) (st st1 : Store)
    (input : ChangePasswordInput)
    (h : s.ChangePassword d env st input = (.ok (), st1)) :
    st1 = (st.setPasswordHash input.UserID
      (d.bcryptGenerate input.NewPassword env.salt)).revokeUserTokens input.UserID := by
  unfold AuthService.ChangePassword at h
  split at h
  · simp at h
  split at h
  · simp at h
  split at h
  · simp at h
  split at h
  · simp at h
  split at h
  · simp at h
  split at h
  · simp at h
  simp only at h
  split at h
  · simp at h
  split at h
  · simp at h
  split at h
  · simp at h
  split at h
  · simp at h
  simp [Tx.Commit, Tx.start] at h
  exact h.symm

theorem ResetPassword_ok_store (s : AuthService) (d : Deps) (env : Env) (st st1 : Store)
    (input : ResetPasswordInput)
    (h : s.ResetPassword d env st input = (.ok (), st1)) :
    ∃ selector verifier u storedHash,
      input.Token ≠ "" ∧
      parseResetToken input.Token = some (selector, verifier) ∧
      st.userByResetSelector selector env.now = some u ∧
      u.passwordResetVerifierHash = some storedHash ∧
      verifyHash d verifier storedHash = true ∧
      st1 = (st.resetPasswordHash u.id
        (d.bcryptGenerate input.NewPassword env.salt)).revokeUserTokens u.id := by
  unfold AuthService.ResetPassword at h
  split at h
  · simp at h
  rename_i htok
  split at h
  · simp at h
  split at h
  · simp at h
  split at h
  · simp at h
  rename_i selector verifier hparse
  split at h
  · simp at h
  simp only at h
  split at h
  · simp at h
  split at h
  · simp at h
  rename_i u hu
  split at h
  · simp at h
  rename_i storedHash hstored
  split at h
  · simp at h
  rename_i hver
  split at h
  · simp at h
  split at h
  · simp at h
  split at h
  · simp at h
  split at h
  · simp at h
  simp [Tx.Commit, Tx.start] at h
  refine ⟨selector, verifier, u, storedHash, htok, hparse, ?_, hstored, ?_, h.symm⟩
  · simpa [Tx.start] using hu
  · simpa using hver

theorem VerifyEmail_ok_store (s : AuthService) (d : Deps) (env : Env) (st st1 : Store)
    (input : VerifyEmailInput)
    (h : s.VerifyEmail d env st input = (.ok (), st1)) :
    ∃ selector verifier u storedHash,
      input.Token ≠ "" ∧
      parseVerificationToken input.Token = some (selector, verifier) ∧
      st.userByVerificationSelector selector = some u ∧
      u.verificationVerifierHash = some storedHash ∧
      verifyHash d verifier storedHash = true ∧
      st1 = st.markEmailVerified u.id := by
  unfold AuthService.VerifyEmail at h
  split at h
  · simp at h
  rename_i htok
  split at h
  · simp at h
  rename_i selector verifier hparse
  split at h
  · simp at h
  simp only at h
  split at h
  · simp at h
  split at h
  · simp at h
  rename_i u hu
  split at h
  · simp at h
  rename_i storedHash hstored
  split at h
  · simp at h
  rename_i hver
  split at h
  · simp at h
  split at h
  · simp at h
  simp [Tx.Commit, Tx.start] at h
  refine ⟨selector, verifier, u, storedHash, htok, hparse, ?_, hstored, ?_, h.symm⟩
  · simpa [Tx.start] using hu
  · simpa using hver

theorem markRevoked_revoked (u : String) (x : RefreshTokenRow)
    (h : (markRevoked u x).userId = u) : (markRevoked u x).revoked = true := by
  unfold markRevoked at h ⊢
  by_cases hu : x.userId = u
  · cases hr : x.revoked <;> simp [hu, hr]
  · simp [hu] at h

theorem markRevoked_tokenHash (u : String) (x : RefreshTokenRow) :
    (markRevoked u x).tokenHash = x.tokenHash ∧ (markRevoked u x).userId = x.userId := by
  unfold markRevoked
  split <;> simp

theorem signedOut_of_ledger (s : AuthService) (d : Deps) (st st1 : Store) (u : String)
    (h : st1.refreshTokens = st.refreshTokens.map (markRevoked u)) :
    SignedOut s d st st1 u := by
  constructor
  · intro x hx hu
    rw [h, List.mem_map] at hx
    obtain ⟨y, -, rfl⟩ := hx
    exact markRevoked_revoked u y hu
  · intro t env hown
    have hun : ∀ x ∈ st1.refreshTokens, claimable (hashVerifier d t) env.now x = false := by
      intro x hx
      rw [h, List.mem_map] at hx
      obtain ⟨y, hy, rfl⟩ := hx
      by_cases hh : y.tokenHash = hashVerifier d t
      · have hyu := hown y hy hh
        have hrev := markRevoked_revoked u y (by rw [(markRevoked_tokenHash u y).2]; exact hyu)
        simp [claimable, hrev]
      · simp [claimable, (markRevoked_tokenHash u y).1, hh]
    obtain ⟨⟨e, he⟩, hmsg⟩ := Refresh_unclaimable s d env st1 t hun
    refine ⟨e, he, ?_⟩
    intro hb hc
    have := hmsg hb hc
    rw [he] at this
    simp only [Prod.mk.injEq, Except.error.injEq, and_true] at this
    rw [this]
    simp [Unauthorized]


theorem userByResetSelector_after_reset (st : Store) (selector hash : String) (now now2 : Int)
    (u : UserRow) (hu : st.userByResetSelector selector now = some u)
    (hone : ∀ v ∈ st.users, ∀ w ∈ st.users, v.passwordResetSelector = some selector →
      w.passwordResetSelector = some selector → v.id = w.id) :
    ((st.resetPasswordHash u.id hash).revokeUserTokens u.id).userByResetSelector selector now2
      = none := by
  have hmem : u ∈ st.users := List.mem_of_find?_eq_some hu
  have hsel : u.passwordResetSelector = some selector := by
    have := List.find?_some hu
    simp only [resetSelectable, Bool.and_eq_true, decide_eq_true_eq] at this
    exact this.1
  unfold Store.userByResetSelector Store.revokeUserTokens Store.resetPasswordHash
    Store.updateUser
  rw [List.find?_eq_none]
  intro x hx
  simp only [List.mem_map] at hx
  obtain ⟨v, hv, rfl⟩ := hx
  by_cases hid : v.id = u.id
  · simp [hid, resetSelectable]
  · simp only [hid, decide_False, Bool.false_eq_true, if_false]
    intro hs
    simp only [resetSelectable, Bool.and_eq_true, decide_eq_true_eq] at hs
    exact hid (hone v hv u hmem hs.1 hsel)

theorem userByVerificationSelector_after_verify (st : Store) (selector : String)
    (u : UserRow) (hu : st.userByVerificationSelector selector = some u)
    (hone : ∀ v ∈ st.users, ∀ w ∈ st.users, v.verificationSelector = some selector →
      w.verificationSelector = some selector → v.id = w.id) :
    (st.markEmailVerified u.id).userByVerificationSelector selector = none := by
  have hmem : u ∈ st.users := List.mem_of_find?_eq_some hu
  have hsel : u.verificationSelector = some selector := by
    have := List.find?_some hu
    simp only [verificationSelectable, Bool.and_eq_true, decide_eq_true_eq] at this
    exact this.1
  unfold Store.userByVerificationSelector Store.markEmailVerified Store.updateUser
  rw [List.find?_eq_none]
  intro x hx
  simp only [List.mem_map] at hx
  obtain ⟨v, hv, rfl⟩ := hx
  by_cases hid : v.id = u.id
  · simp [hid, verificationSelectable]
  · simp only [hid, decide_False, Bool.false_eq_true, if_false]
    intro hs
    simp only [verificationSelectable, Bool.and_eq_true, decide_eq_true_eq] at hs
    exact hid (hone v hv u hmem hs.1 hsel)

theorem ResetPassword_no_row (s : AuthService) (d : Deps) (env : Env) (st : Store)
    (input : ResetPasswordInput) (selector verifier : String)
    (htok : input.Token ≠ "") (hlo : 8 ≤ len input.NewPassword)
    (hhi : len input.NewPassword ≤ 72)
    (hparse : parseResetToken input.Token = some (selector, verifier))
    (hrow : st.userByResetSelector selector env.now = none) :
    ∃ e, s.ResetPassword d env st input = (.error e, st) ∧
      (env.fails .begin = false → env.fails .getUser = false →
        e = BadRequest "Invalid or expired reset token") := by
  have h1 : ¬ len input.NewPassword < 8 := by omega
  have h2 : ¬ len input.NewPassword > 72 := by omega
  unfold AuthService.ResetPassword
  simp only [htok, h1, h2, if_false, hparse, Tx.start, Tx.Rollback, hrow]
  by_cases hb : env.fails .begin = true
  · simp [hb]
  · by_cases hg : env.fails .getUser = true
    · simp [hb, hg]
    · simp [hb, hg]

theorem VerifyEmail_no_row (s : AuthService) (d : Deps) (env : Env) (st : Store)
    (input : VerifyEmailInput) (selector verifier : String)
    (htok : input.Token ≠ "")
    (hparse : parseVerificationToken input.Token = some (selector, verifier))
    (hrow : st.userByVerificationSelector selector = none) :
    ∃ e, s.VerifyEmail d env st input = (.error e, st) ∧
      (env.fails .begin = false → env.fails .getUser = false →
        e = BadRequest "Invalid or already-used verification token") := by
  unfold AuthService.VerifyEmail
  simp only [htok, if_false, hparse, Tx.start, Tx.Rollback, hrow]
  by_cases hb : env.fails .begin = true
  · simp [hb]
  · by_cases hg : env.fails .getUser = true
    · simp [hb, hg]
    · simp [hb, hg]


theorem VerifyResetToken_store (s : AuthService) (d : Deps) (env : Env) (st : Store)
    (input : VerifyResetTokenInput) : (s.VerifyResetToken d env st input).2 = st := by
  unfold AuthService.VerifyResetToken
  split
  · rfl
  split
  · rfl
  split
  · rfl
  split
  · rfl
  split
  · rfl
  split <;> rfl

theorem VerifyResetToken_valid (s : AuthService) (d : Deps) (env : Env) (st : Store)
    (token selector verifier storedHash : String) (u : UserRow)
    (hne : token ≠ "") (hparse : parseResetToken token = some (selector, verifier))
    (hq : env.fails .getUser = false)
    (hu : st.userByResetSelector selector env.now = some u)
    (hh : u.passwordResetVerifierHash = some storedHash)
    (hv : verifyHash d verifier storedHash = true) :
    s.VerifyResetToken d env st ⟨token⟩ = (.ok { Valid := true, Email := u.email }, st) := by
  simp [AuthService.VerifyResetToken, hne, hparse, hq, hu, hh, hv]

theorem userByEmail_none (st : Store) (email : String)
    (h : ∀ u ∈ st.users, u.email ≠ email) : st.userByEmail email = none := by
  unfold Store.userByEmail
  rw [List.find?_eq_none]
  intro u hu
  simp [h u hu]

/-! ## Lemmas on tokens, validation and registration -/

theorem cutFirst_append (sep : Char) (a b : List Char) (h : sep ∉ a) :
    cutFirst sep (a ++ sep :: b) = some (a, b) := by
  induction a with
  | nil => simp [cutFirst]
  | cons c cs ih =>
    have hc : c ≠ sep := fun e => h (by simp [e])
    have hcs : sep ∉ cs := fun e => h (by simp [e])
    simp [cutFirst, hc, ih hcs]

theorem parseResetToken_join (selector verifier : String) (h : '.' ∉ selector.toList) :
    parseResetToken (selector ++ "." ++ verifier) = some (selector, verifier) := by
  have hcut : cutFirst '.' (selector.data ++ '.' :: verifier.data) =
      some (selector.data, verifier.data) := cutFirst_append '.' _ _ h
  simp [parseResetToken, SplitN2, String.toList, String.data_append, hcut]

theorem parseVerificationToken_join (selector verifier : String)
    (h : '.' ∉ selector.toList) :
    parseVerificationToken (selector ++ "." ++ verifier) = some (selector, verifier) := by
  have hcut : cutFirst '.' (selector.data ++ '.' :: verifier.data) =
      some (selector.data, verifier.data) := cutFirst_append '.' _ _ h
  simp [parseVerificationToken, SplitN2, String.toList, String.data_append, hcut]

theorem urlChar_ne_dot (n : Nat) : urlChar n ≠ '.' := by
  have h : ∀ k, k < 64 → urlAlphabet.getD k 'A' ≠ '.' := by decide
  exact h (n % 64) (Nat.mod_lt _ (by decide))

theorem encodeBytes_no_dot (bytes : List Nat) : '.' ∉ encodeBytes bytes := by
  induction bytes using encodeBytes.induct with
  | case1 => simp [encodeBytes]
  | case2 a =>
    simp only [encodeBytes, List.mem_cons, List.mem_singleton, not_or]
    exact ⟨(urlChar_ne_dot _).symm, (urlChar_ne_dot _).symm, by decide, by decide, by simp⟩
  | case3 a b =>
    simp only [encodeBytes, List.mem_cons, List.mem_singleton, not_or]
    exact ⟨(urlChar_ne_dot _).symm, (urlChar_ne_dot _).symm, (urlChar_ne_dot _).symm,
      by decide, by simp⟩
  | case4 a b c rest ih =>
    simp only [encodeBytes, List.mem_cons, not_or]
    exact ⟨(urlChar_ne_dot _).symm, (urlChar_ne_dot _).symm, (urlChar_ne_dot _).symm,
      (urlChar_ne_dot _).symm, ih⟩

theorem EncodeToString_no_dot (bytes : List Nat) : '.' ∉ (EncodeToString bytes).toList := by
  simpa [EncodeToString, String.toList] using encodeBytes_no_dot bytes

theorem fromLast_none (sep : Char) (cs : List Char) :
    fromLast sep cs = none ↔ sep ∉ cs := by
  induction cs with
  | nil => simp [fromLast]
  | cons c cs ih =>
    simp only [fromLast, List.mem_cons, not_or]
    cases h : fromLast sep cs with
    | some r =>
      have : ¬ sep ∉ cs := fun hn => by rw [ih.mpr hn] at h; cases h
      simp [this]
    | none =>
      have hn := ih.mp h
      by_cases hc : c = sep
      · simp [hc]
      · simp [hc, hn, Ne.symm hc]

theorem fromLast_some (sep : Char) (cs r : List Char) :
    fromLast sep cs = some r ↔
      ∃ pre suf, cs = pre ++ sep :: suf ∧ sep ∉ suf ∧ r = sep :: suf := by
  induction cs generalizing r with
  | nil => simp [fromLast]
  | cons c cs ih =>
    simp only [fromLast]
    cases h : fromLast sep cs with
    | some r1 =>
      obtain ⟨pre, suf, hcs, hsuf, hr1⟩ := (ih r1).mp h
      constructor
      · intro e
        simp only [Option.some.injEq] at e
        subst e
        exact ⟨c :: pre, suf, by simp [hcs], hsuf, hr1⟩
      · rintro ⟨pre2, suf2, hcs2, hsuf2, hr⟩
        simp only [Option.some.injEq]
        cases pre2 with
        | nil =>
          simp only [List.nil_append, List.cons.injEq] at hcs2
          obtain ⟨-, rfl⟩ := hcs2
          exact absurd (by rw [hcs]; simp) hsuf2
        | cons p pre2 =>
          simp only [List.cons_append, List.cons.injEq] at hcs2
          obtain ⟨-, hcs3⟩ := hcs2
          have := (ih r).mpr ⟨pre2, suf2, hcs3, hsuf2, hr⟩
          rw [h] at this
          simpa using this
    | none =>
      have hn := (fromLast_none sep cs).mp h
      by_cases hc : c = sep
      · subst hc
        simp only [if_true, Option.some.injEq]
        constructor
        · intro e
          exact ⟨[], cs, rfl, hn, e.symm⟩
        · rintro ⟨pre2, suf2, hcs2, hsuf2, hr⟩
          cases pre2 with
          | nil =>
            simp only [List.nil_append, List.cons.injEq, true_and] at hcs2
            rw [hr, hcs2]
          | cons p pre2 =>
            simp only [List.cons_append, List.cons.injEq] at hcs2
            exact absurd (by rw [hcs2.2]; simp) hn
      · simp only [hc, if_false]
        constructor
        · intro e; cases e
        · rintro ⟨pre2, suf2, hcs2, hsuf2, hr⟩
          cases pre2 with
          | nil =>
            simp only [List.nil_append, List.cons.injEq] at hcs2
            exact absurd hcs2.1 hc
          | cons p pre2 =>
            simp only [List.cons_append, List.cons.injEq] at hcs2
            exact absurd (by rw [hcs2.2]; simp) hn

theorem emailDetail_eq_nil (email : String) :
    emailDetail email = [] ↔ emailWellFormed email := by
  unfold emailDetail emailWellFormed
  by_cases he : email = ""
  · simp [he]
  · simp only [he, if_false, ne_eq, not_false_eq_true, true_and]
    by_cases hat : '@' ∈ email.toList
    · have hc : Contains email '@' = true := by simpa [Contains] using hat
      cases hf : fromLast '@' email.toList with
      | none => exact absurd hat ((fromLast_none _ _).mp hf)
      | some r =>
        obtain ⟨pre, suf, hcs, hsuf, hr⟩ := (fromLast_some _ _ _).mp hf
        have hs : Contains (sliceFromLast email '@') '.' = decide ('.' ∈ suf) := by
          simp only [Contains, sliceFromLast, hf, hr]
          simp [String.toList]
        simp only [hc, hs, hat, true_and]
        constructor
        · intro h
          by_cases hd : '.' ∈ suf
          · exact ⟨pre, suf, hcs, hsuf, hd⟩
          · simp [hd] at h
        · rintro ⟨pre2, suf2, hcs2, hsuf2, hd2⟩
          have := (fromLast_some '@' email.toList ('@' :: suf2)).mpr ⟨pre2, suf2, hcs2, hsuf2, rfl⟩
          rw [hf] at this
          simp only [Option.some.injEq] at this
          rw [hr] at this
          simp only [List.cons.injEq, true_and] at this
          subst this
          simp [hd2]
    · have hc : Contains email '@' = false := by simpa [Contains] using hat
      simp only [hc, Bool.not_false, Bool.true_or, if_true]
      constructor
      · intro h; cases h
      · intro h; exact absurd h.1 hat

theorem emailDetail_keys (email : String) :
    (emailDetail email).map Prod.fst = if emailDetail email = [] then [] else ["email"] := by
  unfold emailDetail
  split
  · simp
  · split <;> simp

theorem passwordDetail_eq_nil (password : String) :
    passwordDetail password = [] ↔ 8 ≤ len password ∧ len password ≤ 72 := by
  unfold passwordDetail
  by_cases h1 : len password < 8
  · simp only [h1, if_true]
    constructor
    · intro h; cases h
    · intro h; omega
  · by_cases h2 : len password > 72
    · simp only [h1, h2, if_true, if_false]
      constructor
      · intro h; cases h
      · intro h; omega
    · simp only [h1, h2, if_false, true_iff]
      omega

theorem passwordDetail_keys (password : String) :
    (passwordDetail password).map Prod.fst =
      if passwordDetail password = [] then [] else ["password"] := by
  unfold passwordDetail
  split
  · simp
  · split <;> simp

theorem firstNameDetail_eq_nil (n : String) : firstNameDetail n = [] ↔ n ≠ "" := by
  unfold firstNameDetail
  by_cases h : n = "" <;> simp [h]

theorem firstNameDetail_keys (n : String) :
    (firstNameDetail n).map Prod.fst = if firstNameDetail n = [] then [] else ["first_name"] := by
  unfold firstNameDetail
  split <;> simp

theorem lastNameDetail_eq_nil (n : String) : lastNameDetail n = [] ↔ n ≠ "" := by
  unfold lastNameDetail
  by_cases h : n = "" <;> simp [h]

theorem lastNameDetail_keys (n : String) :
    (lastNameDetail n).map Prod.fst = if lastNameDetail n = [] then [] else ["last_name"] := by
  unfold lastNameDetail
  split <;> simp

theorem ChangePassword_not_validation (s : AuthService) (d : Deps) (env : Env) (st : Store)
    (input : ChangePasswordInput) (hlo : 8 ≤ len input.NewPassword)
    (hhi : len input.NewPassword ≤ 72) (e : AppError)
    (h : (s.ChangePassword d env st input).1 = .error e) : e.Code ≠ .CodeValidation := by
  have h1 : ¬ len input.NewPassword < 8 := by omega
  have h2 : ¬ len input.NewPassword > 72 := by omega
  unfold AuthService.ChangePassword at h
  simp only [h1, h2, if_false] at h
  split at h
  · simp only [Except.error.injEq] at h; subst h; simp [Internal]
  split at h
  · simp only [Except.error.injEq] at h; subst h; simp [NotFound]
  split at h
  · simp only [Except.error.injEq] at h; subst h; simp [BadRequest]
  split at h
  · simp only [Except.error.injEq] at h; subst h; simp [Internal]
  split at h
  · simp only [Except.error.injEq] at h; subst h; simp [Internal]
  split at h
  · simp only [Except.error.injEq] at h; subst h; simp [Internal]
  split at h
  · simp only [Except.error.injEq] at h; subst h; simp [Internal]
  split at h
  · simp only [Except.error.injEq] at h; subst h; simp [Internal]
  · simp at h

theorem ResetPassword_not_validation (s : AuthService) (d : Deps) (env : Env) (st : Store)
    (input : ResetPasswordInput) (hlo : 8 ≤ len input.NewPassword)
    (hhi : len input.NewPassword ≤ 72) (e : AppError)
    (h : (s.ResetPassword d env st input).1 = .error e) : e.Code ≠ .CodeValidation := by
  have h1 : ¬ len input.NewPassword < 8 := by omega
  have h2 : ¬ len input.NewPassword > 72 := by omega
  unfold AuthService.ResetPassword at h
  simp only [h1, h2, if_false] at h
  split at h
  · simp only [Except.error.injEq] at h; subst h; simp [BadRequest]
  split at h
  · simp only [Except.error.injEq] at h; subst h; simp [BadRequest]
  split at h
  · simp only [Except.error.injEq] at h; subst h; simp [Internal]
  split at h
  · simp only [Except.error.injEq] at h; subst h; simp [Internal]
  split at h
  · simp only [Except.error.injEq] at h; subst h; simp [BadRequest]
  split at h
  · simp only [Except.error.injEq] at h; subst h; simp [Internal]
  split at h
  · simp only [Except.error.injEq] at h; subst h; simp [BadRequest]
  split at h
  · simp only [Except.error.injEq] at h; subst h; simp [Internal]
  split at h
  · simp only [Except.error.injEq] at h; subst h; simp [Internal]
  split at h
  · simp only [Except.error.injEq] at h; subst h; simp [Internal]
  split at h
  · simp only [Except.error.injEq] at h; subst h; simp [Internal]
  · simp at h

theorem Register_error_store (s : AuthService) (d : Deps) (env : Env) (st st1 : Store)
    (input : RegisterInput) (e : AppError)
    (h : s.Register d env st input = (.error e, st1)) : st1 = st := by
  unfold AuthService.Register at h
  simp only at h
  split at h
  · simp at h; exact h.2.symm
  split at h
  · simp at h; exact h.2.symm
  split at h
  · simp at h; exact h.2.symm
  split at h
  · simp at h; exact h.2.symm
  split at h
  · simp [Tx.Rollback, Tx.start] at h; exact h.2.symm
  split at h
  · simp [Tx.Rollback, Tx.start] at h; exact h.2.symm
  split at h
  · simp [Tx.Rollback, Tx.start] at h; exact h.2.symm
  split at h
  · simp [Tx.Rollback, Tx.start] at h; exact h.2.symm
  · simp at h

theorem Register_ok_store (s : AuthService) (d : Deps) (env : Env) (st st1 : Store)
    (input : RegisterInput) (r : AuthResult)
    (h : s.Register d env st input = (.ok r, st1)) :
    ∃ selector verifier,
      generateVerificationToken env = some (selector, verifier, r.VerificationToken) ∧
      (∀ u ∈ st.users, u.email ≠ normalizeEmail d input.Email ∧ u.id ≠ env.newUserID) ∧
      st1 = { users := st.users ++ [registeredRow d env input selector verifier],
              refreshTokens := st.refreshTokens ++
                [issuedRow s d env env.newUserID r.RefreshToken] } := by
  unfold AuthService.Register at h
  simp only at h
  split at h
  · simp at h
  split at h
  · simp at h
  split at h
  · simp at h
  rename_i selector verifier token hgen
  split at h
  · simp at h
  split at h
  · simp at h
  split at h
  · simp at h
  rename_i w1 hins
  split at h
  · simp at h
  rename_i result w2 hres
  split at h
  · simp at h
  simp only [Tx.Commit, Prod.mk.injEq, Except.ok.injEq] at h
  obtain ⟨hr, hst⟩ := h
  subst hr hst
  have hw2 := generateAuthResult_ok _ _ _ _ _ _ _ _ _ _ hres
  unfold Store.insertUser at hins
  simp only [Tx.start] at hins
  split at hins
  · simp at hins
  rename_i hany
  simp only [Option.some.injEq] at hins
  refine ⟨selector, verifier, hgen, ?_, ?_⟩
  · intro u hu
    simp only [List.any_eq_true, Bool.or_eq_true, decide_eq_true_eq, not_exists, not_and,
      not_or] at hany
    exact hany u hu
  · rw [hw2, ← hins]
    rfl

theorem Register_conflict (s : AuthService) (d : Deps) (env : Env) (st : Store)
    (input : RegisterInput) (u : UserRow) (hu : u ∈ st.users)
    (he : u.email = normalizeEmail d input.Email)
    (hvalid : validateRegisterInput { input with Email := normalizeEmail d input.Email } = none)
    (h1 : env.fails .hashPassword = false) (h2 : env.fails .random = false)
    (h3 : env.fails .begin = false) (h4 : env.fails .createUser = false) :
    s.Register d env st input = (.error (Conflict "Email already registered"), st) := by
  have hany : st.users.any (fun v => decide (v.email = normalizeEmail d input.Email) ||
      decide (v.id = env.newUserID)) = true := by
    rw [List.any_eq_true]
    exact ⟨u, hu, by simp [he]⟩
  simp [AuthService.Register, hvalid, h1, h2, h3, h4, generateVerificationToken, Tx.start,
    Tx.Rollback, Store.insertUser, hany]

theorem Register_never_ok_on_duplicate (s : AuthService) (d : Deps) (env : Env) (st : Store)
    (input : RegisterInput) (u : UserRow) (hu : u ∈ st.users)
    (he : u.email = normalizeEmail d input.Email) :
    ∃ e, s.Register d env st input = (.error e, st) := by
  cases hres : s.Register d env st input with
  | mk res st1 =>
    cases res with
    | error e => exact ⟨e, by rw [Register_error_store s d env st st1 input e hres]⟩
    | ok r =>
      obtain ⟨_, _, -, hfresh, -⟩ := Register_ok_store s d env st st1 input r hres
      exact absurd he (hfresh u hu).1

theorem generateVerificationToken_some (env : Env) (selector verifier token : String)
    (h : generateVerificationToken env = some (selector, verifier, token)) :
    token = selector ++ "." ++ verifier ∧ '.' ∉ selector.toList := by
  unfold generateVerificationToken at h
  split at h
  · simp at h
  · simp only [Option.some.injEq, Prod.mk.injEq] at h
    obtain ⟨rfl, rfl, rfl⟩ := h
    exact ⟨rfl, EncodeToString_no_dot _⟩

theorem generateResetToken_some (env : Env) (selector verifier token : String)
    (h : generateResetToken env = some (selector, verifier, token)) :
    token = selector ++ "." ++ verifier ∧ '.' ∉ selector.toList := by
  unfold generateResetToken at h
  split at h
  · simp at h
  · simp only [Option.some.injEq, Prod.mk.injEq] at h
    obtain ⟨rfl, rfl, rfl⟩ := h
    exact ⟨rfl, EncodeToString_no_dot _⟩

theorem join_ne_empty (selector verifier : String) : selector ++ "." ++ verifier ≠ "" := by
  intro h
  have := congrArg String.length h
  simp only [String.length_append] at this
  have h1 : ".".length = 1 := by decide
  have h0 : "".length = 0 := by decide
  omega

theorem VerifyEmail_ok (s : AuthService) (d : Deps) (env : Env) (st : Store)
    (token selector verifier storedHash : String) (u : UserRow)
    (hne : token ≠ "") (hparse : parseVerificationToken token = some (selector, verifier))
    (h1 : env.fails .begin = false) (h2 : env.fails .getUser = false)
    (h3 : env.fails .updateVerification = false) (h4 : env.fails .commit = false)
    (hu : st.userByVerificationSelector selector = some u)
    (hh : u.verificationVerifierHash = some storedHash)
    (hv : verifyHash d verifier storedHash = true) :
    s.VerifyEmail d env st ⟨token⟩ = (.ok (), st.markEmailVerified u.id) := by
  simp [AuthService.VerifyEmail, hne, hparse, h1, h2, h3, h4, Tx.start, Tx.Commit, hu, hh, hv]

/-! ## Lemmas on login, password change and reissued tokens -/

theorem Login_ok (s : AuthService) (d : Deps) (env : Env) (st : Store) (input : LoginInput)
    (u : UserRow) (hq : ∀ step, env.fails step = false)
    (hu : st.userByEmail (normalizeEmail d input.Email) = some u)
    (hc : d.bcryptCompare u.passwordHash input.Password = true) :
    ∃ r st2, s.Login d env st input = (.ok r, st2) := by
  have hmem : u ∈ st.users := List.mem_of_find?_eq_some hu
  have hany : st.users.any (fun v => decide (v.id = u.id)) = true := by
    rw [List.any_eq_true]
    exact ⟨u, hmem, by simp⟩
  simp [AuthService.Login, hq, hu, hc, AuthService.generateAuthResult, GenerateToken,
    GenerateRefreshToken, Store.insertRefreshToken, hany]

theorem Login_mismatch (s : AuthService) (d : Deps) (env : Env) (st : Store)
    (input : LoginInput) (u : UserRow) (hq : env.fails .getUser = false)
    (hu : st.userByEmail (normalizeEmail d input.Email) = some u)
    (hc : d.bcryptCompare u.passwordHash input.Password = false) :
    s.Login d env st input = (.error (Unauthorized "Invalid email or password"), st) := by
  simp [AuthService.Login, hq, hu, hc]

theorem userByEmail_updateUser (st : Store) (id email : String) (f : UserRow → UserRow)
    (hf : ∀ v, (f v).email = v.email) (u : UserRow)
    (hu : st.userByEmail email = some u) :
    (st.updateUser id f).userByEmail email = some (if u.id = id then f u else u) := by
  unfold Store.userByEmail Store.updateUser at *
  simp only
  rw [List.find?_map]
  have hp : ((fun v : UserRow => decide (v.email = email)) ∘
      fun v => if decide (v.id = id) = true then f v else v) =
      fun v : UserRow => decide (v.email = email) := by
    funext v
    simp only [Function.comp]
    split <;> simp [hf]
  rw [hp, hu]
  simp

theorem userByEmail_revokeUserTokens (st : Store) (id email : String) :
    (st.revokeUserTokens id).userByEmail email = st.userByEmail email := rfl

theorem loginOnlyWith_of_row (s : AuthService) (d : Deps) (st : Store)
    (email password : String) (v : UserRow)
    (hv : st.userByEmail email = some v)
    (hx : verifiesOnly d v.passwordHash password) :
    LoginOnlyWith s d st email password := by
  intro env em hq hem
  have hv' : st.userByEmail (normalizeEmail d em) = some v := by rw [hem]; exact hv
  constructor
  · exact Login_ok s d env st ⟨em, password⟩ v hq hv' ((hx _).mpr rfl)
  · intro q hqp
    apply Login_mismatch s d env st ⟨em, q⟩ v (hq _) hv'
    cases hc : d.bcryptCompare v.passwordHash q with
    | false => rfl
    | true => exact absurd ((hx _).mp hc) hqp

theorem userByEmail_of_unique (st : Store) (u : UserRow) (hu : u ∈ st.users)
    (huniq : ∀ v ∈ st.users, v.email = u.email → v.id = u.id) :
    ∃ v, st.userByEmail u.email = some v ∧ v.id = u.id := by
  have hsome : (st.users.find? (fun v => decide (v.email = u.email))).isSome := by
    rw [List.find?_isSome]
    exact ⟨u, hu, by simp⟩
  obtain ⟨v, hv⟩ := Option.isSome_iff_exists.mp hsome
  refine ⟨v, hv, ?_⟩
  have hmem := List.mem_of_find?_eq_some hv
  have hp := List.find?_some hv
  simp only [decide_eq_true_eq] at hp
  exact huniq v hmem hp

theorem ResetPassword_ok (s : AuthService) (d : Deps) (env : Env) (st : Store)
    (token password selector verifier storedHash : String) (u : UserRow)
    (hne : token ≠ "") (hparse : parseResetToken token = some (selector, verifier))
    (hu : st.userByResetSelector selector env.now = some u)
    (hh : u.passwordResetVerifierHash = some storedHash)
    (hv : verifyHash d verifier storedHash = true)
    (hlo : 8 ≤ len password) (hhi : len password ≤ 72)
    (hq : ∀ step, env.fails step = false) :
    s.ResetPassword d env st ⟨token, password⟩ =
      (.ok (), (st.resetPasswordHash u.id
        (d.bcryptGenerate password env.salt)).revokeUserTokens u.id) := by
  have h1 : ¬ len password < 8 := by omega
  have h2 : ¬ len password > 72 := by omega
  simp [AuthService.ResetPassword, hne, h1, h2, hparse, hq, Tx.start, Tx.Commit, hu, hh, hv]

theorem ChangePassword_ok (s : AuthService) (d : Deps) (env : Env) (st : Store)
    (input : ChangePasswordInput) (u : UserRow)
    (hu : st.userById input.UserID = some u)
    (hc : d.bcryptCompare u.passwordHash input.CurrentPassword = true)
    (hlo : 8 ≤ len input.NewPassword) (hhi : len input.NewPassword ≤ 72)
    (hq : ∀ step, env.fails step = false) :
    s.ChangePassword d env st input =
      (.ok (), (st.setPasswordHash input.UserID
        (d.bcryptGenerate input.NewPassword env.salt)).revokeUserTokens input.UserID) := by
  have h1 : ¬ len input.NewPassword < 8 := by omega
  have h2 : ¬ len input.NewPassword > 72 := by omega
  simp [AuthService.ChangePassword, h1, h2, hq, hu, hc, Tx.start, Tx.Commit]

theorem ChangePassword_ok_current (s : AuthService) (d : Deps) (env : Env) (st st1 : Store)
    (input : ChangePasswordInput) (u : UserRow)
    (hu : st.userById input.UserID = some u)
    (h : s.ChangePassword d env st input = (.ok (), st1)) :
    d.bcryptCompare u.passwordHash input.CurrentPassword = true := by
  unfold AuthService.ChangePassword at h
  split at h
  · simp at h
  split at h
  · simp at h
  split at h
  · simp at h
  rw [hu] at h
  simp only at h
  split at h
  · simp at h
  · rename_i hc
    simpa using hc

theorem refDeps_verifiesOnly (salt password : String) (h : '$' ∉ salt.toList) :
    verifiesOnly refDeps (refDeps.bcryptGenerate password salt) password := by
  intro candidate
  have hcut : cutFirst '$' (salt.data ++ '$' :: password.data) =
      some (salt.data, password.data) := cutFirst_append '$' _ _ h
  simp only [refDeps, String.toList, String.data_append]
  have hd : "$".data = ['$'] := rfl
  simp only [hd, List.append_assoc, List.singleton_append, hcut, decide_eq_true_eq]
  exact eq_comm

theorem mem_resetPasswordHash (st : Store) (id hash : String) (v : UserRow)
    (hv : v ∈ (st.resetPasswordHash id hash).users) (hid : v.id = id) :
    v.passwordHash = hash ∧ v.passwordResetSelector = none ∧
      v.passwordResetVerifierHash = none ∧ v.passwordResetExpires = none := by
  unfold Store.resetPasswordHash Store.updateUser at hv
  simp only [List.mem_map] at hv
  obtain ⟨w, -, rfl⟩ := hv
  by_cases hw : w.id = id
  · simp [hw]
  · simp [hw] at hid

theorem mem_setPasswordHash (st : Store) (id hash : String) (v : UserRow)
    (hv : v ∈ (st.setPasswordHash id hash).users) (hid : v.id = id) :
    v.passwordHash = hash := by
  unfold Store.setPasswordHash Store.updateUser at hv
  simp only [List.mem_map] at hv
  obtain ⟨w, -, rfl⟩ := hv
  by_cases hw : w.id = id
  · simp [hw]
  · simp [hw] at hid

theorem exists_row_updateUser (st : Store) (id : String) (f : UserRow → UserRow)
    (hf : ∀ v, (f v).id = v.id) (u : UserRow) (hu : u ∈ st.users) (hid : u.id = id) :
    ∃ v ∈ (st.updateUser id f).users, v.id = id := by
  refine ⟨f u, ?_, by rw [hf, hid]⟩
  unfold Store.updateUser
  simp only [List.mem_map]
  exact ⟨u, hu, by simp [hid]⟩

theorem ForgotPassword_ok_store (s : AuthService) (d : Deps) (env : Env) (st st1 : Store)
    (email token : String) (h : s.ForgotPassword d env st ⟨email⟩ = (.ok token, st1))
    (hne : token ≠ "") :
    ∃ u selector verifier,
      st.userByEmail (normalizeEmail d email) = some u ∧
      generateResetToken env = some (selector, verifier, token) ∧
      st1 = st.setResetToken u.id selector (hashVerifier d verifier)
        (env.now + s.passwordResetTTL) := by
  unfold AuthService.ForgotPassword at h
  simp only at h
  split at h
  · simp at h
  split at h
  · simp at h
  split at h
  · simp only [Prod.mk.injEq, Except.ok.injEq] at h
    exact absurd h.1.symm hne
  rename_i u hu
  split at h
  · simp at h
  rename_i selector verifier tok hgen
  split at h
  · simp at h
  simp only [Prod.mk.injEq, Except.ok.injEq] at h
  obtain ⟨rfl, rfl⟩ := h
  exact ⟨u, selector, verifier, hu, hgen, rfl⟩

theorem ResendVerification_ok_store (s : AuthService) (d : Deps) (env : Env)
    (st st1 : Store) (email token : String)
    (h : s.ResendVerification d env st ⟨email⟩ = (.ok token, st1)) (hne : token ≠ "") :
    ∃ u selector verifier,
      st.userByEmail (normalizeEmail d email) = some u ∧ u.emailVerified = false ∧
      generateVerificationToken env = some (selector, verifier, token) ∧
      st1 = st.setVerificationToken u.id selector (hashVerifier d verifier) := by
  unfold AuthService.ResendVerification at h
  simp only at h
  split at h
  · simp at h
  split at h
  · simp at h
  split at h
  · simp only [Prod.mk.injEq, Except.ok.injEq] at h
    exact absurd h.1.symm hne
  rename_i u hu
  split at h
  · simp only [Prod.mk.injEq, Except.ok.injEq] at h
    exact absurd h.1.symm hne
  rename_i hver
  split at h
  · simp at h
  rename_i selector verifier tok hgen
  split at h
  · simp at h
  simp only [Prod.mk.injEq, Except.ok.injEq] at h
  obtain ⟨rfl, rfl⟩ := h
  exact ⟨u, selector, verifier, hu, by simpa using hver, hgen, rfl⟩

theorem found_after_setResetToken (st : Store) (uid nsel nhash osel : String)
    (expires now : Int) (v : UserRow)
    (hown : ∀ w ∈ st.users, w.passwordResetSelector = some osel → w.id = uid)
    (hv : (st.setResetToken uid nsel nhash expires).userByResetSelector osel now = some v) :
    osel = nsel ∧ v.passwordResetVerifierHash = some nhash := by
  have hmem := List.mem_of_find?_eq_some hv
  have hp := List.find?_some hv
  unfold Store.setResetToken Store.updateUser at hmem
  simp only [List.mem_map] at hmem
  obtain ⟨w, hw, rfl⟩ := hmem
  simp only [resetSelectable, Bool.and_eq_true, decide_eq_true_eq] at hp
  by_cases hid : w.id = uid
  · simp only [hid, decide_True, if_true] at hp ⊢
    simp only [Option.some.injEq] at hp
    exact ⟨hp.1.symm, trivial⟩
  · simp only [hid, decide_False, Bool.false_eq_true, if_false] at hp
    exact absurd (hown w hw hp.1) hid

theorem found_after_setVerificationToken (st : Store) (uid nsel nhash osel : String)
    (v : UserRow)
    (hown : ∀ w ∈ st.users, w.verificationSelector = some osel → w.id = uid)
    (hv : (st.setVerificationToken uid nsel nhash).userByVerificationSelector osel = some v) :
    osel = nsel ∧ v.verificationVerifierHash = some nhash := by
  have hmem := List.mem_of_find?_eq_some hv
  have hp := List.find?_some hv
  unfold Store.setVerificationToken Store.updateUser at hmem
  simp only [List.mem_map] at hmem
  obtain ⟨w, hw, rfl⟩ := hmem
  simp only [verificationSelectable, Bool.and_eq_true, decide_eq_true_eq] at hp
  by_cases hid : w.id = uid
  · simp only [hid, decide_True, if_true] at hp ⊢
    simp only [Option.some.injEq] at hp
    exact ⟨hp.1.symm, trivial⟩
  · simp only [hid, decide_False, Bool.false_eq_true, if_false] at hp
    exact absurd (hown w hw hp.1) hid

theorem VerifyResetToken_mismatch (s : AuthService) (d : Deps) (env : Env) (st : Store)
    (token selector verifier : String) (hne : token ≠ "")
    (hparse : parseResetToken token = some (selector, verifier))
    (hq : env.fails .getUser = false)
    (hrow : ∀ v, st.userByResetSelector selector env.now = some v →
      ∃ h, v.passwordResetVerifierHash = some h ∧ verifyHash d verifier h = false) :
    s.VerifyResetToken d env st ⟨token⟩ = (.ok { Valid := false, Email := "" }, st) := by
  cases hu : st.userByResetSelector selector env.now with
  | none => simp [AuthService.VerifyResetToken, hne, hparse, hq, hu]
  | some v =>
    obtain ⟨h, hh, hv⟩ := hrow v hu
    simp [AuthService.VerifyResetToken, hne, hparse, hq, hu, hh, hv]

theorem ResetPassword_mismatch (s : AuthService) (d : Deps) (env : Env) (st : Store)
    (token password selector verifier : String) (hne : token ≠ "")
    (hparse : parseResetToken token = some (selector, verifier))
    (hrow : ∀ v, st.userByResetSelector selector env.now = some v →
      ∃ h, v.passwordResetVerifierHash = some h ∧ verifyHash d verifier h = false) :
    ∃ e, s.ResetPassword d env st ⟨token, password⟩ = (.error e, st) ∧
      (8 ≤ len password → len password ≤ 72 → env.fails .begin = false →
        env.fails .getUser = false → e.Code = .CodeBadRequest) := by
  unfold AuthService.ResetPassword
  simp only [hne, if_false]
  by_cases h1 : len password < 8
  · simp only [h1, if_true]
    exact ⟨_, rfl, fun h => by omega⟩
  by_cases h2 : len password > 72
  · simp only [h1, h2, if_true, if_false]
    exact ⟨_, rfl, fun _ h => by omega⟩
  simp only [h1, h2, if_false, hparse, Tx.start, Tx.Rollback]
  cases hb : env.fails .begin with
  | true =>
    simp only [if_true]
    exact ⟨_, rfl, fun _ _ h => by cases h⟩
  | false =>
    simp only [Bool.false_eq_true, if_false]
    cases hg : env.fails .getUser with
    | true =>
      simp only [if_true]
      exact ⟨_, rfl, fun _ _ _ h => by cases h⟩
    | false =>
      simp only [Bool.false_eq_true, if_false]
      cases hu : st.userByResetSelector selector env.now with
      | none => exact ⟨_, rfl, fun _ _ _ _ => rfl⟩
      | some v =>
        obtain ⟨h, hh, hv⟩ := hrow v hu
        simp only [hh, hv]
        exact ⟨_, rfl, fun _ _ _ _ => rfl⟩

theorem VerifyEmail_mismatch (s : AuthService) (d : Deps) (env : Env) (st : Store)
    (token selector verifier : String) (hne : token ≠ "")
    (hparse : parseVerificationToken token = some (selector, verifier))
    (hrow : ∀ v, st.userByVerificationSelector selector = some v →
      ∃ h, v.verificationVerifierHash = some h ∧ verifyHash d verifier h = false) :
    ∃ e, s.VerifyEmail d env st ⟨token⟩ = (.error e, st) ∧
      (env.fails .begin = false → env.fails .getUser = false →
        e.Code = .CodeBadRequest) := by
  unfold AuthService.VerifyEmail
  simp only [hne, if_false, hparse, Tx.start, Tx.Rollback]
  cases hb : env.fails .begin with
  | true =>
    simp only [if_true]
    exact ⟨_, rfl, fun h => by cases h⟩
  | false =>
    simp only [Bool.false_eq_true, if_false]
    cases hg : env.fails .getUser with
    | true =>
      simp only [if_true]
      exact ⟨_, rfl, fun _ h => by cases h⟩
    | false =>
      simp only [Bool.false_eq_true, if_false]
      cases hu : st.userByVerificationSelector selector with
      | none => exact ⟨_, rfl, fun _ _ => rfl⟩
      | some v =>
        obtain ⟨h, hh, hv⟩ := hrow v hu
        simp only [hh, hv]
        exact ⟨_, rfl, fun _ _ => rfl⟩

theorem exists_found_after_setResetToken (st : Store) (u : UserRow) (nsel nhash : String)
    (expires now : Int) (hu : u ∈ st.users) (hlt : now < expires) :
    ∃ v, (st.setResetToken u.id nsel nhash expires).userByResetSelector nsel now = some v := by
  apply Option.isSome_iff_exists.mp
  unfold Store.userByResetSelector Store.setResetToken Store.updateUser
  rw [List.find?_isSome]
  refine ⟨_, List.mem_map.mpr ⟨u, hu, rfl⟩, ?_⟩
  simp [resetSelectable, hlt]

theorem exists_found_after_setVerificationToken (st : Store) (u : UserRow)
    (nsel nhash : String) (hu : u ∈ st.users) (hver : u.emailVerified = false) :
    ∃ v, (st.setVerificationToken u.id nsel nhash).userByVerificationSelector nsel =
      some v := by
  apply Option.isSome_iff_exists.mp
  unfold Store.userByVerificationSelector Store.setVerificationToken Store.updateUser
  rw [List.find?_isSome]
  refine ⟨_, List.mem_map.mpr ⟨u, hu, rfl⟩, ?_⟩
  simp [verificationSelectable, hver]

theorem verifyHash_false_of_ne (d : Deps) (a b : String)
    (h : hashVerifier d a ≠ hashVerifier d b) : verifyHash d a (hashVerifier d b) = false := by
  simp only [verifyHash, decide_eq_false_iff_not]
  exact h

theorem refDeps_sha256_injective : Function.Injective refDeps.sha256Hex := by
  intro a b h
  have h1 : ("sha256:" ++ a).data = ("sha256:" ++ b).data := congrArg String.data h
  simp only [String.data_append] at h1
  exact String.ext (List.append_cancel_left h1)

/-! ## Lemmas on digests, issuance, retries and escaping -/

theorem hexEncode_length (bytes : List Nat) : (hexEncode bytes).length = 2 * bytes.length := by
  induction bytes with
  | nil => rfl
  | cons b bs ih => simp [hexEncode, ih]; omega

theorem hexDigit_mem (n : Nat) : hexDigit n ∈ "0123456789abcdef".toList := by
  have h : ∀ k, k < 16 → "0123456789abcdef".toList.getD k '0' ∈ "0123456789abcdef".toList := by
    decide
  exact h (n % 16) (Nat.mod_lt _ (by decide))

theorem hexEncode_mem (bytes : List Nat) :
    ∀ c ∈ hexEncode bytes, c ∈ "0123456789abcdef".toList := by
  induction bytes with
  | nil => simp [hexEncode]
  | cons b bs ih =>
    intro c hc
    simp only [hexEncode, List.mem_cons] at hc
    rcases hc with rfl | rfl | hc
    · exact hexDigit_mem _
    · exact hexDigit_mem _
    · exact ih c hc

theorem readBytes_length (n : Nat) (source : List Nat) : (readBytes n source).length = n := by
  simp [readBytes]

theorem Login_ok_store (s : AuthService) (d : Deps) (env : Env) (st st1 : Store)
    (input : LoginInput) (r : AuthResult)
    (h : s.Login d env st input = (.ok r, st1)) :
    ∃ u, st.userByEmail (normalizeEmail d input.Email) = some u ∧
      d.bcryptCompare u.passwordHash input.Password = true ∧ r.User.ID = u.id ∧
      st1 = { st with refreshTokens :=
                st.refreshTokens ++ [issuedRow s d env u.id r.RefreshToken] } := by
  unfold AuthService.Login at h
  simp only at h
  split at h
  · simp at h
  split at h
  · simp at h
  rename_i u hu
  split at h
  · simp at h
  rename_i hc
  refine ⟨u, hu, by simpa using hc, ?_, generateAuthResult_ok _ _ _ _ _ _ _ _ _ _ h⟩
  unfold AuthService.generateAuthResult at h
  split at h
  · simp at h
  split at h
  · simp at h
  simp only at h
  split at h
  · simp at h
  split at h
  · simp at h
  simp only [Prod.mk.injEq, Except.ok.injEq] at h
  rw [← h.1]

theorem retryLoop_first_success (fn : Nat → Option String) (n k : Nat) :
    ∀ (i : Nat) (delay : Int) (lastErr : Option String) (sleeps : List Int),
      k < n → fn (i + k) = none → (∀ j, j < k → fn (i + j) ≠ none) →
      (retryLoop fn n i delay lastErr sleeps).result = none ∧
        (retryLoop fn n i delay lastErr sleeps).calls = i + k + 1 := by
  induction n generalizing k with
  | zero => intro i delay lastErr sleeps hk; omega
  | succ n ih =>
    intro i delay lastErr sleeps hk hnone hfail
    cases k with
    | zero =>
      simp only [Nat.add_zero] at hnone
      simp [retryLoop, hnone]
    | succ k =>
      have h0 : fn i ≠ none := by simpa using hfail 0 (by omega)
      obtain ⟨err, herr⟩ := Option.ne_none_iff_exists'.mp h0
      have hk' : k < n := by omega
      have hnone' : fn (i + 1 + k) = none := by
        rw [show i + 1 + k = i + (k + 1) by omega]; exact hnone
      have hfail' : ∀ j, j < k → fn (i + 1 + j) ≠ none := by
        intro j hj
        rw [show i + 1 + j = i + (j + 1) by omega]
        exact hfail (j + 1) (by omega)
      simp only [retryLoop, herr]
      split
      · have := ih k (i + 1) (wrap64 (delay * 2)) (some err) (sleeps ++ [delay]) hk' hnone' hfail'
        constructor
        · exact this.1
        · rw [this.2]; omega
      · have := ih k (i + 1) delay (some err) sleeps hk' hnone' hfail'
        constructor
        · exact this.1
        · rw [this.2]; omega

theorem retryLoop_all_fail (fn : Nat → Option String) (n : Nat) :
    ∀ (i : Nat) (delay : Int) (lastErr : Option String) (sleeps : List Int),
      0 < n → (∀ j, j < n → fn (i + j) ≠ none) →
      (retryLoop fn n i delay lastErr sleeps).result = fn (i + n - 1) ∧
        (retryLoop fn n i delay lastErr sleeps).calls = i + n := by
  induction n with
  | zero => intro i delay lastErr sleeps h; omega
  | succ n ih =>
    intro i delay lastErr sleeps _ hfail
    have h0 : fn i ≠ none := by simpa using hfail 0 (by omega)
    obtain ⟨err, herr⟩ := Option.ne_none_iff_exists'.mp h0
    simp only [retryLoop, herr]
    by_cases hn : n = 0
    · subst hn
      simp [retryLoop, herr]
    · have hfail' : ∀ j, j < n → fn (i + 1 + j) ≠ none := by
        intro j hj
        rw [show i + 1 + j = i + (j + 1) by omega]
        exact hfail (j + 1) (by omega)
      have := ih (i + 1) (wrap64 (delay * 2)) (some err) (sleeps ++ [delay]) (by omega) hfail'
      simp only [hn, ne_eq, not_false_eq_true, if_true]
      constructor
      · rw [this.1]; congr 1; omega
      · rw [this.2]; omega

theorem ReplaceAll_append (old : Char) (new a b : List Char) :
    ReplaceAll old new (a ++ b) = ReplaceAll old new a ++ ReplaceAll old new b := by
  induction a with
  | nil => rfl
  | cons c cs ih => simp [ReplaceAll, ih]

theorem escape_sequential (cs : List Char) :
    ReplaceAll '_' ['\\', '_'] (ReplaceAll '%' ['\\', '%']
      (ReplaceAll '\\' ['\\', '\\'] cs)) = escapeOnePass cs := by
  induction cs with
  | nil => rfl
  | cons c cs ih =>
    simp only [ReplaceAll, escapeOnePass, ReplaceAll_append, ih]
    congr 1
    by_cases h1 : c = '\\'
    · subst h1; decide
    · by_cases h2 : c = '%'
      · subst h2; decide
      · by_cases h3 : c = '_'
        · subst h3; decide
        · simp [h1, h2, h3, ReplaceAll]

theorem unescape_escapeOnePass (cs : List Char) : unescape (escapeOnePass cs) = cs := by
  induction cs with
  | nil => rfl
  | cons c cs ih =>
    by_cases h : c = '\\' ∨ c = '%' ∨ c = '_'
    · simp only [escapeOnePass, h, if_true, List.cons_append, List.nil_append, unescape, ih]
    · have hc : c ≠ '\\' := fun e => h (Or.inl e)
      simp only [escapeOnePass, h, if_false, List.cons_append, List.nil_append]
      cases hrest : escapeOnePass cs with
      | nil =>
        rw [hrest] at ih
        simp only [unescape] at ih ⊢
        rw [← ih]
      | cons x xs =>
        rw [hrest] at ih
        simp only [unescape, hc, if_false, ih]

theorem fullyEscaped_escapeOnePass (cs : List Char) :
    fullyEscaped (escapeOnePass cs) = true := by
  induction cs with
  | nil => rfl
  | cons c cs ih =>
    by_cases h : c = '\\' ∨ c = '%' ∨ c = '_'
    · simp only [escapeOnePass, h, if_true, List.cons_append, List.nil_append, fullyEscaped, ih]
    · have h1 : c ≠ '\\' := fun e => h (Or.inl e)
      have h2 : c ≠ '%' := fun e => h (Or.inr (Or.inl e))
      have h3 : c ≠ '_' := fun e => h (Or.inr (Or.inr e))
      simp only [escapeOnePass, h, if_false, List.cons_append, List.nil_append]
      cases hrest : escapeOnePass cs with
      | nil => simp [fullyEscaped, h1, h2, h3]
      | cons x xs =>
        rw [hrest] at ih
        simp [fullyEscaped, h1, h2, h3, ih]

/-! ## Lemmas on signed tokens and the ledger -/

theorem NewNumericDate_whole (t : Int) : wholeSecond (NewNumericDate t) := by
  unfold wholeSecond NewNumericDate
  omega

theorem NewNumericDate_le (t : Int) : NewNumericDate t ≤ t := by
  unfold NewNumericDate
  omega

theorem NewNumericDate_gt (t : Int) : t - 1000000000 < NewNumericDate t := by
  unfold NewNumericDate
  omega

theorem wholeSecond_div_mul (t : Int) (h : wholeSecond t) :
    t / 1000000000 * 1000000000 = t := by
  unfold wholeSecond at h
  omega

theorem getNat_putNat (n : Nat) (rest : List Char) : getNat (putNat n rest) = some (n, rest) := by
  induction n with
  | zero => simp [putNat, getNat]
  | succ k ih =>
    have h : putNat (k + 1) rest = '1' :: putNat k rest := by
      simp [putNat, List.replicate_succ]
    rw [h, getNat, ih]
    simp

theorem getNat_some (cs : List Char) :
    ∀ (n : Nat) (rest : List Char), getNat cs = some (n, rest) → cs = putNat n rest := by
  induction cs with
  | nil => intro n rest h; simp [getNat] at h
  | cons c cs ih =>
    intro n rest h
    rw [getNat] at h
    split at h
    · rename_i hc
      simp at h
      obtain ⟨h1, h2⟩ := h
      subst h1 h2 hc
      simp [putNat]
    · split at h
      · rename_i hc
        cases hg : getNat cs with
        | none => simp [hg] at h
        | some p =>
          obtain ⟨m, r⟩ := p
          simp [hg] at h
          obtain ⟨h1, h2⟩ := h
          subst h1 h2 hc
          have := ih m r hg
          rw [this]
          simp [putNat, List.replicate_succ]
      · simp at h

theorem getInt_putInt (i : Int) (rest : List Char) : getInt (putInt i rest) = some (i, rest) := by
  cases i with
  | ofNat n => simp [putInt, getInt, getNat_putNat]
  | negSucc n => simp [putInt, getInt, getNat_putNat]

theorem getInt_some (cs : List Char) (i : Int) (rest : List Char)
    (h : getInt cs = some (i, rest)) : cs = putInt i rest := by
  cases cs with
  | nil => simp [getInt] at h
  | cons c cs =>
    rw [getInt] at h
    split at h
    · rename_i hc
      cases hg : getNat cs with
      | none => simp [hg] at h
      | some p =>
        obtain ⟨m, r⟩ := p
        simp [hg] at h
        obtain ⟨h1, h2⟩ := h
        subst h1 h2 hc
        rw [getNat_some _ _ _ hg]
        rfl
    · split at h
      · rename_i hc
        cases hg : getNat cs with
        | none => simp [hg] at h
        | some p =>
          obtain ⟨m, r⟩ := p
          simp [hg] at h
          obtain ⟨h1, h2⟩ := h
          subst h1 h2 hc
          rw [getNat_some _ _ _ hg]
          rfl
      · simp at h

theorem getStr_putStr (s : String) (rest : List Char) : getStr (putStr s rest) = some (s, rest) := by
  simp [getStr, putStr, getNat_putNat]

theorem getStr_some (cs : List Char) (s : String) (rest : List Char)
    (h : getStr cs = some (s, rest)) : cs = putStr s rest := by
  unfold getStr at h
  cases hg : getNat cs with
  | none => simp [hg] at h
  | some p =>
    obtain ⟨n, r⟩ := p
    simp [hg] at h
    obtain ⟨hn, h1, h2⟩ := h
    subst h1 h2
    rw [getNat_some _ _ _ hg]
    simp [putStr, Nat.min_eq_left hn]

theorem getFields_putFields (f : TokenFields) : getFields (putFields f) = some f := by
  simp [getFields, putFields, getInt_putInt, getStr_putStr]

theorem getFields_some (cs : List Char) (f : TokenFields) (h : getFields cs = some f) :
    cs = putFields f := by
  unfold getFields at h
  cases h1 : getInt cs with
  | none => simp [h1] at h
  | some p1 =>
    obtain ⟨e, r1⟩ := p1
    simp only [h1] at h
    cases h2 : getInt r1 with
    | none => simp [h2] at h
    | some p2 =>
      obtain ⟨i, r2⟩ := p2
      simp only [h2] at h
      cases h3 : getStr r2 with
      | none => simp [h3] at h
      | some p3 =>
        obtain ⟨a, r3⟩ := p3
        simp only [h3] at h
        cases h4 : getStr r3 with
        | none => simp [h4] at h
        | some p4 =>
          obtain ⟨b, r4⟩ := p4
          simp only [h4] at h
          cases h5 : getStr r4 with
          | none => simp [h5] at h
          | some p5 =>
            obtain ⟨iss, r5⟩ := p5
            simp only [h5] at h
            cases h6 : getStr r5 with
            | none => simp [h6] at h
            | some p6 =>
              obtain ⟨sec, r6⟩ := p6
              simp only [h6] at h
              split at h
              · rename_i hr
                simp at h
                subst h hr
                rw [getInt_some _ _ _ h1, getInt_some _ _ _ h2, getStr_some _ _ _ h3,
                  getStr_some _ _ _ h4, getStr_some _ _ _ h5, getStr_some _ _ _ h6]
                rfl
              · simp at h

theorem lawDeps_ParsesSigned : ParsesSigned lawDeps := by
  intro secret now c he hi
  simp [lawDeps, lawParse, lawSign, getFields_putFields, wholeSecond_div_mul _ he,
    wholeSecond_div_mul _ hi]

theorem lawDeps_ParsesOnlySigned : ParsesOnlySigned lawDeps := by
  intro secret now token c h
  simp only [lawDeps, lawParse] at h
  split at h
  · simp at h
  · rename_i tag cs htok
    split at h
    · simp at h
    · rename_i f hf
      have hcs := getFields_some _ _ hf
      split at h
      · rename_i hsec
        split at h
        · rename_i htag
          left
          refine ⟨{ ID := f.fourth, Subject := f.sub, ExpiresAt := f.exp * 1000000000,
                    IssuedAt := f.iat * 1000000000, Issuer := f.iss }, ?_⟩
          simp only [lawDeps, lawSign, Int.mul_ediv_cancel _ (by decide : (1000000000 : Int) ≠ 0)]
          rw [← hsec.1, ← hcs, ← htag, ← htok]
        · split at h
          · rename_i htag
            right
            refine ⟨{ UserID := f.sub, UserType := f.fourth, ExpiresAt := f.exp * 1000000000,
                      IssuedAt := f.iat * 1000000000, Issuer := f.iss }, ?_⟩
            simp only [lawDeps, lawSignAccess,
              Int.mul_ediv_cancel _ (by decide : (1000000000 : Int) ≠ 0)]
            rw [← hsec.1, ← hcs, ← htag, ← htok]
          · simp at h
      · simp at h

theorem lawDeps_SignsNonEmpty : SignsNonEmpty lawDeps := by
  constructor
  · intro secret c h
    have := congrArg String.data h
    simp [lawDeps, lawSign] at this
  · intro secret a h
    have := congrArg String.data h
    simp [lawDeps, lawSignAccess] at this

theorem lawDeps_ReadsRefreshAsClaims : ReadsRefreshAsClaims lawDeps := by
  intro secret now c he hi
  simp [lawDeps, lawParseClaims, lawSign, getFields_putFields, wholeSecond_div_mul _ he,
    wholeSecond_div_mul _ hi]

theorem lawDeps_ReadsAccessClaims : ReadsAccessClaims lawDeps := by
  intro secret now a he hi
  simp [lawDeps, lawParseClaims, lawSignAccess, getFields_putFields,
    wholeSecond_div_mul _ he, wholeSecond_div_mul _ hi]

theorem generateAuthResult_ok_tokens (s : AuthService) (d : Deps) (env : Env) (db db1 : Store)
    (userID email userType : String) (createdAt : Int) (r : AuthResult)
    (h : s.generateAuthResult d env db userID email userType createdAt = (.ok r, db1)) :
    r.AccessToken = d.jwtSignAccess s.jwtSecret
        { UserID := userID, UserType := userType,
          ExpiresAt := NewNumericDate (env.now + s.accessDuration),
          IssuedAt := NewNumericDate env.now, Issuer := s.jwtIssuer } ∧
      r.RefreshToken = d.jwtSignRefresh s.jwtSecret
        { ID := env.uuid, Subject := userID,
          ExpiresAt := NewNumericDate (env.now + s.refreshDuration),
          IssuedAt := NewNumericDate env.now, Issuer := s.jwtIssuer } := by
  unfold AuthService.generateAuthResult at h
  split at h
  · simp at h
  rename_i accessToken ha
  split at h
  · simp at h
  rename_i refreshToken hr
  simp only at h
  split at h
  · simp at h
  split at h
  · simp at h
  simp only [Prod.mk.injEq, Except.ok.injEq] at h
  obtain ⟨hres, -⟩ := h
  subst hres
  unfold GenerateToken at ha
  unfold GenerateRefreshToken at hr
  split at ha
  · simp at ha
  split at hr
  · simp at hr
  simp only [Option.some.injEq] at ha hr
  exact ⟨ha.symm, hr.symm⟩

theorem Refresh_ok_tokens (s : AuthService) (d : Deps) (env : Env) (st st1 : Store)
    (t : String) (r : AuthResult)
    (h : s.Refresh d env st ⟨t⟩ = (.ok r, st1)) :
    ∃ claims, ParseToken d env.now s.jwtSecret t = some claims ∧
      (∃ a, r.AccessToken = d.jwtSignAccess s.jwtSecret a) ∧
      r.RefreshToken = d.jwtSignRefresh s.jwtSecret
        { ID := env.uuid, Subject := claims.Subject,
          ExpiresAt := NewNumericDate (env.now + s.refreshDuration),
          IssuedAt := NewNumericDate env.now, Issuer := s.jwtIssuer } := by
  unfold AuthService.Refresh at h
  split at h
  · simp at h
  rename_i claims hparse
  refine ⟨claims, hparse, ?_⟩
  simp only at h
  split at h
  · simp at h
  split at h
  · simp at h
  split at h
  · simp at h
  split at h
  · simp at h
  split at h
  · simp at h
  split at h
  · simp at h
  rename_i u hu result w2 hgen
  split at h
  · simp at h
  simp only [Tx.Commit, Prod.mk.injEq, Except.ok.injEq] at h
  obtain ⟨hr, -⟩ := h
  subst hr
  have ht := generateAuthResult_ok_tokens _ _ _ _ _ _ _ _ _ _ hgen
  exact ⟨⟨_, ht.1⟩, ht.2⟩

theorem Register_ok_tokens (s : AuthService) (d : Deps) (env : Env) (st st1 : Store)
    (input : RegisterInput) (r : AuthResult)
    (h : s.Register d env st input = (.ok r, st1)) :
    r.RefreshToken = d.jwtSignRefresh s.jwtSecret
        { ID := env.uuid, Subject := env.newUserID,
          ExpiresAt := NewNumericDate (env.now + s.refreshDuration),
          IssuedAt := NewNumericDate env.now, Issuer := s.jwtIssuer } := by
  unfold AuthService.Register at h
  simp only at h
  split at h
  · simp at h
  split at h
  · simp at h
  split at h
  · simp at h
  split at h
  · simp at h
  split at h
  · simp at h
  split at h
  · simp at h
  split at h
  · simp at h
  rename_i result w2 hres
  split at h
  · simp at h
  simp only [Tx.Commit, Prod.mk.injEq, Except.ok.injEq] at h
  obtain ⟨hr, -⟩ := h
  subst hr
  exact (generateAuthResult_ok_tokens _ _ _ _ _ _ _ _ _ _ hres).2

theorem Login_ok_tokens (s : AuthService) (d : Deps) (env : Env) (st st1 : Store)
    (input : LoginInput) (r : AuthResult)
    (h : s.Login d env st input = (.ok r, st1)) :
    r.RefreshToken = d.jwtSignRefresh s.jwtSecret
        { ID := env.uuid, Subject := r.User.ID,
          ExpiresAt := NewNumericDate (env.now + s.refreshDuration),
          IssuedAt := NewNumericDate env.now, Issuer := s.jwtIssuer } := by
  unfold AuthService.Login at h
  simp only at h
  split at h
  · simp at h
  split at h
  · simp at h
  split at h
  · simp at h
  have ht := (generateAuthResult_ok_tokens _ _ _ _ _ _ _ _ _ _ h).2
  rw [ht]
  unfold AuthService.generateAuthResult at h
  split at h
  · simp at h
  split at h
  · simp at h
  simp only at h
  split at h
  · simp at h
  split at h
  · simp at h
  simp only [Prod.mk.injEq, Except.ok.injEq] at h
  rw [← h.1]

theorem Login_error_store (s : AuthService) (d : Deps) (env : Env) (st st1 : Store)
    (input : LoginInput) (e : AppError)
    (h : s.Login d env st input = (.error e, st1)) : st1 = st := by
  unfold AuthService.Login at h
  simp only at h
  split at h
  · simp at h; exact h.2.symm
  split at h
  · simp at h; exact h.2.symm
  split at h
  · simp at h; exact h.2.symm
  exact generateAuthResult_error _ _ _ _ _ _ _ _ _ _ h

theorem LedgerSound_of_rows (s : AuthService) (d : Deps) (st st1 : Store)
    (h : LedgerSound s d st)
    (hk : ∀ x ∈ st1.refreshTokens, ∃ y ∈ st.refreshTokens,
      y.tokenHash = x.tokenHash ∧ y.userId = x.userId) : LedgerSound s d st1 := by
  intro x hx
  obtain ⟨y, hy, h1, h2⟩ := hk x hx
  obtain ⟨c, hc1, hc2, hc3⟩ := h y hy
  exact ⟨c, by rw [← h1, hc1], by rw [← h2, hc2], hc3⟩

theorem LedgerSound_revoke (s : AuthService) (d : Deps) (st : Store) (userID : String)
    (h : LedgerSound s d st) : LedgerSound s d (st.revokeUserTokens userID) := by
  apply LedgerSound_of_rows s d st _ h
  intro x hx
  simp only [Store.revokeUserTokens, List.mem_map] at hx
  obtain ⟨y, hy, rfl⟩ := hx
  refine ⟨y, hy, ?_, ?_⟩ <;> (unfold markRevoked; split <;> rfl)

theorem LedgerSound_updateUser (s : AuthService) (d : Deps) (st : Store) (id : String)
    (f : UserRow → UserRow) (h : LedgerSound s d st) : LedgerSound s d (st.updateUser id f) :=
  h

theorem LedgerSound_claim (s : AuthService) (d : Deps) (st w : Store) (tokenHash uid : String)
    (now : Int) (h : LedgerSound s d st)
    (hc : st.claimRefreshToken tokenHash now = some (uid, w)) : LedgerSound s d w := by
  unfold Store.claimRefreshToken at hc
  split at hc
  · simp at hc
  simp only [Option.some.injEq, Prod.mk.injEq] at hc
  obtain ⟨-, rfl⟩ := hc
  apply LedgerSound_of_rows s d st _ h
  intro x hx
  simp only [List.mem_map] at hx
  obtain ⟨y, hy, rfl⟩ := hx
  refine ⟨y, hy, ?_, ?_⟩ <;> (unfold markClaimed; split <;> rfl)

theorem LedgerSound_issue (s : AuthService) (d : Deps) (env : Env) (db : Store)
    (userID email userType : String) (createdAt : Int) (h : LedgerSound s d db) :
    LedgerSound s d (s.generateAuthResult d env db userID email userType createdAt).2 := by
  cases hres : s.generateAuthResult d env db userID email userType createdAt with
  | mk res db1 =>
    cases res with
    | error e => rw [generateAuthResult_error _ _ _ _ _ _ _ _ _ _ hres]; exact h
    | ok r =>
      have hst := generateAuthResult_ok _ _ _ _ _ _ _ _ _ _ hres
      have ht := (generateAuthResult_ok_tokens _ _ _ _ _ _ _ _ _ _ hres).2
      subst hst
      intro x hx
      simp only [List.mem_append, List.mem_singleton] at hx
      rcases hx with hx | hx
      · exact h x hx
      · subst hx
        exact ⟨_, by rw [issuedRow, ht], rfl, NewNumericDate_whole _, NewNumericDate_whole _⟩

theorem Login_sound (s : AuthService) (d : Deps) (env : Env) (st : Store) (input : LoginInput)
    (h : LedgerSound s d st) : LedgerSound s d (s.Login d env st input).2 := by
  unfold AuthService.Login
  simp only
  split
  · exact h
  split
  · exact h
  split
  · exact h
  exact LedgerSound_issue _ _ _ _ _ _ _ _ h

theorem Logout_sound (s : AuthService) (d : Deps) (env : Env) (st : Store) (userID : String)
    (h : LedgerSound s d st) : LedgerSound s d (s.Logout env st userID).2 := by
  unfold AuthService.Logout
  split
  · exact h
  · exact LedgerSound_revoke _ _ _ _ h

theorem Refresh_sound (s : AuthService) (d : Deps) (env : Env) (st : Store)
    (input : RefreshInput) (h : LedgerSound s d st) :
    LedgerSound s d (s.Refresh d env st input).2 := by
  unfold AuthService.Refresh
  split
  · exact h
  rename_i claims hparse
  simp only
  split
  · exact h
  split
  · exact h
  split
  · exact h
  rename_i uid w1 hclaim
  split
  · exact h
  split
  · exact h
  rename_i u hu
  split
  · exact h
  rename_i result w2 hgen
  split
  · exact h
  have hw1 := LedgerSound_claim s d _ _ _ _ _ h hclaim
  have := LedgerSound_issue s d env w1 claims.Subject u.email u.type u.createdAt hw1
  rw [hgen] at this
  exact this

theorem Register_sound (s : AuthService) (d : Deps) (env : Env) (st : Store)
    (input : RegisterInput) (h : LedgerSound s d st) :
    LedgerSound s d (s.Register d env st input).2 := by
  unfold AuthService.Register
  simp only
  split
  · exact h
  split
  · exact h
  split
  · exact h
  split
  · exact h
  split
  · exact h
  split
  · exact h
  rename_i w1 hins
  split
  · exact h
  rename_i result w2 hgen
  split
  · exact h
  have hw1 : LedgerSound s d w1 := by
    unfold Store.insertUser at hins
    simp only [Tx.start] at hins
    split at hins
    · simp at hins
    simp only [Option.some.injEq] at hins
    rw [← hins]
    exact h
  have := LedgerSound_issue s d env w1 env.newUserID (normalizeEmail d input.Email) "user"
    env.now hw1
  rw [hgen] at this
  exact this

theorem ChangePassword_sound (s : AuthService) (d : Deps) (env : Env) (st : Store)
    (input : ChangePasswordInput) (h : LedgerSound s d st) :
    LedgerSound s d (s.ChangePassword d env st input).2 := by
  simp only [AuthService.ChangePassword, Tx.start, Tx.Rollback, Tx.Commit]
  repeat' split
  all_goals first
    | exact h
    | exact LedgerSound_revoke _ _ _ _ (LedgerSound_updateUser _ _ _ _ _ h)

theorem ResetPassword_sound (s : AuthService) (d : Deps) (env : Env) (st : Store)
    (input : ResetPasswordInput) (h : LedgerSound s d st) :
    LedgerSound s d (s.ResetPassword d env st input).2 := by
  simp only [AuthService.ResetPassword, Tx.start, Tx.Rollback, Tx.Commit]
  repeat' split
  all_goals first
    | exact h
    | exact LedgerSound_revoke _ _ _ _ (LedgerSound_updateUser _ _ _ _ _ h)

theorem ForgotPassword_sound (s : AuthService) (d : Deps) (env : Env) (st : Store)
    (input : ForgotPasswordInput) (h : LedgerSound s d st) :
    LedgerSound s d (s.ForgotPassword d env st input).2 := by
  simp only [AuthService.ForgotPassword, Tx.start, Tx.Rollback, Tx.Commit]
  repeat' split
  all_goals exact h

theorem VerifyEmail_sound (s : AuthService) (d : Deps) (env : Env) (st : Store)
    (input : VerifyEmailInput) (h : LedgerSound s d st) :
    LedgerSound s d (s.VerifyEmail d env st input).2 := by
  simp only [AuthService.VerifyEmail, Tx.start, Tx.Rollback, Tx.Commit]
  repeat' split
  all_goals exact h

theorem ResendVerification_sound (s : AuthService) (d : Deps) (env : Env) (st : Store)
    (input : ResendVerificationInput) (h : LedgerSound s d st) :
    LedgerSound s d (s.ResendVerification d env st input).2 := by
  simp only [AuthService.ResendVerification, Tx.start, Tx.Rollback, Tx.Commit]
  repeat' split
  all_goals exact h

theorem Cleanup_sound (s : AuthService) (d : Deps) (env : Env) (st : Store)
    (h : LedgerSound s d st) : LedgerSound s d (s.CleanupExpiredTokens env st).2 := by
  unfold AuthService.CleanupExpiredTokens
  split
  · exact h
  · intro x hx
    exact h x (List.mem_of_mem_filter hx)

theorem Reachable_sound (s : AuthService) (d : Deps) (st : Store) (h : Reachable s d st) :
    LedgerSound s d st := by
  induction h with
  | empty => intro x hx; simp at hx
  | register env input _ ih => exact Register_sound s d env _ input ih
  | login env input _ ih => exact Login_sound s d env _ input ih
  | refresh env input _ ih => exact Refresh_sound s d env _ input ih
  | logout env userID _ ih => exact Logout_sound s d env _ userID ih
  | changePassword env input _ ih => exact ChangePassword_sound s d env _ input ih
  | forgotPassword env input _ ih => exact ForgotPassword_sound s d env _ input ih
  | resetPassword env input _ ih => exact ResetPassword_sound s d env _ input ih
  | verifyEmail env input _ ih => exact VerifyEmail_sound s d env _ input ih
  | resendVerification env input _ ih => exact ResendVerification_sound s d env _ input ih
  | cleanupExpiredTokens env _ ih => exact Cleanup_sound s d env _ ih

theorem JWTAuth_bearer {α : Type} (d : Deps) (hl : d.toLower "Bearer" = "bearer") (now : Int)
    (secret tok : String) (next : String → String → Except AppError α) :
    (∀ claims, d.jwtParseClaims secret now tok = some claims →
      JWTAuth d now secret next ("Bearer " ++ tok) = next claims.UserID claims.UserType) ∧
    (d.jwtParseClaims secret now tok = none →
      JWTAuth d now secret next ("Bearer " ++ tok) =
        .error (Unauthorized "Invalid token")) := by
  have hne : ("Bearer " ++ tok) ≠ "" := by
    intro h
    have := congrArg String.data h
    simp at this
  have hcut : cutFirst ' ' ("Bearer".data ++ ' ' :: tok.data) = some ("Bearer".data, tok.data) :=
    cutFirst_append ' ' _ _ (by decide)
  have hdata : ("Bearer " ++ tok).data = "Bearer".data ++ ' ' :: tok.data := by
    simp [String.data_append]
  have hsplit : SplitN2 ("Bearer " ++ tok) ' ' = ["Bearer", tok] := by
    unfold SplitN2
    rw [String.toList, hdata, hcut]
  unfold JWTAuth
  rw [if_neg hne, hsplit]
  simp only [hl, ne_eq, not_true_eq_false, if_false]
  constructor
  · intro claims h
    rw [h]
  · intro h
    rw [h]

/-! ## Refresh rotation -/

/-- C1 (as amended): if `Refresh(t)` succeeds and the digest of the refresh token it
returns differs from the digest of `t`, then a following `Refresh(t)` on the
resulting state, at the same or any later time, never succeeds and leaves the store
as it is.  While `t` still passes `ParseToken`, and the transaction and the claiming
update do not fail, the error is Unauthorized "Refresh token revoked or expired";
once `t` no longer passes `ParseToken` (its signed expiry has passed) the error is
Unauthorized "Invalid refresh token". -/
theorem refresh_replay_refused (s : AuthService) (d : Deps) (env1 env2 : Env)
    (st st1 : Store) (t : String) (r : AuthResult)
    (h1 : s.Refresh d env1 st ⟨t⟩ = (.ok r, st1))
    (hne : hashVerifier d r.RefreshToken ≠ hashVerifier d t)
    (hle : env1.now ≤ env2.now) :
    (∃ e, s.Refresh d env2 st1 ⟨t⟩ = (.error e, st1)) ∧
    (ParseToken d env2.now s.jwtSecret t ≠ none →
      env2.fails .begin = false → env2.fails .claimToken = false →
      s.Refresh d env2 st1 ⟨t⟩ =
        (.error (Unauthorized "Refresh token revoked or expired"), st1)) ∧
    (ParseToken d env2.now s.jwtSecret t = none →
      s.Refresh d env2 st1 ⟨t⟩ = (.error (Unauthorized "Invalid refresh token"), st1)) := by
  obtain ⟨claims, -, -, hst⟩ := Refresh_ok_store s d env1 st st1 t r h1
  have hun : ∀ x ∈ st1.refreshTokens, claimable (hashVerifier d t) env2.now x = false := by
    intro x hx
    rw [hst] at hx
    simp only [List.mem_append, List.mem_map, List.mem_singleton] at hx
    rcases hx with ⟨y, -, rfl⟩ | rfl
    · exact claimable_after_rotation _ _ _ hle y
    · simp [claimable, issuedRow, hne]
  obtain ⟨hfail, hmsg⟩ := Refresh_unclaimable s d env2 st1 t hun
  refine ⟨hfail, ?_, ?_⟩
  · intro hp hb hc
    have := hmsg hb hc
    rw [this]
    simp [refusalMessage, Option.isSome_iff_ne_none, hp]
  · intro hp
    unfold AuthService.Refresh
    simp [hp]

/-- C1, an instance: `demoToken` is rotated at time 5 and presented again at time 9. -/
theorem refresh_replay_refused_witness :
    demoService.Refresh refDeps (quietEnv 5) demoStore ⟨demoToken⟩ =
        (.ok demoResult, demoStore1) ∧
      hashVerifier refDeps demoResult.RefreshToken ≠ hashVerifier refDeps demoToken ∧
      (quietEnv 5).now ≤ (quietEnv 9).now ∧
      demoService.Refresh refDeps (quietEnv 9) demoStore1 ⟨demoToken⟩ =
        (.error (Unauthorized "Refresh token revoked or expired"), demoStore1) :=
  ⟨by decide, by decide, by decide,
    (refresh_replay_refused demoService refDeps (quietEnv 5) (quietEnv 9) demoStore demoStore1
      demoToken demoResult (by decide) (by decide) (by decide)).2.1
      (by decide) (by decide) (by decide)⟩

/-- C1 as stated fails: `demoToken` is rotated at time 5; presented again after its
signed expiry it is refused with the message "Invalid refresh token", not
"Refresh token revoked or expired". -/
theorem refresh_replay_message_counterexample :
    demoService.Refresh refDeps (quietEnv 5) demoStore ⟨demoToken⟩ =
        (.ok demoResult, demoStore1) ∧
      (quietEnv 5).now ≤ (quietEnv 604800000000001).now ∧
      demoService.Refresh refDeps (quietEnv 604800000000001) demoStore1 ⟨demoToken⟩ =
        (.error (Unauthorized "Invalid refresh token"), demoStore1) ∧
      (Unauthorized "Invalid refresh token").Message ≠ "Refresh token revoked or expired" := by
  decide

/-- C2: for a token `t` that passes `ParseToken`, whose subject is the id of an
existing user, and a call in which no step fails, `Refresh(t)` succeeds if and only
if the ledger holds a row with `token_hash` the digest of `t`, `revoked = false` and
`expires_at > now`; when there is no such row it fails with Unauthorized
("Refresh token revoked or expired") and the store is unchanged. -/
theorem refresh_succeeds_iff_usable_row (s : AuthService) (d : Deps) (env : Env)
    (st : Store) (t : String) (claims : RegisteredClaims)
    (hparse : ParseToken d env.now s.jwtSecret t = some claims)
    (huser : ∃ u ∈ st.users, u.id = claims.Subject)
    (hquiet : ∀ step, env.fails step = false) :
    ((∃ r st1, s.Refresh d env st ⟨t⟩ = (.ok r, st1)) ↔
      ∃ x ∈ st.refreshTokens,
        x.tokenHash = hashVerifier d t ∧ x.revoked = false ∧ x.expiresAt > env.now) ∧
    ((¬ ∃ x ∈ st.refreshTokens,
        x.tokenHash = hashVerifier d t ∧ x.revoked = false ∧ x.expiresAt > env.now) →
      s.Refresh d env st ⟨t⟩ =
        (.error (Unauthorized "Refresh token revoked or expired"), st)) := by
  constructor
  · constructor
    · rintro ⟨r, st1, h⟩
      obtain ⟨_, -, ⟨x, hx, hc⟩, -⟩ := Refresh_ok_store s d env st st1 t r h
      exact ⟨x, hx, (claimable_iff _ _ _).mp hc⟩
    · rintro ⟨x, hx, hc⟩
      exact Refresh_claimable_ok s d env st t claims hparse huser hquiet
        ⟨x, hx, (claimable_iff _ _ _).mpr hc⟩
  · intro hno
    have hun : ∀ x ∈ st.refreshTokens, claimable (hashVerifier d t) env.now x = false := by
      intro x hx
      cases hc : claimable (hashVerifier d t) env.now x with
      | false => rfl
      | true => exact absurd ⟨x, hx, (claimable_iff _ _ _).mp hc⟩ hno
    have := (Refresh_unclaimable s d env st t hun).2 (hquiet _) (hquiet _)
    rw [this]
    simp [refusalMessage, hparse]

/-- C2, an instance: `demoToken` at time 5 on `demoStore`, whose ledger holds its
usable row. -/
theorem refresh_succeeds_iff_usable_row_witness :
    ParseToken refDeps (quietEnv 5).now demoService.jwtSecret demoToken =
        some { ID := "jti-1", Subject := "u1", ExpiresAt := 604800000000000,
               IssuedAt := 0, Issuer := "golid" } ∧
      (∃ u ∈ demoStore.users, u.id = "u1") ∧
      (∀ step, (quietEnv 5).fails step = false) ∧
      ∃ r st1, demoService.Refresh refDeps (quietEnv 5) demoStore ⟨demoToken⟩ = (.ok r, st1) :=
  ⟨by decide, ⟨demoUser, by decide, by decide⟩, fun _ => rfl,
    (refresh_succeeds_iff_usable_row demoService refDeps (quietEnv 5) demoStore demoToken
      { ID := "jti-1", Subject := "u1", ExpiresAt := 604800000000000,
        IssuedAt := 0, Issuer := "golid" }
      (by decide) ⟨demoUser, by decide, by decide⟩ (fun _ => rfl)).1.mpr
      ⟨demoRow, by decide, by decide, by decide, by decide⟩⟩

/-- C3: whenever `Refresh` returns an error, the store after the call (users and
ledger) is the store before it; a row the transaction had already marked revoked is
therefore not revoked afterwards. -/
theorem refresh_error_leaves_store (s : AuthService) (d : Deps) (env : Env) (st : Store)
    (input : RefreshInput) (e : AppError)
    (h : (s.Refresh d env st input).1 = .error e) :
    (s.Refresh d env st input).2 = st :=
  Refresh_error_store s d env st _ input e (Prod.ext h rfl)

/-- C3, two instances: the row of `demoToken` is claimed and then the user is not
found, or the new ledger row cannot be stored; in both the store is unchanged and
the row is still not revoked. -/
theorem refresh_error_leaves_store_witness :
    ((demoService.Refresh refDeps (quietEnv 5) orphanStore ⟨demoToken⟩).1 =
        .error (Unauthorized "User not found") ∧
      (demoService.Refresh refDeps (quietEnv 5) orphanStore ⟨demoToken⟩).2 = orphanStore) ∧
    ((demoService.Refresh refDeps (failingEnv 5 .storeToken) demoStore ⟨demoToken⟩).1 =
        .error (Internal "store refresh token") ∧
      (demoService.Refresh refDeps (failingEnv 5 .storeToken) demoStore ⟨demoToken⟩).2 =
        demoStore ∧
      demoRow ∈ demoStore.refreshTokens ∧ demoRow.revoked = false) :=
  ⟨⟨by decide,
      refresh_error_leaves_store demoService refDeps (quietEnv 5) orphanStore ⟨demoToken⟩
        (Unauthorized "User not found") (by decide)⟩,
    ⟨by decide,
      refresh_error_leaves_store demoService refDeps (failingEnv 5 .storeToken) demoStore
        ⟨demoToken⟩ (Internal "store refresh token") (by decide),
      by decide, by decide⟩⟩

/-! ## Global sign-out -/

/-- C5: after `Logout`, `ChangePassword` or `ResetPassword` succeeds for a user, every
ledger row owned by that user is revoked, and `Refresh` of any token whose ledger
rows were owned by that user fails, with Unauthorized unless the storage fails. -/
theorem sign_out_revokes_all_sessions (s : AuthService) (d : Deps) (env : Env)
    (st st1 : Store) :
    (∀ userID, s.Logout env st userID = (.ok (), st1) → SignedOut s d st st1 userID) ∧
    (∀ input, s.ChangePassword d env st input = (.ok (), st1) →
      SignedOut s d st st1 input.UserID) ∧
    (∀ input, s.ResetPassword d env st input = (.ok (), st1) →
      ∃ selector verifier u, parseResetToken input.Token = some (selector, verifier) ∧
        st.userByResetSelector selector env.now = some u ∧ SignedOut s d st st1 u.id) := by
  refine ⟨?_, ?_, ?_⟩
  · intro userID h
    apply signedOut_of_ledger
    rw [Logout_ok_store s env st st1 userID h]
    rfl
  · intro input h
    apply signedOut_of_ledger
    rw [ChangePassword_ok_store s d env st st1 input h]
    rfl
  · intro input h
    obtain ⟨selector, verifier, u, _, -, hparse, hu, -, -, hst⟩ :=
      ResetPassword_ok_store s d env st st1 input h
    refine ⟨selector, verifier, u, hparse, hu, ?_⟩
    apply signedOut_of_ledger
    rw [hst]
    rfl

/-- C5, three instances on the session of `u1`: after `Logout`, after
`ChangePassword` and after `ResetPassword` with the pending token `rsel.rver`, the
user is signed out and `Refresh(demoToken)` is refused with Unauthorized. -/
theorem sign_out_revokes_all_sessions_witness :
    (demoService.Logout (quietEnv 5) demoStore "u1" =
        (.ok (), (demoService.Logout (quietEnv 5) demoStore "u1").2) ∧
      SignedOut demoService refDeps demoStore
        (demoService.Logout (quietEnv 5) demoStore "u1").2 "u1" ∧
      (demoService.Refresh refDeps (quietEnv 6)
        (demoService.Logout (quietEnv 5) demoStore "u1").2 ⟨demoToken⟩).1 =
        .error (Unauthorized "Refresh token revoked or expired")) ∧
    (demoService.ChangePassword refDeps (quietEnv 5) demoStore
        ⟨"u1", "password123", "newpassword123"⟩ =
        (.ok (), (demoService.ChangePassword refDeps (quietEnv 5) demoStore
          ⟨"u1", "password123", "newpassword123"⟩).2) ∧
      SignedOut demoService refDeps demoStore
        (demoService.ChangePassword refDeps (quietEnv 5) demoStore
          ⟨"u1", "password123", "newpassword123"⟩).2 "u1") ∧
    (demoService.ResetPassword refDeps (quietEnv 5) pendingStore
        ⟨"rsel.rver", "newpassword123"⟩ =
        (.ok (), (demoService.ResetPassword refDeps (quietEnv 5) pendingStore
          ⟨"rsel.rver", "newpassword123"⟩).2) ∧
      ∃ selector verifier u, parseResetToken "rsel.rver" = some (selector, verifier) ∧
        pendingStore.userByResetSelector selector (quietEnv 5).now = some u ∧
        SignedOut demoService refDeps pendingStore
          (demoService.ResetPassword refDeps (quietEnv 5) pendingStore
            ⟨"rsel.rver", "newpassword123"⟩).2 u.id) :=
  ⟨⟨by decide,
      (sign_out_revokes_all_sessions demoService refDeps (quietEnv 5) demoStore _).1 "u1"
        (by decide),
      by decide⟩,
    ⟨by decide,
      (sign_out_revokes_all_sessions demoService refDeps (quietEnv 5) demoStore _).2.1
        ⟨"u1", "password123", "newpassword123"⟩ (by decide)⟩,
    ⟨by decide,
      (sign_out_revokes_all_sessions demoService refDeps (quietEnv 5) pendingStore _).2.2
        ⟨"rsel.rver", "newpassword123"⟩ (by decide)⟩⟩

/-! ## Single-use tokens -/

/-- C6: when `ResetPassword` succeeds on a token, a second `ResetPassword` with the
same token and any new password of valid length returns an error and leaves the
store as it is; the error is BadRequest ("Invalid or expired reset token") unless
opening the transaction or the lookup fails.  Likewise a second `VerifyEmail` with
a token on which `VerifyEmail` succeeded returns BadRequest ("Invalid or
already-used verification token").  Selectors are taken to identify one user: no
row of another user id carries the same selector. -/
theorem single_use_tokens (s : AuthService) (d : Deps) (env1 env2 : Env) (st st1 : Store)
    (token selector verifier : String) :
    (∀ p1 p2, s.ResetPassword d env1 st ⟨token, p1⟩ = (.ok (), st1) →
      parseResetToken token = some (selector, verifier) →
      (∀ v ∈ st.users, ∀ w ∈ st.users, v.passwordResetSelector = some selector →
        w.passwordResetSelector = some selector → v.id = w.id) →
      8 ≤ len p2 → len p2 ≤ 72 →
      ∃ e, s.ResetPassword d env2 st1 ⟨token, p2⟩ = (.error e, st1) ∧
        (env2.fails .begin = false → env2.fails .getUser = false →
          e = BadRequest "Invalid or expired reset token")) ∧
    (s.VerifyEmail d env1 st ⟨token⟩ = (.ok (), st1) →
      parseVerificationToken token = some (selector, verifier) →
      (∀ v ∈ st.users, ∀ w ∈ st.users, v.verificationSelector = some selector →
        w.verificationSelector = some selector → v.id = w.id) →
      ∃ e, s.VerifyEmail d env2 st1 ⟨token⟩ = (.error e, st1) ∧
        (env2.fails .begin = false → env2.fails .getUser = false →
          e = BadRequest "Invalid or already-used verification token")) := by
  constructor
  · intro p1 p2 h hparse hone hlo hhi
    obtain ⟨sel, ver, u, _, htok, hparse1, hu, -, -, hst⟩ :=
      ResetPassword_ok_store s d env1 st st1 _ h
    simp only at hparse1 htok
    rw [hparse] at hparse1
    simp only [Option.some.injEq, Prod.mk.injEq] at hparse1
    obtain ⟨rfl, rfl⟩ := hparse1
    have hrow := userByResetSelector_after_reset st selector
      (d.bcryptGenerate p1 env1.salt) env1.now env2.now u hu hone
    rw [← hst] at hrow
    exact ResetPassword_no_row s d env2 st1 ⟨token, p2⟩ selector verifier htok hlo hhi
      hparse hrow
  · intro h hparse hone
    obtain ⟨sel, ver, u, _, htok, hparse1, hu, -, -, hst⟩ :=
      VerifyEmail_ok_store s d env1 st st1 _ h
    simp only at hparse1 htok
    rw [hparse] at hparse1
    simp only [Option.some.injEq, Prod.mk.injEq] at hparse1
    obtain ⟨rfl, rfl⟩ := hparse1
    have hrow := userByVerificationSelector_after_verify st selector u hu hone
    rw [← hst] at hrow
    exact VerifyEmail_no_row s d env2 st1 ⟨token⟩ selector verifier htok hparse hrow

/-- C6, two instances on `pendingStore`: the reset token `rsel.rver` and the
verification token `vsel.vver` are each consumed at time 5 and refused at time 6. -/
theorem single_use_tokens_witness :
    (demoService.ResetPassword refDeps (quietEnv 5) pendingStore
        ⟨"rsel.rver", "newpassword123"⟩ =
        (.ok (), (demoService.ResetPassword refDeps (quietEnv 5) pendingStore
          ⟨"rsel.rver", "newpassword123"⟩).2) ∧
      parseResetToken "rsel.rver" = some ("rsel", "rver") ∧
      8 ≤ len "otherpass99" ∧ len "otherpass99" ≤ 72 ∧
      ∃ e, demoService.ResetPassword refDeps (quietEnv 6)
          (demoService.ResetPassword refDeps (quietEnv 5) pendingStore
            ⟨"rsel.rver", "newpassword123"⟩).2 ⟨"rsel.rver", "otherpass99"⟩ =
          (.error e, (demoService.ResetPassword refDeps (quietEnv 5) pendingStore
            ⟨"rsel.rver", "newpassword123"⟩).2) ∧
        ((quietEnv 6).fails .begin = false → (quietEnv 6).fails .getUser = false →
          e = BadRequest "Invalid or expired reset token")) ∧
    (demoService.VerifyEmail refDeps (quietEnv 5) pendingStore ⟨"vsel.vver"⟩ =
        (.ok (), (demoService.VerifyEmail refDeps (quietEnv 5) pendingStore
          ⟨"vsel.vver"⟩).2) ∧
      parseVerificationToken "vsel.vver" = some ("vsel", "vver") ∧
      ∃ e, demoService.VerifyEmail refDeps (quietEnv 6)
          (demoService.VerifyEmail refDeps (quietEnv 5) pendingStore ⟨"vsel.vver"⟩).2
          ⟨"vsel.vver"⟩ =
          (.error e, (demoService.VerifyEmail refDeps (quietEnv 5) pendingStore
            ⟨"vsel.vver"⟩).2) ∧
        ((quietEnv 6).fails .begin = false → (quietEnv 6).fails .getUser = false →
          e = BadRequest "Invalid or already-used verification token")) :=
  ⟨⟨by decide, by decide, by decide, by decide,
      (single_use_tokens demoService refDeps (quietEnv 5) (quietEnv 6) pendingStore _
        "rsel.rver" "rsel" "rver").1 "newpassword123" "otherpass99"
        (by decide) (by decide) (by decide) (by decide) (by decide)⟩,
    ⟨by decide, by decide,
      (single_use_tokens demoService refDeps (quietEnv 5) (quietEnv 6) pendingStore _
        "vsel.vver" "vsel" "vver").2 (by decide) (by decide) (by decide)⟩⟩

/-! ## Reset-token preview -/

/-- C7 (as amended): for every non-empty token and every store, when the lookup does
not fail, `VerifyResetToken` returns `valid = false` with no error, and leaves the
store as it is, in each of the three cases: the token does not split into selector
and verifier; no row with an unexpired reset slot carries the selector; the row
found stores a verifier hash that is not the digest of the verifier. -/
theorem verify_reset_token_rejects_quietly (s : AuthService) (d : Deps) (env : Env)
    (st : Store) (token : String) (hne : token ≠ "")
    (hq : env.fails .getUser = false) :
    (parseResetToken token = none →
      s.VerifyResetToken d env st ⟨token⟩ = (.ok { Valid := false, Email := "" }, st)) ∧
    (∀ selector verifier, parseResetToken token = some (selector, verifier) →
      (∀ u ∈ st.users, resetSelectable selector env.now u = false) →
      s.VerifyResetToken d env st ⟨token⟩ = (.ok { Valid := false, Email := "" }, st)) ∧
    (∀ selector verifier u storedHash,
      parseResetToken token = some (selector, verifier) →
      st.userByResetSelector selector env.now = some u →
      u.passwordResetVerifierHash = some storedHash →
      verifyHash d verifier storedHash = false →
      s.VerifyResetToken d env st ⟨token⟩ = (.ok { Valid := false, Email := "" }, st)) := by
  refine ⟨?_, ?_, ?_⟩
  · intro hparse
    simp [AuthService.VerifyResetToken, hne, hparse]
  · intro selector verifier hparse hnone
    have hfind : st.userByResetSelector selector env.now = none := by
      unfold Store.userByResetSelector
      rw [List.find?_eq_none]
      intro u hu
      simp [hnone u hu]
    simp [AuthService.VerifyResetToken, hne, hparse, hq, hfind]
  · intro selector verifier u storedHash hparse hu hh hv
    simp [AuthService.VerifyResetToken, hne, hparse, hq, hu, hh, hv]

/-- C7, three instances on `pendingStore` at time 5: a token without separator, an
unknown selector and a wrong verifier. -/
theorem verify_reset_token_rejects_quietly_witness :
    ("nodot" ≠ "" ∧ (quietEnv 5).fails .getUser = false ∧ parseResetToken "nodot" = none ∧
      demoService.VerifyResetToken refDeps (quietEnv 5) pendingStore ⟨"nodot"⟩ =
        (.ok { Valid := false, Email := "" }, pendingStore)) ∧
    (parseResetToken "zzzz.rver" = some ("zzzz", "rver") ∧
      (∀ u ∈ pendingStore.users, resetSelectable "zzzz" (quietEnv 5).now u = false) ∧
      demoService.VerifyResetToken refDeps (quietEnv 5) pendingStore ⟨"zzzz.rver"⟩ =
        (.ok { Valid := false, Email := "" }, pendingStore)) ∧
    (parseResetToken "rsel.zzzz" = some ("rsel", "zzzz") ∧
      pendingStore.userByResetSelector "rsel" (quietEnv 5).now = some pendingUser ∧
      pendingUser.passwordResetVerifierHash = some "sha256:rver" ∧
      verifyHash refDeps "zzzz" "sha256:rver" = false ∧
      demoService.VerifyResetToken refDeps (quietEnv 5) pendingStore ⟨"rsel.zzzz"⟩ =
        (.ok { Valid := false, Email := "" }, pendingStore)) :=
  ⟨⟨by decide, rfl, by decide,
      (verify_reset_token_rejects_quietly demoService refDeps (quietEnv 5) pendingStore
        "nodot" (by decide) rfl).1 (by decide)⟩,
    ⟨by decide, by decide,
      (verify_reset_token_rejects_quietly demoService refDeps (quietEnv 5) pendingStore
        "zzzz.rver" (by decide) rfl).2.1 "zzzz" "rver" (by decide) (by decide)⟩,
    ⟨by decide, by decide, by decide, by decide,
      (verify_reset_token_rejects_quietly demoService refDeps (quietEnv 5) pendingStore
        "rsel.zzzz" (by decide) rfl).2.2 "rsel" "zzzz" pendingUser "sha256:rver"
        (by decide) (by decide) (by decide) (by decide)⟩⟩

/-- C7 as stated fails: the empty token does not split into selector and verifier,
and `VerifyResetToken` returns the error BadRequest ("Token is required") for it. -/
theorem verify_reset_token_empty_counterexample :
    parseResetToken "" = none ∧
      (quietEnv 5).fails .getUser = false ∧
      demoService.VerifyResetToken refDeps (quietEnv 5) pendingStore ⟨""⟩ =
        (.error (BadRequest "Token is required"), pendingStore) := by
  decide

/-- C8: `VerifyResetToken` never changes the store; and when a non-empty token
`selector.verifier` finds, at the time of a first and of a second call, the same row
with an unexpired reset slot whose stored hash is the digest of the verifier, both
calls (the second on the state the first one left) return `valid = true` with that
row's email, provided the lookup does not fail. -/
theorem verify_reset_token_non_consuming (s : AuthService) (d : Deps) (env1 env2 : Env)
    (st : Store) (token : String) :
    (s.VerifyResetToken d env1 st ⟨token⟩).2 = st ∧
    (∀ selector verifier storedHash u,
      token ≠ "" → parseResetToken token = some (selector, verifier) →
      env1.fails .getUser = false → env2.fails .getUser = false →
      st.userByResetSelector selector env1.now = some u →
      st.userByResetSelector selector env2.now = some u →
      u.passwordResetVerifierHash = some storedHash →
      verifyHash d verifier storedHash = true →
      s.VerifyResetToken d env1 st ⟨token⟩ = (.ok { Valid := true, Email := u.email }, st) ∧
      s.VerifyResetToken d env2 (s.VerifyResetToken d env1 st ⟨token⟩).2 ⟨token⟩ =
        (.ok { Valid := true, Email := u.email }, st)) := by
  refine ⟨VerifyResetToken_store s d env1 st ⟨token⟩, ?_⟩
  intro selector verifier storedHash u hne hparse hq1 hq2 hu1 hu2 hh hv
  rw [VerifyResetToken_store s d env1 st ⟨token⟩]
  exact ⟨VerifyResetToken_valid s d env1 st token selector verifier storedHash u hne hparse
      hq1 hu1 hh hv,
    VerifyResetToken_valid s d env2 st token selector verifier storedHash u hne hparse
      hq2 hu2 hh hv⟩

/-- C8, an instance: the pending token `rsel.rver` of `pendingStore` is previewed at
time 5 and again at time 6. -/
theorem verify_reset_token_non_consuming_witness :
    "rsel.rver" ≠ "" ∧ parseResetToken "rsel.rver" = some ("rsel", "rver") ∧
      pendingStore.userByResetSelector "rsel" (quietEnv 5).now = some pendingUser ∧
      pendingStore.userByResetSelector "rsel" (quietEnv 6).now = some pendingUser ∧
      pendingUser.passwordResetVerifierHash = some "sha256:rver" ∧
      verifyHash refDeps "rver" "sha256:rver" = true ∧
      demoService.VerifyResetToken refDeps (quietEnv 5) pendingStore ⟨"rsel.rver"⟩ =
        (.ok { Valid := true, Email := pendingUser.email }, pendingStore) ∧
      demoService.VerifyResetToken refDeps (quietEnv 6)
        (demoService.VerifyResetToken refDeps (quietEnv 5) pendingStore ⟨"rsel.rver"⟩).2
        ⟨"rsel.rver"⟩ = (.ok { Valid := true, Email := pendingUser.email }, pendingStore) :=
  ⟨by decide, by decide, by decide, by decide, by decide, by decide,
    (verify_reset_token_non_consuming demoService refDeps (quietEnv 5) (quietEnv 6)
      pendingStore "rsel.rver").2 "rsel" "rver" "sha256:rver" pendingUser (by decide)
      (by decide) rfl rfl (by decide) (by decide) (by decide) (by decide)⟩

/-! ## Anti-enumeration -/

/-- C9 (as amended): for every email whose normalised form is not empty and is the
email of no user row, `ForgotPassword` and `ResendVerification` each return the
empty token with no error and leave the store as it is, provided the lookup does
not fail; `ResendVerification` does the same when the row found is already
verified. -/
theorem unknown_email_is_silent (s : AuthService) (d : Deps) (env : Env) (st : Store)
    (email : String) (hne : normalizeEmail d email ≠ "")
    (hq : env.fails .getUser = false) :
    ((∀ u ∈ st.users, u.email ≠ normalizeEmail d email) →
      s.ForgotPassword d env st ⟨email⟩ = (.ok "", st) ∧
      s.ResendVerification d env st ⟨email⟩ = (.ok "", st)) ∧
    (∀ u, st.userByEmail (normalizeEmail d email) = some u → u.emailVerified = true →
      s.ResendVerification d env st ⟨email⟩ = (.ok "", st)) := by
  constructor
  · intro hno
    have hfind := userByEmail_none st _ hno
    constructor
    · simp [AuthService.ForgotPassword, hne, hq, hfind]
    · simp [AuthService.ResendVerification, hne, hq, hfind]
  · intro u hu hv
    simp [AuthService.ResendVerification, hne, hq, hu, hv]

/-- C9, two instances: an unknown address on `demoStore`, and the verified user
`u2`. -/
theorem unknown_email_is_silent_witness :
    (normalizeEmail refDeps " Unknown@X.com " ≠ "" ∧
      (quietEnv 5).fails .getUser = false ∧
      (∀ u ∈ demoStore.users, u.email ≠ normalizeEmail refDeps " Unknown@X.com ") ∧
      demoService.ForgotPassword refDeps (quietEnv 5) demoStore ⟨" Unknown@X.com "⟩ =
        (.ok "", demoStore) ∧
      demoService.ResendVerification refDeps (quietEnv 5) demoStore ⟨" Unknown@X.com "⟩ =
        (.ok "", demoStore)) ∧
    (normalizeEmail refDeps "B@x.com" ≠ "" ∧
      ({ users := [verifiedUser], refreshTokens := [] } : Store).userByEmail
        (normalizeEmail refDeps "B@x.com") = some verifiedUser ∧
      verifiedUser.emailVerified = true ∧
      demoService.ResendVerification refDeps (quietEnv 5)
        { users := [verifiedUser], refreshTokens := [] } ⟨"B@x.com"⟩ =
        (.ok "", { users := [verifiedUser], refreshTokens := [] })) :=
  ⟨⟨by decide, rfl, by decide,
      (unknown_email_is_silent demoService refDeps (quietEnv 5) demoStore " Unknown@X.com "
        (by decide) rfl).1 (by decide)⟩,
    ⟨by decide, by decide, by decide,
      (unknown_email_is_silent demoService refDeps (quietEnv 5)
        { users := [verifiedUser], refreshTokens := [] } "B@x.com" (by decide) rfl).2
        verifiedUser (by decide) (by decide)⟩⟩

/-- C9 as stated fails: no user of `demoStore` has the email that a blank input
normalises to, and both calls return the error BadRequest ("Email is required"). -/
theorem unknown_email_blank_counterexample :
    normalizeEmail refDeps "  " = "" ∧
      (∀ u ∈ demoStore.users, u.email ≠ normalizeEmail refDeps "  ") ∧
      (quietEnv 5).fails .getUser = false ∧
      demoService.ForgotPassword refDeps (quietEnv 5) demoStore ⟨"  "⟩ =
        (.error (BadRequest "Email is required"), demoStore) ∧
      demoService.ResendVerification refDeps (quietEnv 5) demoStore ⟨"  "⟩ =
        (.error (BadRequest "Email is required"), demoStore) := by
  decide

/-- C10: when the lookup does not fail, `Login` for an email that no user row has
and `Login` for an email whose row stores a hash the password does not verify
against return the same error, Unauthorized with message "Invalid email or
password" and status 401, and neither call changes the store. -/
theorem login_failures_indistinguishable (s : AuthService) (d : Deps) (env1 env2 : Env)
    (st : Store) (in1 in2 : LoginInput) (u : UserRow)
    (hq1 : env1.fails .getUser = false) (hq2 : env2.fails .getUser = false)
    (hnone : ∀ v ∈ st.users, v.email ≠ normalizeEmail d in1.Email)
    (hsome : st.userByEmail (normalizeEmail d in2.Email) = some u)
    (hmis : d.bcryptCompare u.passwordHash in2.Password = false) :
    s.Login d env1 st in1 = (.error (Unauthorized "Invalid email or password"), st) ∧
    s.Login d env2 st in2 = (.error (Unauthorized "Invalid email or password"), st) ∧
    (s.Login d env1 st in1).1 = (s.Login d env2 st in2).1 ∧
    (Unauthorized "Invalid email or password").Code = .CodeUnauthorized ∧
    (Unauthorized "Invalid email or password").Message = "Invalid email or password" ∧
    (Unauthorized "Invalid email or password").HTTPStatus = 401 := by
  have hfind := userByEmail_none st _ hnone
  have h1 : s.Login d env1 st in1 =
      (.error (Unauthorized "Invalid email or password"), st) := by
    simp [AuthService.Login, hq1, hfind]
  have h2 : s.Login d env2 st in2 =
      (.error (Unauthorized "Invalid email or password"), st) := by
    simp [AuthService.Login, hq2, hsome, hmis]
  refine ⟨h1, h2, ?_, rfl, ?_, rfl⟩
  · rw [h1, h2]
  · simp [Unauthorized]

/-- C10, an instance on `demoStore`: an unknown address, and the address of `u1`
with a wrong password. -/
theorem login_failures_indistinguishable_witness :
    (∀ v ∈ demoStore.users, v.email ≠ normalizeEmail refDeps "nobody@x.com") ∧
      demoStore.userByEmail (normalizeEmail refDeps " A@X.com") = some demoUser ∧
      refDeps.bcryptCompare demoUser.passwordHash "wrongpassword" = false ∧
      demoService.Login refDeps (quietEnv 5) demoStore ⟨"nobody@x.com", "password123"⟩ =
        (.error (Unauthorized "Invalid email or password"), demoStore) ∧
      demoService.Login refDeps (quietEnv 6) demoStore ⟨" A@X.com", "wrongpassword"⟩ =
        (.error (Unauthorized "Invalid email or password"), demoStore) :=
  ⟨by decide, by decide, by decide,
    (login_failures_indistinguishable demoService refDeps (quietEnv 5) (quietEnv 6) demoStore
      ⟨"nobody@x.com", "password123"⟩ ⟨" A@X.com", "wrongpassword"⟩ demoUser rfl rfl
      (by decide) (by decide) (by decide)).1,
    (login_failures_indistinguishable demoService refDeps (quietEnv 5) (quietEnv 6) demoStore
      ⟨"nobody@x.com", "password123"⟩ ⟨" A@X.com", "wrongpassword"⟩ demoUser rfl rfl
      (by decide) (by decide) (by decide)).2.1⟩

/-! ## Input validation -/

/-- C14 (as amended): for every non-empty token without a "." separator and every
new password of 8 to 72 bytes, `ResetPassword` fails with BadRequest ("Invalid reset
token") and leaves the store as it is; for a new password shorter than 8 or longer
than 72 bytes it fails with a Validation error instead, whatever the token: the
length of the new password is validated before the token is parsed. -/
theorem reset_password_malformed_token (s : AuthService) (d : Deps) (env : Env)
    (st : Store) (token password : String) (hne : token ≠ "")
    (hparse : parseResetToken token = none) :
    (8 ≤ len password → len password ≤ 72 →
      s.ResetPassword d env st ⟨token, password⟩ =
        (.error (BadRequest "Invalid reset token"), st)) ∧
    (len password < 8 ∨ 72 < len password →
      ∃ details, s.ResetPassword d env st ⟨token, password⟩ =
        (.error (Validation "Validation failed" details), st)) := by
  constructor
  · intro hlo hhi
    have h1 : ¬ len password < 8 := by omega
    have h2 : ¬ len password > 72 := by omega
    simp [AuthService.ResetPassword, hne, h1, h2, hparse]
  · intro hlen
    unfold AuthService.ResetPassword
    simp only [hne, if_false]
    by_cases h1 : len password < 8
    · exact ⟨_, by simp only [h1, if_true]; rfl⟩
    · have h2 : len password > 72 := by omega
      exact ⟨_, by simp only [h1, h2, if_true, if_false]; rfl⟩

/-- C14, two instances: the token "not-a-valid-token" with a password of 14 bytes
and with a password of 5 bytes. -/
theorem reset_password_malformed_token_witness :
    "not-a-valid-token" ≠ "" ∧ parseResetToken "not-a-valid-token" = none ∧
      demoService.ResetPassword refDeps (quietEnv 5) pendingStore
        ⟨"not-a-valid-token", "newpassword123"⟩ =
        (.error (BadRequest "Invalid reset token"), pendingStore) ∧
      ∃ details, demoService.ResetPassword refDeps (quietEnv 5) pendingStore
        ⟨"not-a-valid-token", "short"⟩ =
        (.error (Validation "Validation failed" details), pendingStore) :=
  ⟨by decide, by decide,
    (reset_password_malformed_token demoService refDeps (quietEnv 5) pendingStore
      "not-a-valid-token" "newpassword123" (by decide) (by decide)).1 (by decide) (by decide),
    (reset_password_malformed_token demoService refDeps (quietEnv 5) pendingStore
      "not-a-valid-token" "short" (by decide) (by decide)).2 (Or.inl (by decide))⟩

/-- C14 as stated fails: the non-empty token "not-a-valid-token" has no separator,
and with the new password "short" `ResetPassword` returns a Validation error, not
BadRequest. -/
theorem reset_password_malformed_token_counterexample :
    "not-a-valid-token" ≠ "" ∧ parseResetToken "not-a-valid-token" = none ∧
      demoService.ResetPassword refDeps (quietEnv 5) pendingStore
        ⟨"not-a-valid-token", "short"⟩ =
        (.error (Validation "Validation failed"
          [("password", "Password must be at least 8 characters")]), pendingStore) ∧
      (Validation "Validation failed"
        [("password", "Password must be at least 8 characters")]).Code ≠ .CodeBadRequest := by
  decide

/-- C15: `validateRegisterInput` returns no error if and only if the email is
well formed (non-empty, contains "@", and a "." somewhere after its last "@"), the
password has 8 to 72 bytes, and first name and last name are non-empty; otherwise it
returns a Validation error whose details hold one entry for exactly each failing
field among email, password, first_name and last_name. -/
theorem validateRegisterInput_spec (input : RegisterInput) :
    (validateRegisterInput input = none ↔
      emailWellFormed input.Email ∧ 8 ≤ len input.Password ∧ len input.Password ≤ 72 ∧
        input.FirstName ≠ "" ∧ input.LastName ≠ "") ∧
    (∀ e, validateRegisterInput input = some e →
      e.Code = .CodeValidation ∧ e.Message = "Validation failed" ∧
      (e.Details.map Prod.fst).Nodup ∧
      ∀ key, key ∈ e.Details.map Prod.fst ↔
        (key = "email" ∧ ¬ emailWellFormed input.Email) ∨
        (key = "password" ∧ ¬ (8 ≤ len input.Password ∧ len input.Password ≤ 72)) ∨
        (key = "first_name" ∧ input.FirstName = "") ∨
        (key = "last_name" ∧ input.LastName = "")) := by
  constructor
  · unfold validateRegisterInput
    simp only [gt_iff_lt, List.length_pos, ne_eq, ite_eq_right_iff, reduceCtorEq, imp_false,
      not_not, List.append_eq_nil]
    rw [emailDetail_eq_nil, passwordDetail_eq_nil, firstNameDetail_eq_nil,
      lastNameDetail_eq_nil]
    tauto
  · intro e he
    unfold validateRegisterInput at he
    simp only at he
    split at he
    · simp only [Option.some.injEq] at he
      subst he
      refine ⟨rfl, rfl, ?_, ?_⟩
      · simp only [Validation, List.map_append, emailDetail_keys, passwordDetail_keys,
          firstNameDetail_keys, lastNameDetail_keys]
        split <;> split <;> split <;> split <;> decide
      · intro key
        simp only [Validation, List.map_append, List.mem_append, emailDetail_keys,
          passwordDetail_keys, firstNameDetail_keys, lastNameDetail_keys]
        rw [← emailDetail_eq_nil, ← passwordDetail_eq_nil]
        have h3 := firstNameDetail_eq_nil input.FirstName
        have h4 := lastNameDetail_eq_nil input.LastName
        by_cases a : emailDetail input.Email = [] <;>
        by_cases b : passwordDetail input.Password = [] <;>
        by_cases c : firstNameDetail input.FirstName = [] <;>
        by_cases dd : lastNameDetail input.LastName = [] <;>
        simp [a, b, c, dd, h3.mp, h4.mp] <;> simp_all <;> tauto
    · simp at he

/-- C15, an instance: a well-formed input passes; an input with three failing fields
gets exactly their three entries. -/
theorem validateRegisterInput_spec_witness :
    (emailWellFormed "a@x.com" ∧
      validateRegisterInput ⟨"a@x.com", "password123", "A", "B"⟩ = none) ∧
    (validateRegisterInput ⟨"a@x", "short", "", "B"⟩ =
        some (Validation "Validation failed"
          [("email", "Invalid email format"),
           ("password", "Password must be at least 8 characters"),
           ("first_name", "First name is required")]) ∧
      ((Validation "Validation failed"
          [("email", "Invalid email format"),
           ("password", "Password must be at least 8 characters"),
           ("first_name", "First name is required")]).Details.map Prod.fst).Nodup) :=
  ⟨⟨⟨by decide, by decide, ['a'], ['x', '.', 'c', 'o', 'm'], by decide, by decide, by decide⟩,
      (validateRegisterInput_spec ⟨"a@x.com", "password123", "A", "B"⟩).1.mpr
        ⟨⟨by decide, by decide, ['a'], ['x', '.', 'c', 'o', 'm'], by decide, by decide,
            by decide⟩,
          by decide, by decide, by decide, by decide⟩⟩,
    ⟨by decide,
      ((validateRegisterInput_spec ⟨"a@x", "short", "", "B"⟩).2 _ (by decide)).2.2.1⟩⟩

/-- C16: in `ChangePassword`, and in `ResetPassword` called with a non-empty token, a
new password shorter than 8 or longer than 72 bytes yields a Validation error and
leaves the store as it is; a new password of 8 to 72 bytes never yields a Validation
error from either. -/
theorem password_length_boundaries (s : AuthService) (d : Deps) (env : Env) (st : Store) :
    (∀ input : ChangePasswordInput, len input.NewPassword < 8 ∨ 72 < len input.NewPassword →
      ∃ details, s.ChangePassword d env st input =
        (.error (Validation "Validation failed" details), st)) ∧
    (∀ input : ResetPasswordInput, input.Token ≠ "" →
      len input.NewPassword < 8 ∨ 72 < len input.NewPassword →
      ∃ details, s.ResetPassword d env st input =
        (.error (Validation "Validation failed" details), st)) ∧
    (∀ (input : ChangePasswordInput) (e : AppError),
      8 ≤ len input.NewPassword → len input.NewPassword ≤ 72 →
      (s.ChangePassword d env st input).1 = .error e → e.Code ≠ .CodeValidation) ∧
    (∀ (input : ResetPasswordInput) (e : AppError),
      8 ≤ len input.NewPassword → len input.NewPassword ≤ 72 →
      (s.ResetPassword d env st input).1 = .error e → e.Code ≠ .CodeValidation) := by
  refine ⟨?_, ?_, ?_, ?_⟩
  · intro input hlen
    unfold AuthService.ChangePassword
    by_cases h1 : len input.NewPassword < 8
    · exact ⟨_, by simp only [h1, if_true]; rfl⟩
    · have h2 : len input.NewPassword > 72 := by omega
      exact ⟨_, by simp only [h1, h2, if_true, if_false]; rfl⟩
  · intro input hne hlen
    unfold AuthService.ResetPassword
    simp only [hne, if_false]
    by_cases h1 : len input.NewPassword < 8
    · exact ⟨_, by simp only [h1, if_true]; rfl⟩
    · have h2 : len input.NewPassword > 72 := by omega
      exact ⟨_, by simp only [h1, h2, if_true, if_false]; rfl⟩
  · intro input e hlo hhi h
    exact ChangePassword_not_validation s d env st input hlo hhi e h
  · intro input e hlo hhi h
    exact ResetPassword_not_validation s d env st input hlo hhi e h

/-- C16, four instances at the boundaries 7, 8, 72 and 73 on `demoStore`. -/
theorem password_length_boundaries_witness :
    (len "1234567" < 8 ∧
      ∃ details, demoService.ChangePassword refDeps (quietEnv 5) demoStore
        ⟨"u1", "password123", "1234567"⟩ =
        (.error (Validation "Validation failed" details), demoStore)) ∧
    ("rsel.rver" ≠ "" ∧
      72 < len "1234567890123456789012345678901234567890123456789012345678901234567890123" ∧
      ∃ details, demoService.ResetPassword refDeps (quietEnv 5) pendingStore
        ⟨"rsel.rver",
          "1234567890123456789012345678901234567890123456789012345678901234567890123"⟩ =
        (.error (Validation "Validation failed" details), pendingStore)) ∧
    (8 ≤ len "12345678" ∧ len "12345678" ≤ 72 ∧
      (demoService.ChangePassword refDeps (quietEnv 5) demoStore
        ⟨"u1", "wrong-current", "12345678"⟩).1 =
        .error (BadRequest "Current password is incorrect") ∧
      (BadRequest "Current password is incorrect").Code ≠ .CodeValidation) ∧
    (8 ≤ len "123456789012345678901234567890123456789012345678901234567890123456789012" ∧
      len "123456789012345678901234567890123456789012345678901234567890123456789012" ≤ 72 ∧
      (demoService.ResetPassword refDeps (quietEnv 5) pendingStore
        ⟨"zzzz.rver",
          "123456789012345678901234567890123456789012345678901234567890123456789012"⟩).1 =
        .error (BadRequest "Invalid or expired reset token") ∧
      (BadRequest "Invalid or expired reset token").Code ≠ .CodeValidation) :=
  ⟨⟨by decide,
      (password_length_boundaries demoService refDeps (quietEnv 5) demoStore).1
        ⟨"u1", "password123", "1234567"⟩ (Or.inl (by decide))⟩,
    ⟨by decide, by decide,
      (password_length_boundaries demoService refDeps (quietEnv 5) pendingStore).2.1
        ⟨"rsel.rver",
          "1234567890123456789012345678901234567890123456789012345678901234567890123"⟩
        (by decide) (Or.inr (by decide))⟩,
    ⟨by decide, by decide, by decide,
      (password_length_boundaries demoService refDeps (quietEnv 5) demoStore).2.2.1
        ⟨"u1", "wrong-current", "12345678"⟩ _ (by decide) (by decide) (by decide)⟩,
    ⟨by decide, by decide, by decide,
      (password_length_boundaries demoService refDeps (quietEnv 5) pendingStore).2.2.2
        ⟨"zzzz.rver",
          "123456789012345678901234567890123456789012345678901234567890123456789012"⟩ _
        (by decide) (by decide) (by decide)⟩⟩

/-! ## Registration and email verification -/

/-- C17: in a store that holds a user whose email is the trimmed, lower-cased form
of the submitted email, `Register` never succeeds and leaves the store as it is (no
user row and no ledger row is added); with otherwise valid input, and when hashing,
the random source, opening the transaction and the insert statement do not fail, the
error is Conflict with message "Email already registered". -/
theorem register_duplicate_email_conflict (s : AuthService) (d : Deps) (env : Env)
    (st : Store) (input : RegisterInput) (u : UserRow) (hu : u ∈ st.users)
    (he : u.email = normalizeEmail d input.Email) :
    (∃ e, s.Register d env st input = (.error e, st)) ∧
    (validateRegisterInput { input with Email := normalizeEmail d input.Email } = none →
      env.fails .hashPassword = false → env.fails .random = false →
      env.fails .begin = false → env.fails .createUser = false →
      s.Register d env st input = (.error (Conflict "Email already registered"), st)) :=
  ⟨Register_never_ok_on_duplicate s d env st input u hu he,
    fun hvalid h1 h2 h3 h4 => Register_conflict s d env st input u hu he hvalid h1 h2 h3 h4⟩

/-- C17, an instance: `demoStore` holds `a@x.com`; registering " A@X.com " is a
conflict. -/
theorem register_duplicate_email_conflict_witness :
    demoUser ∈ demoStore.users ∧
      demoUser.email = normalizeEmail refDeps " A@X.com " ∧
      validateRegisterInput
        { Email := normalizeEmail refDeps " A@X.com ", Password := "password123",
          FirstName := "A", LastName := "B" } = none ∧
      demoService.Register refDeps (quietEnv 5) demoStore
        ⟨" A@X.com ", "password123", "A", "B"⟩ =
        (.error (Conflict "Email already registered"), demoStore) :=
  ⟨by decide, by decide, by decide,
    (register_duplicate_email_conflict demoService refDeps (quietEnv 5) demoStore
      ⟨" A@X.com ", "password123", "A", "B"⟩ demoUser (by decide) (by decide)).2
      (by decide) rfl rfl rfl rfl⟩

/-- C18: the verification token a successful `Register` returns is
`selector + "." + verifier`, where the row added for the new user stores that
selector and the digest of that verifier and is not verified; and, when no earlier
row carries the same selector and no step of the call fails, `VerifyEmail` with that
token succeeds and leaves the new user's row with `email_verified = true` and both
the verification selector and the verifier hash cleared, every other row as it
was. -/
theorem register_verification_token (s : AuthService) (d : Deps) (env : Env)
    (st st1 : Store) (input : RegisterInput) (r : AuthResult)
    (h : s.Register d env st input = (.ok r, st1)) :
    ∃ selector verifier u,
      r.VerificationToken = selector ++ "." ++ verifier ∧
      st1.users = st.users ++ [u] ∧ u.id = env.newUserID ∧
      u.emailVerified = false ∧
      u.verificationSelector = some selector ∧
      u.verificationVerifierHash = some (hashVerifier d verifier) ∧
      ((∀ v ∈ st.users, v.verificationSelector ≠ some selector) →
        ∀ env2 : Env, env2.fails .begin = false → env2.fails .getUser = false →
          env2.fails .updateVerification = false → env2.fails .commit = false →
          ∃ st2, s.VerifyEmail d env2 st1 ⟨r.VerificationToken⟩ = (.ok (), st2) ∧
            st2.users = st.users ++
              [{ u with emailVerified := true, verificationSelector := none,
                        verificationVerifierHash := none }]) := by
  obtain ⟨selector, verifier, hgen, hfresh, hst⟩ := Register_ok_store s d env st st1 input r h
  obtain ⟨htok, hdot⟩ := generateVerificationToken_some env _ _ _ hgen
  refine ⟨selector, verifier, registeredRow d env input selector verifier, htok, ?_, rfl, rfl,
    rfl, rfl, ?_⟩
  · rw [hst]
  · intro huniq env2 h1 h2 h3 h4
    have hparse : parseVerificationToken r.VerificationToken = some (selector, verifier) := by
      rw [htok]; exact parseVerificationToken_join selector verifier hdot
    have hne : r.VerificationToken ≠ "" := by rw [htok]; exact join_ne_empty _ _
    have hfind : st1.userByVerificationSelector selector =
        some (registeredRow d env input selector verifier) := by
      rw [hst]
      unfold Store.userByVerificationSelector
      simp only
      rw [List.find?_append]
      have hnone : st.users.find? (verificationSelectable selector) = none := by
        rw [List.find?_eq_none]
        intro v hv
        simp [verificationSelectable, huniq v hv]
      rw [hnone]
      simp [verificationSelectable, registeredRow]
    have hok := VerifyEmail_ok s d env2 st1 r.VerificationToken selector verifier
      (hashVerifier d verifier) _ hne hparse h1 h2 h3 h4 hfind rfl (by simp [verifyHash])
    refine ⟨_, hok, ?_⟩
    rw [hst]
    simp only [Store.markEmailVerified, Store.updateUser, List.map_append, List.map_cons,
      List.map_nil]
    congr 1
    · conv_rhs => rw [← List.map_id st.users]
      apply List.map_congr_left
      intro v hv
      simp [registeredRow, (hfresh v hv).2]

/-- C18, an instance: `new@x.com` registers on `demoStore` at time 5; no earlier row
carries the new selector, and `VerifyEmail` with the returned token succeeds at
time 6. -/
theorem register_verification_token_witness :
    demoService.Register refDeps (quietEnv 5) demoStore
        ⟨" New@X.com ", "password123", "N", "U"⟩ =
        (.ok demoSignup, (demoService.Register refDeps (quietEnv 5) demoStore
          ⟨" New@X.com ", "password123", "N", "U"⟩).2) ∧
      (∀ v ∈ demoStore.users, v.verificationSelector ≠ some "AAAAAAAAAAAAAAAAAAAAAA==") ∧
      (demoService.VerifyEmail refDeps (quietEnv 6)
        (demoService.Register refDeps (quietEnv 5) demoStore
          ⟨" New@X.com ", "password123", "N", "U"⟩).2
        ⟨demoSignup.VerificationToken⟩).1 = .ok () ∧
      ∃ selector verifier u,
        demoSignup.VerificationToken = selector ++ "." ++ verifier ∧
        (demoService.Register refDeps (quietEnv 5) demoStore
          ⟨" New@X.com ", "password123", "N", "U"⟩).2.users = demoStore.users ++ [u] ∧
        u.verificationSelector = some selector ∧
        u.verificationVerifierHash = some (hashVerifier refDeps verifier) :=
  ⟨by decide, by decide, by decide,
    (register_verification_token demoService refDeps (quietEnv 5) demoStore _
      ⟨" New@X.com ", "password123", "N", "U"⟩ demoSignup (by decide)).elim
      (fun selector hs => hs.elim (fun verifier hv => hv.elim (fun u hu =>
        ⟨selector, verifier, u, hu.1, hu.2.1, hu.2.2.2.2.1, hu.2.2.2.2.2.1⟩)))⟩

/-! ## Selector/verifier tokens -/

/-- C20: for every selector seed and verifier seed (in particular of 16 and 32
bytes), with `selector` and `verifier` their URL-safe base64 encodings, both
`parseResetToken` and `parseVerificationToken` return exactly `(selector, verifier)`
for `selector + "." + verifier`; the same holds for every selector that contains no
"." and every verifier, and for what `generateResetToken` and
`generateVerificationToken` return. -/
theorem token_round_trip :
    (∀ selectorSeed verifierSeed : List Nat,
      parseResetToken (EncodeToString selectorSeed ++ "." ++ EncodeToString verifierSeed) =
        some (EncodeToString selectorSeed, EncodeToString verifierSeed) ∧
      parseVerificationToken
          (EncodeToString selectorSeed ++ "." ++ EncodeToString verifierSeed) =
        some (EncodeToString selectorSeed, EncodeToString verifierSeed)) ∧
    (∀ selector verifier : String, '.' ∉ selector.toList →
      parseResetToken (selector ++ "." ++ verifier) = some (selector, verifier) ∧
      parseVerificationToken (selector ++ "." ++ verifier) = some (selector, verifier)) ∧
    (∀ (env : Env) (selector verifier token : String),
      (generateResetToken env = some (selector, verifier, token) →
        parseResetToken token = some (selector, verifier)) ∧
      (generateVerificationToken env = some (selector, verifier, token) →
        parseVerificationToken token = some (selector, verifier))) := by
  refine ⟨?_, ?_, ?_⟩
  · intro selectorSeed verifierSeed
    exact ⟨parseResetToken_join _ _ (EncodeToString_no_dot _),
      parseVerificationToken_join _ _ (EncodeToString_no_dot _)⟩
  · intro selector verifier h
    exact ⟨parseResetToken_join _ _ h, parseVerificationToken_join _ _ h⟩
  · intro env selector verifier token
    constructor
    · intro h
      obtain ⟨rfl, hdot⟩ := generateResetToken_some env _ _ _ h
      exact parseResetToken_join _ _ hdot
    · intro h
      obtain ⟨rfl, hdot⟩ := generateVerificationToken_some env _ _ _ h
      exact parseVerificationToken_join _ _ hdot

/-- C20, two instances: a selector without "." whose verifier contains one, and the
token generated from an all-zero random source. -/
theorem token_round_trip_witness :
    ('.' ∉ "part1".toList ∧
      parseResetToken ("part1" ++ "." ++ "part2.part3") = some ("part1", "part2.part3")) ∧
    (generateResetToken (quietEnv 5) =
        some ("AAAAAAAAAAAAAAAAAAAAAA==", "AAAAAAAAAAAAAAAAAAAAAAAAAAAAAAAAAAAAAAAAAAA=",
          "AAAAAAAAAAAAAAAAAAAAAA==.AAAAAAAAAAAAAAAAAAAAAAAAAAAAAAAAAAAAAAAAAAA=") ∧
      parseResetToken
          "AAAAAAAAAAAAAAAAAAAAAA==.AAAAAAAAAAAAAAAAAAAAAAAAAAAAAAAAAAAAAAAAAAA=" =
        some ("AAAAAAAAAAAAAAAAAAAAAA==", "AAAAAAAAAAAAAAAAAAAAAAAAAAAAAAAAAAAAAAAAAAA=")) :=
  ⟨⟨by decide, (token_round_trip.2.1 "part1" "part2.part3" (by decide)).1⟩,
    ⟨by decide, (token_round_trip.2.2 (quietEnv 5) _ _ _).1 (by decide)⟩⟩

/-! ## Handlers of the enumeration-sensitive endpoints -/

/-- C11: for every request that carries a non-empty email, the `ForgotPassword`
handler answers status 200 with one fixed message, whatever the auth service
returns (a token, the empty token, an error) and however the email service and the
queue are set up; the `ResendVerification` handler does the same with its own fixed
message. -/
theorem handlers_answer_uniformly (h : HandlerEnv) (email : String) (hne : email ≠ "")
    (forgot : ForgotPasswordInput → String × Option AppError)
    (resend : ResendVerificationInput → String × Option AppError) :
    (AuthHandler.ForgotPassword h (some ⟨email⟩) forgot).1 =
      .ok { status := 200,
            body := [("message",
              "If an account exists with that email, a password reset link has been sent.")] } ∧
    (AuthHandler.ResendVerification h (some ⟨email⟩) resend).1 =
      .ok { status := 200,
            body := [("message",
              "If an account exists with that email, a verification link has been sent.")] } := by
  constructor
  · simp only [AuthHandler.ForgotPassword, hne, if_false]
  · simp only [AuthHandler.ResendVerification, hne, if_false]

/-- C11, an instance: the same answer for a service that returns a token, the empty
token, and an error. -/
theorem handlers_answer_uniformly_witness :
    "known@x.com" ≠ "" ∧
      (AuthHandler.ForgotPassword ⟨true, true, false, false⟩ (some ⟨"known@x.com"⟩)
        (fun _ => ("reset-token", none))).1 =
      (AuthHandler.ForgotPassword ⟨true, false, false, false⟩ (some ⟨"known@x.com"⟩)
        (fun _ => ("", none))).1 ∧
      (AuthHandler.ForgotPassword ⟨true, false, false, false⟩ (some ⟨"known@x.com"⟩)
        (fun _ => ("", none))).1 =
      (AuthHandler.ForgotPassword ⟨false, false, false, false⟩ (some ⟨"known@x.com"⟩)
        (fun _ => ("", some (Internal "get user")))).1 :=
  ⟨by decide,
    ((handlers_answer_uniformly ⟨true, true, false, false⟩ "known@x.com" (by decide)
      (fun _ => ("reset-token", none)) (fun _ => ("", none))).1).trans
      ((handlers_answer_uniformly ⟨true, false, false, false⟩ "known@x.com" (by decide)
        (fun _ => ("", none)) (fun _ => ("", none))).1).symm,
    ((handlers_answer_uniformly ⟨true, false, false, false⟩ "known@x.com" (by decide)
      (fun _ => ("", none)) (fun _ => ("", none))).1).trans
      ((handlers_answer_uniformly ⟨false, false, false, false⟩ "known@x.com" (by decide)
        (fun _ => ("", some (Internal "get user"))) (fun _ => ("", none))).1).symm⟩

/-! ## Reissued tokens -/

/-- C12: let `ForgotPassword` (respectively `ResendVerification`) issue the token
`tok` = `nsel.nver` for the user found by the email, and let `old` = `osel.over` be an
earlier, non-empty token whose selector is carried by rows of that user only, with
`(nsel, nver)` different from `(osel, over)` and the two verifiers not colliding under
SHA-256.  Then
`old` is unusable afterwards: `VerifyResetToken` returns `valid = false` and
`ResetPassword` (respectively `VerifyEmail`) fails with BadRequest.  The new token
works: while it is unexpired and no other user's row carries its selector,
`VerifyResetToken` returns `valid = true` (respectively `VerifyEmail` succeeds when no
step fails). -/
theorem reissue_invalidates_earlier_token (s : AuthService) (d : Deps) (env : Env)
    (st st1 : Store) (email tok old osel over nsel nver : String) (u : UserRow)
    (hcol : hashVerifier d over = hashVerifier d nver → over = nver)
    (hu : st.userByEmail (normalizeEmail d email) = some u)
    (hold : old ≠ "") (htok : tok ≠ "")
    (hdiff : (nsel, nver) ≠ (osel, over)) :
    (s.ForgotPassword d env st ⟨email⟩ = (.ok tok, st1) →
      parseResetToken tok = some (nsel, nver) → parseResetToken old = some (osel, over) →
      (∀ w ∈ st.users, w.passwordResetSelector = some osel → w.id = u.id) →
      ResetTokenUnusable s d st1 old ∧
      ((∀ w ∈ st.users, w.passwordResetSelector = some nsel → w.id = u.id) →
        ∀ env2 : Env, env2.fails .getUser = false →
          env2.now < env.now + s.passwordResetTTL →
          ∃ r, s.VerifyResetToken d env2 st1 ⟨tok⟩ = (.ok r, st1) ∧ r.Valid = true)) ∧
    (s.ResendVerification d env st ⟨email⟩ = (.ok tok, st1) →
      parseVerificationToken tok = some (nsel, nver) →
      parseVerificationToken old = some (osel, over) →
      (∀ w ∈ st.users, w.verificationSelector = some osel → w.id = u.id) →
      VerificationTokenUnusable s d st1 old ∧
      ((∀ w ∈ st.users, w.verificationSelector = some nsel → w.id = u.id) →
        ∀ env2 : Env, (∀ step, env2.fails step = false) →
          ∃ st2, s.VerifyEmail d env2 st1 ⟨tok⟩ = (.ok (), st2))) := by
  have hmem : u ∈ st.users := List.mem_of_find?_eq_some hu
  constructor
  · intro h hnp hop hown
    obtain ⟨u1, selector, verifier, hu1, hgen, hst⟩ :=
      ForgotPassword_ok_store s d env st st1 email tok h htok
    rw [hu] at hu1
    simp only [Option.some.injEq] at hu1
    subst hu1
    obtain ⟨hjoin, hdot⟩ := generateResetToken_some env _ _ _ hgen
    have hp2 := parseResetToken_join selector verifier hdot
    rw [← hjoin, hnp] at hp2
    simp only [Option.some.injEq, Prod.mk.injEq] at hp2
    obtain ⟨rfl, rfl⟩ := hp2
    have hrow : ∀ now2 v, st1.userByResetSelector osel now2 = some v →
        ∃ h, v.passwordResetVerifierHash = some h ∧ verifyHash d over h = false := by
      intro now2 v hv
      rw [hst] at hv
      obtain ⟨hsel, hh⟩ := found_after_setResetToken st u.id nsel _ osel _ now2 v hown hv
      refine ⟨_, hh, verifyHash_false_of_ne d _ _ ?_⟩
      intro e
      exact hdiff (by rw [hsel, hcol e])
    refine ⟨⟨?_, ?_⟩, ?_⟩
    · intro env2 hq
      exact VerifyResetToken_mismatch s d env2 st1 old osel over hold hop hq (hrow env2.now)
    · intro env2 password
      exact ResetPassword_mismatch s d env2 st1 old password osel over hold hop
        (hrow env2.now)
    · intro hnew env2 hq hlt
      obtain ⟨v, hv⟩ := exists_found_after_setResetToken st u nsel (hashVerifier d nver)
        (env.now + s.passwordResetTTL) env2.now hmem hlt
      have hv1 : st1.userByResetSelector nsel env2.now = some v := by rw [hst]; exact hv
      obtain ⟨-, hh⟩ := found_after_setResetToken st u.id nsel _ nsel _ env2.now v hnew hv
      exact ⟨_, VerifyResetToken_valid s d env2 st1 tok nsel nver _ v htok hnp hq hv1 hh
        (by simp [verifyHash]), rfl⟩
  · intro h hnp hop hown
    obtain ⟨u1, selector, verifier, hu1, hver, hgen, hst⟩ :=
      ResendVerification_ok_store s d env st st1 email tok h htok
    rw [hu] at hu1
    simp only [Option.some.injEq] at hu1
    subst hu1
    obtain ⟨hjoin, hdot⟩ := generateVerificationToken_some env _ _ _ hgen
    have hp2 := parseVerificationToken_join selector verifier hdot
    rw [← hjoin, hnp] at hp2
    simp only [Option.some.injEq, Prod.mk.injEq] at hp2
    obtain ⟨rfl, rfl⟩ := hp2
    have hrow : ∀ v, st1.userByVerificationSelector osel = some v →
        ∃ h, v.verificationVerifierHash = some h ∧ verifyHash d over h = false := by
      intro v hv
      rw [hst] at hv
      obtain ⟨hsel, hh⟩ := found_after_setVerificationToken st u.id nsel _ osel v hown hv
      refine ⟨_, hh, verifyHash_false_of_ne d _ _ ?_⟩
      intro e
      exact hdiff (by rw [hsel, hcol e])
    refine ⟨?_, ?_⟩
    · intro env2
      exact VerifyEmail_mismatch s d env2 st1 old osel over hold hop hrow
    · intro hnew env2 hq
      obtain ⟨v, hv⟩ := exists_found_after_setVerificationToken st u nsel
        (hashVerifier d nver) hmem hver
      have hv1 : st1.userByVerificationSelector nsel = some v := by rw [hst]; exact hv
      obtain ⟨-, hh⟩ := found_after_setVerificationToken st u.id nsel _ nsel v hnew hv
      exact ⟨_, VerifyEmail_ok s d env2 st1 tok nsel nver _ v htok hnp (hq _) (hq _) (hq _)
        (hq _) hv1 hh (by simp [verifyHash])⟩

/-- C12, two instances on `pendingStore`: at time 10 a new reset token (respectively
verification token) is issued for `a@x.com`; the earlier `rsel.rver` (respectively
`vsel.vver`) is unusable and the new token works at time 11. -/
theorem reissue_invalidates_earlier_token_witness :
    (pendingStore.userByEmail (normalizeEmail refDeps "a@x.com") = some pendingUser ∧
      demoService.ForgotPassword refDeps (quietEnv 10) pendingStore ⟨"a@x.com"⟩ =
        (.ok zeroToken,
          (demoService.ForgotPassword refDeps (quietEnv 10) pendingStore ⟨"a@x.com"⟩).2) ∧
      parseResetToken "rsel.rver" = some ("rsel", "rver") ∧
      ResetTokenUnusable demoService refDeps
        (demoService.ForgotPassword refDeps (quietEnv 10) pendingStore ⟨"a@x.com"⟩).2
        "rsel.rver" ∧
      ∃ r, demoService.VerifyResetToken refDeps (quietEnv 11)
          (demoService.ForgotPassword refDeps (quietEnv 10) pendingStore ⟨"a@x.com"⟩).2
          ⟨zeroToken⟩ =
          (.ok r,
            (demoService.ForgotPassword refDeps (quietEnv 10) pendingStore ⟨"a@x.com"⟩).2) ∧
        r.Valid = true) ∧
    (demoService.ResendVerification refDeps (quietEnv 10) pendingStore ⟨"a@x.com"⟩ =
        (.ok zeroToken,
          (demoService.ResendVerification refDeps (quietEnv 10) pendingStore
            ⟨"a@x.com"⟩).2) ∧
      parseVerificationToken "vsel.vver" = some ("vsel", "vver") ∧
      VerificationTokenUnusable demoService refDeps
        (demoService.ResendVerification refDeps (quietEnv 10) pendingStore ⟨"a@x.com"⟩).2
        "vsel.vver" ∧
      ∃ st2, demoService.VerifyEmail refDeps (quietEnv 11)
        (demoService.ResendVerification refDeps (quietEnv 10) pendingStore ⟨"a@x.com"⟩).2
        ⟨zeroToken⟩ = (.ok (), st2)) :=
  ⟨⟨by decide, by decide, by decide,
      ((reissue_invalidates_earlier_token demoService refDeps (quietEnv 10) pendingStore _
        "a@x.com" zeroToken "rsel.rver" "rsel" "rver" "AAAAAAAAAAAAAAAAAAAAAA=="
        "AAAAAAAAAAAAAAAAAAAAAAAAAAAAAAAAAAAAAAAAAAA=" pendingUser
        (fun h => refDeps_sha256_injective h)
        (by decide) (by decide) (by decide) (by decide)).1
        (by decide) (by decide) (by decide) (by decide)).1,
      ((reissue_invalidates_earlier_token demoService refDeps (quietEnv 10) pendingStore _
        "a@x.com" zeroToken "rsel.rver" "rsel" "rver" "AAAAAAAAAAAAAAAAAAAAAA=="
        "AAAAAAAAAAAAAAAAAAAAAAAAAAAAAAAAAAAAAAAAAAA=" pendingUser
        (fun h => refDeps_sha256_injective h)
        (by decide) (by decide) (by decide) (by decide)).1
        (by decide) (by decide) (by decide) (by decide)).2
        (by decide) (quietEnv 11) rfl (by decide)⟩,
    ⟨by decide, by decide,
      ((reissue_invalidates_earlier_token demoService refDeps (quietEnv 10) pendingStore _
        "a@x.com" zeroToken "vsel.vver" "vsel" "vver" "AAAAAAAAAAAAAAAAAAAAAA=="
        "AAAAAAAAAAAAAAAAAAAAAAAAAAAAAAAAAAAAAAAAAAA=" pendingUser
        (fun h => refDeps_sha256_injective h)
        (by decide) (by decide) (by decide) (by decide)).2
        (by decide) (by decide) (by decide) (by decide)).1,
      ((reissue_invalidates_earlier_token demoService refDeps (quietEnv 10) pendingStore _
        "a@x.com" zeroToken "vsel.vver" "vsel" "vver" "AAAAAAAAAAAAAAAAAAAAAA=="
        "AAAAAAAAAAAAAAAAAAAAAAAAAAAAAAAAAAAAAAAAAAA=" pendingUser
        (fun h => refDeps_sha256_injective h)
        (by decide) (by decide) (by decide) (by decide)).2
        (by decide) (by decide) (by decide) (by decide)).2
        (by decide) (quietEnv 11) (fun _ => rfl)⟩⟩

/-! ## Password reset and change, end to end -/

/-- C13: for a non-empty token `selector.verifier` that finds a row with an
unexpired reset slot whose stored hash is the digest of the verifier, and every new
password of 8 to 72 bytes, `ResetPassword` succeeds when no step fails; every row of
that user then stores the hash of the new password and has the reset selector,
verifier hash and expiry cleared; and, when the hasher verifies exactly the password
it hashed and the email identifies the user, `Login` afterwards succeeds with the new
password and fails with every other one, so with the old one when it differs. -/
theorem reset_password_happy_path (s : AuthService) (d : Deps) (env : Env) (st : Store)
    (token password selector verifier storedHash : String) (u : UserRow)
    (hne : token ≠ "") (hparse : parseResetToken token = some (selector, verifier))
    (hu : st.userByResetSelector selector env.now = some u)
    (hh : u.passwordResetVerifierHash = some storedHash)
    (hv : verifyHash d verifier storedHash = true)
    (hlo : 8 ≤ len password) (hhi : len password ≤ 72)
    (hq : ∀ step, env.fails step = false) :
    ∃ st1, s.ResetPassword d env st ⟨token, password⟩ = (.ok (), st1) ∧
      (∃ v ∈ st1.users, v.id = u.id) ∧
      (∀ v ∈ st1.users, v.id = u.id →
        v.passwordHash = d.bcryptGenerate password env.salt ∧
        v.passwordResetSelector = none ∧ v.passwordResetVerifierHash = none ∧
        v.passwordResetExpires = none) ∧
      (verifiesOnly d (d.bcryptGenerate password env.salt) password →
        (∀ v ∈ st.users, v.email = u.email → v.id = u.id) →
        LoginOnlyWith s d st1 u.email password) := by
  have hmem : u ∈ st.users := List.mem_of_find?_eq_some hu
  refine ⟨_, ResetPassword_ok s d env st token password selector verifier storedHash u hne
    hparse hu hh hv hlo hhi hq, ?_, ?_, ?_⟩
  · exact exists_row_updateUser st u.id _ (fun _ => rfl) u hmem rfl
  · intro v hv hid
    exact mem_resetPasswordHash st u.id _ v hv hid
  · intro hx huniq
    obtain ⟨w, hw, hwid⟩ := userByEmail_of_unique st u hmem huniq
    have hrow := userByEmail_updateUser st u.id u.email
      (fun v => { v with passwordHash := d.bcryptGenerate password env.salt,
                         passwordResetSelector := none, passwordResetVerifierHash := none,
                         passwordResetExpires := none }) (fun _ => rfl) w hw
    rw [if_pos hwid] at hrow
    exact loginOnlyWith_of_row s d _ u.email password _ hrow hx

/-- C13, an instance: the pending token `rsel.rver` of `pendingStore` is consumed at
time 5 with the new password "newpassword123"; afterwards `Login` succeeds with it
and fails with the old password "password123". -/
theorem reset_password_happy_path_witness :
    "rsel.rver" ≠ "" ∧ parseResetToken "rsel.rver" = some ("rsel", "rver") ∧
      pendingStore.userByResetSelector "rsel" (quietEnv 5).now = some pendingUser ∧
      pendingUser.passwordResetVerifierHash = some "sha256:rver" ∧
      verifyHash refDeps "rver" "sha256:rver" = true ∧
      8 ≤ len "newpassword123" ∧ len "newpassword123" ≤ 72 ∧
      verifiesOnly refDeps (refDeps.bcryptGenerate "newpassword123" (quietEnv 5).salt)
        "newpassword123" ∧
      (∀ v ∈ pendingStore.users, v.email = pendingUser.email → v.id = pendingUser.id) ∧
      ∃ st1, demoService.ResetPassword refDeps (quietEnv 5) pendingStore
          ⟨"rsel.rver", "newpassword123"⟩ = (.ok (), st1) ∧
        (∀ v ∈ st1.users, v.id = pendingUser.id →
          v.passwordHash = refDeps.bcryptGenerate "newpassword123" (quietEnv 5).salt ∧
          v.passwordResetSelector = none ∧ v.passwordResetVerifierHash = none ∧
          v.passwordResetExpires = none) ∧
        (∃ r st2, demoService.Login refDeps (quietEnv 6) st1
          ⟨"a@x.com", "newpassword123"⟩ = (.ok r, st2)) ∧
        demoService.Login refDeps (quietEnv 6) st1 ⟨"a@x.com", "password123"⟩ =
          (.error (Unauthorized "Invalid email or password"), st1) :=
  ⟨by decide, by decide, by decide, by decide, by decide, by decide, by decide,
    refDeps_verifiesOnly "salt" "newpassword123" (by decide), by decide,
    (reset_password_happy_path demoService refDeps (quietEnv 5) pendingStore "rsel.rver"
      "newpassword123" "rsel" "rver" "sha256:rver" pendingUser (by decide) (by decide)
      (by decide) (by decide) (by decide) (by decide) (by decide) (fun _ => rfl)).elim
      (fun st1 h => ⟨st1, h.1, h.2.2.1,
        (h.2.2.2 (refDeps_verifiesOnly "salt" "newpassword123" (by decide)) (by decide)
          (quietEnv 6) "a@x.com" (fun _ => rfl) (by decide)).1,
        (h.2.2.2 (refDeps_verifiesOnly "salt" "newpassword123" (by decide)) (by decide)
          (quietEnv 6) "a@x.com" (fun _ => rfl) (by decide)).2 "password123" (by decide)⟩)⟩

/-- C19 (as amended): for an existing user and a new password of 8 to 72 bytes,
`ChangePassword` succeeds only if the supplied current password verifies against the
stored hash.  On a mismatch it returns BadRequest ("Current password is incorrect")
and the store, password hash and ledger, is unchanged.  On a match, when no step
fails, it succeeds and every row of that user stores the hash of the new password;
then, when the hasher verifies exactly the password it hashed and the email
identifies the user, `Login` succeeds with the new password and fails with every
other one, so with the old one when it differs from the new. -/
theorem change_password_verifies_current (s : AuthService) (d : Deps) (env : Env)
    (st : Store) (input : ChangePasswordInput) (u : UserRow)
    (hu : st.userById input.UserID = some u)
    (hlo : 8 ≤ len input.NewPassword) (hhi : len input.NewPassword ≤ 72) :
    (∀ st1, s.ChangePassword d env st input = (.ok (), st1) →
      d.bcryptCompare u.passwordHash input.CurrentPassword = true) ∧
    (d.bcryptCompare u.passwordHash input.CurrentPassword = false →
      env.fails .getUser = false →
      s.ChangePassword d env st input =
        (.error (BadRequest "Current password is incorrect"), st)) ∧
    (d.bcryptCompare u.passwordHash input.CurrentPassword = true →
      (∀ step, env.fails step = false) →
      ∃ st1, s.ChangePassword d env st input = (.ok (), st1) ∧
        (∀ v ∈ st1.users, v.id = input.UserID →
          v.passwordHash = d.bcryptGenerate input.NewPassword env.salt) ∧
        (verifiesOnly d (d.bcryptGenerate input.NewPassword env.salt) input.NewPassword →
          (∀ v ∈ st.users, v.email = u.email → v.id = u.id) →
          LoginOnlyWith s d st1 u.email input.NewPassword)) := by
  have hmem : u ∈ st.users := List.mem_of_find?_eq_some hu
  have hid : u.id = input.UserID := by
    have := List.find?_some hu
    simpa using this
  refine ⟨?_, ?_, ?_⟩
  · intro st1 h
    exact ChangePassword_ok_current s d env st st1 input u hu h
  · intro hc hq
    have h1 : ¬ len input.NewPassword < 8 := by omega
    have h2 : ¬ len input.NewPassword > 72 := by omega
    simp [AuthService.ChangePassword, h1, h2, hq, hu, hc]
  · intro hc hq
    refine ⟨_, ChangePassword_ok s d env st input u hu hc hlo hhi hq, ?_, ?_⟩
    · intro v hv hvid
      exact mem_setPasswordHash st input.UserID _ v hv hvid
    · intro hx huniq
      obtain ⟨w, hw, hwid⟩ := userByEmail_of_unique st u hmem huniq
      have hrow := userByEmail_updateUser st input.UserID u.email
        (fun v => { v with passwordHash := d.bcryptGenerate input.NewPassword env.salt })
        (fun _ => rfl) w hw
      rw [if_pos (hwid.trans hid)] at hrow
      exact loginOnlyWith_of_row s d _ u.email input.NewPassword _ hrow hx

/-- C19, two instances on `demoStore`: a wrong current password is refused and
nothing changes; with the right one the password becomes "newpassword123", after
which `Login` succeeds with it and fails with the old password. -/
theorem change_password_verifies_current_witness :
    demoStore.userById "u1" = some demoUser ∧
      8 ≤ len "newpassword123" ∧ len "newpassword123" ≤ 72 ∧
      (refDeps.bcryptCompare demoUser.passwordHash "wrongpassword" = false ∧
        demoService.ChangePassword refDeps (quietEnv 5) demoStore
          ⟨"u1", "wrongpassword", "newpassword123"⟩ =
          (.error (BadRequest "Current password is incorrect"), demoStore)) ∧
      (refDeps.bcryptCompare demoUser.passwordHash "password123" = true ∧
        ∃ st1, demoService.ChangePassword refDeps (quietEnv 5) demoStore
            ⟨"u1", "password123", "newpassword123"⟩ = (.ok (), st1) ∧
          (∃ r st2, demoService.Login refDeps (quietEnv 6) st1
            ⟨"a@x.com", "newpassword123"⟩ = (.ok r, st2)) ∧
          demoService.Login refDeps (quietEnv 6) st1 ⟨"a@x.com", "password123"⟩ =
            (.error (Unauthorized "Invalid email or password"), st1)) :=
  ⟨by decide, by decide, by decide,
    ⟨by decide,
      (change_password_verifies_current demoService refDeps (quietEnv 5) demoStore
        ⟨"u1", "wrongpassword", "newpassword123"⟩ demoUser (by decide) (by decide)
        (by decide)).2.1 (by decide) rfl⟩,
    ⟨by decide,
      ((change_password_verifies_current demoService refDeps (quietEnv 5) demoStore
        ⟨"u1", "password123", "newpassword123"⟩ demoUser (by decide) (by decide)
        (by decide)).2.2 (by decide) (fun _ => rfl)).elim
        (fun st1 h => ⟨st1, h.1,
          (h.2.2 (refDeps_verifiesOnly "salt" "newpassword123" (by decide)) (by decide)
            (quietEnv 6) "a@x.com" (fun _ => rfl) (by decide)).1,
          (h.2.2 (refDeps_verifiesOnly "salt" "newpassword123" (by decide)) (by decide)
            (quietEnv 6) "a@x.com" (fun _ => rfl) (by decide)).2 "password123"
            (by decide)⟩)⟩⟩

/-- C19 as stated fails: `u1` changes the password "password123" to the same
"password123" (the call succeeds and stores a hash with a new salt); `Login` with
the old password then succeeds. -/
theorem change_password_same_password_counterexample :
    demoStore.userById "u1" = some demoUser ∧
      refDeps.bcryptCompare demoUser.passwordHash "password123" = true ∧
      8 ≤ len "password123" ∧ len "password123" ≤ 72 ∧
      (demoService.ChangePassword refDeps { quietEnv 5 with salt := "pepper" } demoStore
        ⟨"u1", "password123", "password123"⟩).1 = .ok () ∧
      (demoService.Login refDeps (quietEnv 6)
        (demoService.ChangePassword refDeps { quietEnv 5 with salt := "pepper" } demoStore
          ⟨"u1", "password123", "password123"⟩).2 ⟨"a@x.com", "password123"⟩).1 =
        .ok { AccessToken := "at|900000000000|0|u1|user|golid|k",
              RefreshToken := "rt|604800000000000|0|u1|jti-2|golid|k",
              ExpiresIn := 900,
              User := { ID := "u1", Email := "a@x.com", Type_ := "user", CreatedAt := 0 },
              VerificationToken := "" } := by
  decide

/-! ## Digests -/

/-- C21: for all strings `v` and `h`, `verifyHash(v, h)` is true if and only if `h`
equals `hashVerifier(v)`; and when the digest is what the source computes, the
hexadecimal encoding of the 32 bytes of `sha256.Sum256`, `hashVerifier(v)` has 64
characters, all of them lowercase hexadecimal digits, so `verifyHash(v, "")` is
false for every `v`. -/
theorem hash_verification (d : Deps) :
    (∀ v h, verifyHash d v h = true ↔ h = hashVerifier d v) ∧
    (∀ digest : String → List Nat,
      (∀ x, d.sha256Hex x = hexEncodeToString (readBytes 32 (digest x))) →
      ∀ v, (hashVerifier d v).length = 64 ∧
        (∀ c ∈ (hashVerifier d v).toList, c ∈ "0123456789abcdef".toList) ∧
        verifyHash d v "" = false) := by
  constructor
  · intro v h
    simp only [verifyHash, decide_eq_true_eq]
    exact eq_comm
  · intro digest hd v
    have hlen : (hashVerifier d v).length = 64 := by
      simp [hashVerifier, hd, hexEncodeToString, String.length, hexEncode_length,
        readBytes_length]
    refine ⟨hlen, ?_, ?_⟩
    · intro c hc
      simp only [hashVerifier, hd, hexEncodeToString, String.toList] at hc
      exact hexEncode_mem _ c hc
    · simp only [verifyHash, decide_eq_false_iff_not]
      intro e
      rw [e] at hlen
      simp at hlen

/-- C21, an instance: the digest of "test-verifier" at `hexDeps` has 64 characters;
it verifies "test-verifier" and the empty hash verifies nothing. -/
theorem hash_verification_witness :
    (∀ x, hexDeps.sha256Hex x = hexEncodeToString (readBytes 32 (foldDigest x))) ∧
      hashVerifier hexDeps "test-verifier" =
        "746573742d766572696669657200000000000000000000000000000000000000" ∧
      (hashVerifier hexDeps "test-verifier").length = 64 ∧
      verifyHash hexDeps "test-verifier" (hashVerifier hexDeps "test-verifier") = true ∧
      verifyHash hexDeps "test-verifier" "" = false :=
  ⟨fun _ => rfl, by decide,
    ((hash_verification hexDeps).2 foldDigest (fun _ => rfl) "test-verifier").1,
    ((hash_verification hexDeps).1 "test-verifier" _).mpr rfl,
    ((hash_verification hexDeps).2 foldDigest (fun _ => rfl) "test-verifier").2.2⟩

/-! ## Token issuance and ledger sweep -/

/-- C24: a successful token issuance leaves the users and every existing ledger row
as they are and appends exactly one row: its `user_id` is the user the tokens were
issued for, its `token_hash` the digest of the returned refresh token, `revoked` is
false and `expires_at` is the issuance time plus the refresh TTL.  In particular a
successful `Login` appends that row for the user it authenticated and removes or
revokes nothing: every earlier ledger row is still there unchanged. -/
theorem issuance_adds_one_row (s : AuthService) (d : Deps) (env : Env) (db db1 : Store)
    (userID email userType : String) (createdAt : Int) (r : AuthResult)
    (h : s.generateAuthResult d env db userID email userType createdAt = (.ok r, db1)) :
    (db1.users = db.users ∧
      db1.refreshTokens = db.refreshTokens ++
        [{ userId := userID, tokenHash := hashVerifier d r.RefreshToken,
           expiresAt := env.now + s.refreshDuration, revoked := false,
           createdAt := env.now }]) ∧
    (∀ (st st1 : Store) (input : LoginInput) (r1 : AuthResult),
      s.Login d env st input = (.ok r1, st1) →
      st1.users = st.users ∧
      st1.refreshTokens = st.refreshTokens ++
        [{ userId := r1.User.ID, tokenHash := hashVerifier d r1.RefreshToken,
           expiresAt := env.now + s.refreshDuration, revoked := false,
           createdAt := env.now }] ∧
      ∀ x ∈ st.refreshTokens, x ∈ st1.refreshTokens) := by
  constructor
  · rw [generateAuthResult_ok _ _ _ _ _ _ _ _ _ _ h]
    exact ⟨rfl, rfl⟩
  · intro st st1 input r1 hl
    obtain ⟨u, -, -, hid, hst⟩ := Login_ok_store s d env st st1 input r1 hl
    rw [hst, hid]
    refine ⟨rfl, rfl, ?_⟩
    intro x hx
    simp [hx]

/-- C24, an instance: `u1` logs in on `demoStore` at time 5; the ledger gains one row
and `demoRow` is still there. -/
theorem issuance_adds_one_row_witness :
    demoService.generateAuthResult refDeps (quietEnv 5) demoStore "u1" "a@x.com" "user" 0 =
        (.ok demoResult,
          (demoService.generateAuthResult refDeps (quietEnv 5) demoStore "u1" "a@x.com"
            "user" 0).2) ∧
      demoService.Login refDeps (quietEnv 5) demoStore ⟨"a@x.com", "password123"⟩ =
        (.ok demoResult,
          (demoService.Login refDeps (quietEnv 5) demoStore ⟨"a@x.com", "password123"⟩).2) ∧
      (demoService.Login refDeps (quietEnv 5) demoStore
        ⟨"a@x.com", "password123"⟩).2.refreshTokens =
        demoStore.refreshTokens ++
          [{ userId := "u1", tokenHash := hashVerifier refDeps demoResult.RefreshToken,
             expiresAt := (quietEnv 5).now + demoService.refreshDuration, revoked := false,
             createdAt := (quietEnv 5).now }] ∧
      demoRow ∈ (demoService.Login refDeps (quietEnv 5) demoStore
        ⟨"a@x.com", "password123"⟩).2.refreshTokens :=
  ⟨by decide, by decide,
    ((issuance_adds_one_row demoService refDeps (quietEnv 5) demoStore
      (demoService.generateAuthResult refDeps (quietEnv 5) demoStore "u1" "a@x.com"
        "user" 0).2 "u1" "a@x.com" "user" 0 demoResult (by decide)).2 demoStore _ ⟨"a@x.com", "password123"⟩ demoResult
      (by decide)).2.1,
    ((issuance_adds_one_row demoService refDeps (quietEnv 5) demoStore
      (demoService.generateAuthResult refDeps (quietEnv 5) demoStore "u1" "a@x.com"
        "user" 0).2 "u1" "a@x.com" "user" 0 demoResult (by decide)).2 demoStore _ ⟨"a@x.com", "password123"⟩ demoResult
      (by decide)).2.2 demoRow (by decide)⟩

/-- C25: when the statement does not fail, `CleanupExpiredTokens` returns no error,
leaves the users as they are, and the ledger afterwards holds exactly the earlier
rows that are neither revoked nor expired before the current time, unchanged and in
their order; a row with `revoked = false` and `expires_at > now` is never removed.
When the statement fails the store is unchanged. -/
theorem cleanup_deletes_exactly (s : AuthService) (env : Env) (st : Store) :
    (env.fails .cleanupTokens = false →
      (s.CleanupExpiredTokens env st).1 = none ∧
      (s.CleanupExpiredTokens env st).2.users = st.users ∧
      (s.CleanupExpiredTokens env st).2.refreshTokens.Sublist st.refreshTokens ∧
      (∀ x, x ∈ (s.CleanupExpiredTokens env st).2.refreshTokens ↔
        x ∈ st.refreshTokens ∧ ¬ (x.revoked = true ∨ x.expiresAt < env.now)) ∧
      (∀ x ∈ st.refreshTokens, x.revoked = false → x.expiresAt > env.now →
        x ∈ (s.CleanupExpiredTokens env st).2.refreshTokens)) ∧
    (env.fails .cleanupTokens = true → (s.CleanupExpiredTokens env st).2 = st) := by
  constructor
  · intro hq
    simp only [AuthService.CleanupExpiredTokens, hq, Bool.false_eq_true, if_false]
    refine ⟨trivial, trivial, List.filter_sublist _, ?_, ?_⟩
    · intro x
      simp only [List.mem_filter, sweepable, Bool.not_eq_true', Bool.or_eq_false_iff,
        decide_eq_false_iff_not, not_or, not_lt, Bool.not_eq_true]
      tauto
    · intro x hx hr he
      simp only [List.mem_filter, sweepable, Bool.not_eq_true', Bool.or_eq_false_iff,
        decide_eq_false_iff_not, not_lt]
      exact ⟨hx, by omega, hr⟩
  · intro hq
    simp [AuthService.CleanupExpiredTokens, hq]

/-- C25, an instance: the sweep of `sweepStore` at time 5 keeps the usable row and
deletes the revoked and the expired one. -/
theorem cleanup_deletes_exactly_witness :
    (quietEnv 5).fails .cleanupTokens = false ∧
      (demoService.CleanupExpiredTokens (quietEnv 5) sweepStore).2.refreshTokens = [demoRow] ∧
      (demoService.CleanupExpiredTokens (quietEnv 5) sweepStore).1 = none ∧
      demoRow ∈ (demoService.CleanupExpiredTokens (quietEnv 5) sweepStore).2.refreshTokens ∧
      (failingEnv 5 .cleanupTokens).fails .cleanupTokens = true ∧
      (demoService.CleanupExpiredTokens (failingEnv 5 .cleanupTokens) sweepStore).2 =
        sweepStore :=
  ⟨rfl, by decide,
    ((cleanup_deletes_exactly demoService (quietEnv 5) sweepStore).1 rfl).1,
    ((cleanup_deletes_exactly demoService (quietEnv 5) sweepStore).1 rfl).2.2.2.2 demoRow
      (by decide) (by decide) (by decide),
    by decide,
    (cleanup_deletes_exactly demoService (failingEnv 5 .cleanupTokens) sweepStore).2
      (by decide)⟩

/-! ## Error responses -/

/-- C26: for every wrapped cause, the response `ErrorHandler` hands to `c.JSON` for
`apperror.Internal(cause)` is status 500 with code "INTERNAL_ERROR", the fixed
message "An internal error occurred" and no details; so two Internal errors with
different causes get identical responses.  The cause goes to the log only. -/
theorem internal_error_response_hides_cause (cause1 cause2 : String) (w1 w2 : Bool) :
    (ErrorHandler false w1 (.app (Internal cause1))).1 =
      some { status := 500,
             body := { code := "INTERNAL_ERROR", message := "An internal error occurred",
                       details := [] } } ∧
    (ErrorHandler false w1 (.app (Internal cause1))).1 =
      (ErrorHandler false w2 (.app (Internal cause2))).1 := by
  constructor <;> simp [ErrorHandler, Internal, Code.toString]

/-! ## Retry -/

/-- C27: with `fn k` the error of the call number `k` of the closure: for
`attempts <= 0` `Retry` returns nil without calling `fn`; when call `k` (with
`k < attempts`) is the first that returns nil, `Retry` returns nil after exactly
`k + 1` calls; when all `attempts` calls fail, `Retry` returns the error of the last
call after exactly `attempts` calls. -/
theorem retry_contract (attempts delay : Int) (fn : Nat → Option String) :
    (attempts ≤ 0 →
      (Retry attempts delay fn).result = none ∧ (Retry attempts delay fn).calls = 0) ∧
    (∀ k : Nat, (k : Int) < attempts → fn k = none → (∀ j, j < k → fn j ≠ none) →
      (Retry attempts delay fn).result = none ∧ (Retry attempts delay fn).calls = k + 1) ∧
    (0 < attempts → (∀ j : Nat, (j : Int) < attempts → fn j ≠ none) →
      (Retry attempts delay fn).result = fn (attempts.toNat - 1) ∧
        ((Retry attempts delay fn).calls : Int) = attempts) := by
  refine ⟨?_, ?_, ?_⟩
  · intro h
    have : attempts.toNat = 0 := by omega
    simp [Retry, this, retryLoop]
  · intro k hk hnone hfail
    have hk' : k < attempts.toNat := by omega
    have := retryLoop_first_success fn attempts.toNat k 0 delay none [] hk'
      (by simpa using hnone) (by simpa using hfail)
    simpa [Retry] using this
  · intro hpos hfail
    have hfail' : ∀ j, j < attempts.toNat → fn (0 + j) ≠ none := by
      intro j hj
      rw [Nat.zero_add]
      exact hfail j (by omega)
    have := retryLoop_all_fail fn attempts.toNat 0 delay none [] (by omega) hfail'
    simp only [Nat.zero_add] at this
    refine ⟨by simpa [Retry] using this.1, ?_⟩
    simp only [Retry, this.2]
    omega

/-- C27, three instances from the tests: success at the third of three calls, three
failures, and zero attempts. -/
theorem retry_contract_witness :
    ((Retry 3 1000000 (fun k => if k < 2 then some "flaky" else none)).result = none ∧
      (Retry 3 1000000 (fun k => if k < 2 then some "flaky" else none)).calls = 2 + 1) ∧
    ((Retry 3 1000000 (fun _ => some "always fails")).result = some "always fails" ∧
      ((Retry 3 1000000 (fun _ => some "always fails")).calls : Int) = 3) ∧
    ((Retry 0 1000000 (fun _ => some "never called")).result = none ∧
      (Retry 0 1000000 (fun _ => some "never called")).calls = 0) :=
  ⟨(retry_contract 3 1000000 (fun k => if k < 2 then some "flaky" else none)).2.1 2
      (by decide) (by decide) (by decide),
    (retry_contract 3 1000000 (fun _ => some "always fails")).2.2 (by decide)
      (fun _ _ => by simp),
    (retry_contract 0 1000000 (fun _ => some "never called")).1 (by decide)⟩

/-! ## LIKE patterns -/

/-- C28: for every string, `EscapeLike` returns the text with one backslash inserted
before each backslash, percent sign and underscore and nothing else changed;
removing the backslash in front of each escaped character gives the text back; no
backslash, percent sign or underscore of the result is unescaped; and `WrapLike` is
a percent sign, then `EscapeLike`, then a percent sign. -/
theorem escape_like_spec (s : String) :
    (EscapeLike s).toList = escapeOnePass s.toList ∧
    unescape (EscapeLike s).toList = s.toList ∧
    fullyEscaped (EscapeLike s).toList = true ∧
    WrapLike s = "%" ++ EscapeLike s ++ "%" := by
  have h : (EscapeLike s).toList = escapeOnePass s.toList := by
    simp only [EscapeLike, String.toList]
    exact escape_sequential _
  refine ⟨h, ?_, ?_, rfl⟩
  · rw [h]; exact unescape_escapeOnePass _
  · rw [h]; exact fullyEscaped_escapeOnePass _

/-! ## Refresh tokens and the bearer middleware -/

/-- C22. With a parser that returns the claims of a token signed with the same
secret while it is unexpired, and accepts only signed tokens: `GenerateRefreshToken`
for a user and a duration, when signing succeeds, mints a token whose expiry is the
minting time plus the duration, cut down to a whole second.  `ParseToken` with the
same secret succeeds at every time before that expiry and returns claims whose
Subject is the user id, and fails from the expiry on.  A duration of at least one
second leaves the token unexpired at the time of minting; a token minted with a
negative duration fails at every time from its minting on.  `ParseToken` also fails
on every string that is not a token signed with the secret. -/
theorem parse_generated_refresh_token (d : Deps) (hp : ParsesSigned d)
    (ho : ParsesOnlySigned d) (env : Env) (secret userID issuer : String) (dur : Int)
    (hs : env.fails .signRefresh = false) :
    ∃ tok, GenerateRefreshToken d env secret userID issuer dur = some tok ∧
      (∀ now, now < NewNumericDate (env.now + dur) →
        ∃ c, ParseToken d now secret tok = some c ∧ c.Subject = userID) ∧
      (∀ now, NewNumericDate (env.now + dur) ≤ now → ParseToken d now secret tok = none) ∧
      (1000000000 ≤ dur →
        ∃ c, ParseToken d env.now secret tok = some c ∧ c.Subject = userID) ∧
      (dur < 0 → ∀ now, env.now ≤ now → ParseToken d now secret tok = none) ∧
      (∀ (text : String) (now : Int),
        (∀ c, text ≠ d.jwtSignRefresh secret c) → (∀ a, text ≠ d.jwtSignAccess secret a) →
          ParseToken d now secret text = none) := by
  have hparse : ∀ now, ParseToken d now secret (d.jwtSignRefresh secret
        { ID := env.uuid, Subject := userID, ExpiresAt := NewNumericDate (env.now + dur),
          IssuedAt := NewNumericDate env.now, Issuer := issuer }) =
      if now < NewNumericDate (env.now + dur) then
        some { ID := env.uuid, Subject := userID,
               ExpiresAt := NewNumericDate (env.now + dur),
               IssuedAt := NewNumericDate env.now, Issuer := issuer }
      else none := by
    intro now
    rw [ParseToken, hp _ _ _ (NewNumericDate_whole _) (NewNumericDate_whole _)]
  have hok : ∀ now, now < NewNumericDate (env.now + dur) →
      ∃ c, ParseToken d now secret (d.jwtSignRefresh secret
        { ID := env.uuid, Subject := userID, ExpiresAt := NewNumericDate (env.now + dur),
          IssuedAt := NewNumericDate env.now, Issuer := issuer }) = some c ∧
        c.Subject = userID := by
    intro now hnow
    exact ⟨_, by rw [hparse, if_pos hnow], rfl⟩
  have hexp : ∀ now, NewNumericDate (env.now + dur) ≤ now →
      ParseToken d now secret (d.jwtSignRefresh secret
        { ID := env.uuid, Subject := userID, ExpiresAt := NewNumericDate (env.now + dur),
          IssuedAt := NewNumericDate env.now, Issuer := issuer }) = none := by
    intro now hnow
    rw [hparse, if_neg (by omega)]
  refine ⟨_, by simp [GenerateRefreshToken, hs], hok, hexp, ?_, ?_, ?_⟩
  · intro hdur
    have := NewNumericDate_gt (env.now + dur)
    exact hok env.now (by omega)
  · intro hneg now hnow
    have := NewNumericDate_le (env.now + dur)
    exact hexp now (by omega)
  · intro text now h1 h2
    cases hparse : ParseToken d now secret text with
    | none => rfl
    | some c =>
      rcases ho secret now text c hparse with ⟨c0, hc0⟩ | ⟨a, ha⟩
      · exact absurd hc0 (h1 c0)
      · exact absurd ha (h2 a)

/-- C22, an instance: a token minted for `u1` half a second after time 0 with a
duration of 9.7 seconds expires at second 10: it parses at 9.9 seconds and not at
10 seconds; the text `garbage` does not parse. -/
theorem parse_generated_refresh_token_witness :
    (quietEnv 500000000).fails .signRefresh = false ∧
    ∃ tok, GenerateRefreshToken lawDeps (quietEnv 500000000) "k" "u1" "g" 9700000000 =
        some tok ∧
      (∃ c, ParseToken lawDeps 9900000000 "k" tok = some c ∧ c.Subject = "u1") ∧
      ParseToken lawDeps 10000000000 "k" tok = none ∧
      (∃ c, ParseToken lawDeps 500000000 "k" tok = some c ∧ c.Subject = "u1") ∧
      ParseToken lawDeps 0 "k" "garbage" = none :=
  ⟨by decide,
    (parse_generated_refresh_token lawDeps lawDeps_ParsesSigned lawDeps_ParsesOnlySigned
      (quietEnv 500000000) "k" "u1" "g" 9700000000 (by decide)).elim
      (fun tok h => ⟨tok, h.1, h.2.1 9900000000 (by decide), h.2.2.1 10000000000 (by decide),
        h.2.2.2.1 (by decide), by decide⟩)⟩

/-- C23. With a parser that returns the claims of a token signed with the same
secret, and a signer that never produces the empty string: after a successful
`Refresh` of `t`, the returned refresh token differs from `t` whenever the freshly
generated token id differs from the id in the claims of `t`, and neither returned
token is empty. -/
theorem refresh_returns_new_tokens (s : AuthService) (d : Deps) (hp : ParsesSigned d)
    (hn : SignsNonEmpty d) (env : Env) (st st1 : Store) (t : String) (r : AuthResult)
    (h : s.Refresh d env st ⟨t⟩ = (.ok r, st1)) :
    ∃ claims, ParseToken d env.now s.jwtSecret t = some claims ∧
      (env.uuid ≠ claims.ID → r.RefreshToken ≠ t) ∧
      r.RefreshToken ≠ "" ∧ r.AccessToken ≠ "" := by
  obtain ⟨claims, hparse, ⟨a, ha⟩, hr⟩ := Refresh_ok_tokens s d env st st1 t r h
  refine ⟨claims, hparse, ?_, ?_, ?_⟩
  · intro hid heq
    rw [← heq, hr, ParseToken,
      hp _ _ _ (NewNumericDate_whole _) (NewNumericDate_whole _)] at hparse
    split at hparse
    · simp only [Option.some.injEq] at hparse
      exact hid (by rw [← hparse])
    · simp at hparse
  · rw [hr]; exact hn.1 _ _
  · rw [ha]; exact hn.2 _ _

/-- C23, an instance: rotating `briefToken` (token id `jti-1`) one and a half seconds
after it was issued, when the fresh token id is `jti-2`. -/
theorem refresh_returns_new_tokens_witness :
    briefService.Refresh lawDeps (quietEnv 1500000000) briefStore ⟨briefToken⟩ =
        (.ok briefRotated,
          (briefService.Refresh lawDeps (quietEnv 1500000000) briefStore ⟨briefToken⟩).2) ∧
      ∃ claims, ParseToken lawDeps 1500000000 "k" briefToken = some claims ∧
        ("jti-2" ≠ claims.ID → briefRotated.RefreshToken ≠ briefToken) ∧
        briefRotated.RefreshToken ≠ "" ∧ briefRotated.AccessToken ≠ "" :=
  ⟨by decide,
    refresh_returns_new_tokens briefService lawDeps lawDeps_ParsesSigned lawDeps_SignsNonEmpty
      (quietEnv 1500000000) briefStore
      (briefService.Refresh lawDeps (quietEnv 1500000000) briefStore ⟨briefToken⟩).2
      briefToken briefRotated (by decide)⟩

/-- C30 (as amended): with a library that reads a signed token into
`middleware.Claims` while it is unexpired (subject into `UserID`, the key `type` into
`UserType`) and lowers `Bearer` to `bearer`: a refresh token minted by
`GenerateRefreshToken` for user `u` expires at the minting time plus the duration,
cut down to a whole second.  Sent as `Bearer <token>` before that expiry it is
accepted by `JWTAuth` with the same secret, and the next handler runs with
`user_id = u` and `user_type = ""`; from the expiry on it is refused with
Unauthorized "Invalid token".  A duration of at least one second makes the token
acceptable at the time of minting.  An access token minted by `GenerateToken` for
the same user is accepted in the same way, with `user_type` equal to the account
type: the two requests differ in nothing else. -/
theorem jwtauth_accepts_refresh_token {α : Type} (d : Deps) (hr : ReadsRefreshAsClaims d)
    (ha : ReadsAccessClaims d) (hl : d.toLower "Bearer" = "bearer") (env : Env)
    (secret u issuer tok : String) (dur : Int)
    (hgen : GenerateRefreshToken d env secret u issuer dur = some tok)
    (next : String → String → Except AppError α) :
    (∀ now, now < NewNumericDate (env.now + dur) →
      JWTAuth d now secret next ("Bearer " ++ tok) = next u "") ∧
    (∀ now, NewNumericDate (env.now + dur) ≤ now →
      JWTAuth d now secret next ("Bearer " ++ tok) =
        .error (Unauthorized "Invalid token")) ∧
    (1000000000 ≤ dur → JWTAuth d env.now secret next ("Bearer " ++ tok) = next u "") ∧
    (∀ (userType atok : String) (adur now : Int),
      GenerateToken d env secret u userType issuer adur = some atok →
      now < NewNumericDate (env.now + adur) →
        JWTAuth d now secret next ("Bearer " ++ atok) = next u userType) := by
  unfold GenerateRefreshToken at hgen
  split at hgen
  · simp at hgen
  simp only [Option.some.injEq] at hgen
  have hread := fun now => hr secret now
    { ID := env.uuid, Subject := u, ExpiresAt := NewNumericDate (env.now + dur),
      IssuedAt := NewNumericDate env.now, Issuer := issuer }
    (NewNumericDate_whole _) (NewNumericDate_whole _)
  rw [hgen] at hread
  have hmain : ∀ now, now < NewNumericDate (env.now + dur) →
      JWTAuth d now secret next ("Bearer " ++ tok) = next u "" := by
    intro now hnow
    have h1 := hread now
    rw [if_pos hnow] at h1
    exact (JWTAuth_bearer d hl now secret tok next).1 _ h1
  refine ⟨hmain, ?_, ?_, ?_⟩
  · intro now hnow
    have h1 := hread now
    rw [if_neg (not_lt.mpr hnow)] at h1
    exact (JWTAuth_bearer d hl now secret tok next).2 h1
  · intro hdur
    have := NewNumericDate_gt (env.now + dur)
    exact hmain env.now (by omega)
  · intro userType atok adur now hgena hnow
    unfold GenerateToken at hgena
    split at hgena
    · simp at hgena
    simp only [Option.some.injEq] at hgena
    have h1 := ha secret now
      { UserID := u, UserType := userType, ExpiresAt := NewNumericDate (env.now + adur),
        IssuedAt := NewNumericDate env.now, Issuer := issuer }
      (NewNumericDate_whole _) (NewNumericDate_whole _)
    rw [hgena, if_pos hnow] at h1
    exact (JWTAuth_bearer d hl now secret atok next).1 _ h1

/-- C30, an instance: the refresh token `briefToken` of user `u1`, minted at time 0
with a duration of 9 seconds, is accepted one second later with an empty
`user_type`. -/
theorem jwtauth_accepts_refresh_token_witness :
    lawDeps.toLower "Bearer" = "bearer" ∧
    GenerateRefreshToken lawDeps { quietEnv 0 with uuid := "jti-1" } "k" "u1" "g"
        9000000000 = some briefToken ∧
    JWTAuth lawDeps 1000000000 "k" (fun uid type => Except.ok (uid, type))
        ("Bearer " ++ briefToken) = .ok ("u1", "") :=
  ⟨by decide, by decide,
    (jwtauth_accepts_refresh_token lawDeps lawDeps_ReadsRefreshAsClaims
      lawDeps_ReadsAccessClaims (by decide) { quietEnv 0 with uuid := "jti-1" } "k" "u1" "g"
      briefToken 9000000000 (by decide) (fun uid type => Except.ok (uid, type))).1
      1000000000 (by decide)⟩

/-- C30 as stated fails: a refresh token minted for `u1` at 0.2
seconds with the positive duration of half a second has its expiry cut down to
second 0, and `JWTAuth` refuses it at the very time of minting. -/
theorem jwtauth_subsecond_token_counterexample :
    (0 : Int) < 500000000 ∧
    GenerateRefreshToken lawDeps (quietEnv 200000000) "k" "u1" "g" 500000000 =
      some shortLivedToken ∧
    JWTAuth lawDeps 200000000 "k" (fun uid type => Except.ok (uid, type))
        ("Bearer " ++ shortLivedToken) = .error (Unauthorized "Invalid token") := by
  decide

/-! ## The ledger invariant -/

/-- C29. In every store state reachable from the empty store through the ten
operations, each ledger row's `token_hash` is the digest of a refresh token signed
with the service's secret whose subject is the row's `user_id`.  Hence, with a
parser that returns the claims of a signed token, and for a presented token `t`
whose digest no other signed token shares: every row the claiming update of
`Refresh` matches belongs to the subject of `t`, the user id the update returns is
that subject, and the user `Refresh` then reads by the subject is the user read by
the returned id. -/
theorem reachable_ledger_binds_owner (s : AuthService) (d : Deps) (st : Store)
    (hreach : Reachable s d st) :
    LedgerSound s d st ∧
    ∀ (now : Int) (t : String) (claims : RegisteredClaims),
      ParsesSigned d →
      (∀ c, hashVerifier d (d.jwtSignRefresh s.jwtSecret c) = hashVerifier d t →
        d.jwtSignRefresh s.jwtSecret c = t) →
      ParseToken d now s.jwtSecret t = some claims →
        (∀ x ∈ st.refreshTokens, claimable (hashVerifier d t) now x = true →
          x.userId = claims.Subject) ∧
        (∀ uid w, st.claimRefreshToken (hashVerifier d t) now = some (uid, w) →
          uid = claims.Subject ∧ w.userById claims.Subject = w.userById uid) := by
  have hsound := Reachable_sound s d st hreach
  refine ⟨hsound, ?_⟩
  intro now t claims hp hcol hparse
  have hrows : ∀ x ∈ st.refreshTokens, claimable (hashVerifier d t) now x = true →
      x.userId = claims.Subject := by
    intro x hx hcl
    obtain ⟨c, hc, hsub, hexp, hiat⟩ := hsound x hx
    simp only [claimable, Bool.and_eq_true, decide_eq_true_eq] at hcl
    have ht := hcol c (by rw [← hc]; exact hcl.1.1)
    rw [← ht, ParseToken, hp _ _ _ hexp hiat] at hparse
    split at hparse
    · simp only [Option.some.injEq] at hparse
      rw [← hsub, hparse]
    · simp at hparse
  refine ⟨hrows, ?_⟩
  intro uid w hclaim
  unfold Store.claimRefreshToken at hclaim
  split at hclaim
  · simp at hclaim
  rename_i row hrow
  simp only [Option.some.injEq, Prod.mk.injEq] at hclaim
  have huid : uid = claims.Subject := by
    rw [← hclaim.1]
    exact hrows row (List.mem_of_find?_eq_some hrow) (List.find?_some hrow)
  exact ⟨huid, by rw [huid]⟩

/-- C29, an instance: the store after a registration at time 0; the token issued to
the new user `u9` claims a row at time 1, and the update returns `u9`. -/
theorem reachable_ledger_binds_owner_witness :
    Reachable briefService lawDeps
        (briefService.Register lawDeps (quietEnv 0) { users := [], refreshTokens := [] }
          ⟨"new@x.com", "password123", "N", "U"⟩).2 ∧
      ParseToken lawDeps 1 "k" briefIssued = some briefIssuedClaims ∧
      ((briefService.Register lawDeps (quietEnv 0) { users := [], refreshTokens := [] }
          ⟨"new@x.com", "password123", "N", "U"⟩).2.claimRefreshToken
            (hashVerifier lawDeps briefIssued) 1).isSome = true ∧
      ∀ uid w,
        (briefService.Register lawDeps (quietEnv 0) { users := [], refreshTokens := [] }
          ⟨"new@x.com", "password123", "N", "U"⟩).2.claimRefreshToken
            (hashVerifier lawDeps briefIssued) 1 = some (uid, w) →
          uid = "u9" ∧ w.userById "u9" = w.userById uid :=
  ⟨Reachable.register _ _ Reachable.empty, by decide, by decide,
    ((reachable_ledger_binds_owner briefService lawDeps _
      (Reachable.register (quietEnv 0) ⟨"new@x.com", "password123", "N", "U"⟩
        Reachable.empty)).2 1 briefIssued briefIssuedClaims lawDeps_ParsesSigned
      (fun _ h => refDeps_sha256_injective h) (by decide)).2⟩

end Golid
